import Mathlib

/-!
# LeagueStats: `MatchTransformer` and `SummonerEndpoint`

A shallow embedding of `server/app/Transformers/MatchTransformer.js` and
`server/Jax/Endpoints/SummonerEndpoint.js`, and the properties of the
specification that concern them.

## Numbers

The transformer computes with JavaScript Numbers (IEEE-754 binary64): it adds,
multiplies and divides counts and prints the quotients with `toFixed`.  Every
value it can reach from non-negative counts is a non-negative finite binary64
value, `+Infinity` or `NaN`, so `JSNum` has exactly these.  A finite value `x`
is stored as the integer `x * 2 ^ 1074`: every finite binary64 value is an
integer multiple of the least positive one, `2 ^ (-1074)`.  `fl N D` is the
Number nearest to the rational `N / D` (round to nearest, ties to even), which
is what `+`, `*` and `/` return for the exact result.

Count and id fields of the match records are Numbers holding non-negative
integers; a field of type `ℕ` stores that integer.

## Strings

Strings of the match records and of the game data are Lean strings (sequences
of Unicode scalar values).  The summoner name handed to the endpoint is a
sequence of UTF-16 code units, because `encodeURI` distinguishes well-formed
from ill-formed names.  `toLowerCase` is the Unicode default case conversion
with the case tables of Unicode 14.0.

## The heap

`getPlayerData` is a function of the objects it is handed; `getPlayerDataBody`
is its body on a heap, with the objects the body creates and the assignments
it makes to them, and is proved to return what `getPlayerData` gives.

## The rate limiter

The endpoint hands its limiter to the request it constructs.  The limiter and
the request class are not part of the two files; `RateLimiter` follows the
description the specification gives of it.
-/

set_option exponentiation.threshold 5000

namespace LeagueStats

/-! ## JavaScript Numbers -/

/-- A JavaScript Number reachable from non-negative operands: `fin u` is the finite value
`u * 2 ^ (-1074)`, `inf` is `+Infinity`, `nan` is `NaN`. -/
inductive JSNum where
  | fin (units : ℕ)
  | inf
  | nan
deriving DecidableEq, Repr

/-- The integer nearest to `N / D`, the even one of the two when `N / D` lies halfway. -/
def roundHalfEven (N D : ℕ) : ℕ :=
  if 2 * (N % D) < D then N / D
  else if D < 2 * (N % D) then N / D + 1
  else if N / D % 2 = 0 then N / D else N / D + 1

/-- Binary search for the exponent of `x` above the 53 significant bits: started as
`expoSearch x 11 0` on `x < 2 ^ 2100` it returns the `j` with
`2 ^ (j + 52) ≤ x < 2 ^ (j + 53)`, and `0` when `x < 2 ^ 53`. -/
def expoSearch (x : ℕ) : ℕ → ℕ → ℕ
  | 0, acc => acc
  | i + 1, acc =>
    if 2 ^ (acc + 2 ^ i + 52) ≤ x then expoSearch x i (acc + 2 ^ i) else expoSearch x i acc

/-- The Number nearest to the rational `N / D` (`D ≠ 0`): the quotient is measured in units of
`2 ^ (-1074)`, rounded to 53 significant bits, ties to even; a result of `2 ^ 1024` or more is
`+Infinity`. -/
def fl (N D : ℕ) : JSNum :=
  if D * 2 ^ 1024 ≤ N then .inf
  else
    let j := expoSearch (N * 2 ^ 1074 / D) 11 0
    let m := roundHalfEven (N * 2 ^ 1074) (D * 2 ^ j)
    if m * 2 ^ j < 2 ^ 2098 then .fin (m * 2 ^ j) else .inf

/-- The Number holding the non-negative integer `n`. -/
def ofNat (n : ℕ) : JSNum := fl n 1

/-- The Number a decimal numeral with `f` fraction digits denotes: `ofDecimal 1234 2` is the
Number written `12.34`. -/
def ofDecimal (n f : ℕ) : JSNum := fl n (10 ^ f)

/-- `ToNumber` of a numeric field that may be absent: `undefined` converts to `NaN`. -/
def toNumber : Option ℕ → JSNum
  | some n => ofNat n
  | none => .nan

/-- `x + y` on Numbers. -/
def jsAdd : JSNum → JSNum → JSNum
  | .fin x, .fin y => fl (x + y) (2 ^ 1074)
  | .nan, _ => .nan
  | _, .nan => .nan
  | _, _ => .inf

/-- `x * y` on Numbers. -/
def jsMul : JSNum → JSNum → JSNum
  | .fin x, .fin y => fl (x * y) (2 ^ 2148)
  | .nan, _ => .nan
  | _, .nan => .nan
  | .inf, .fin y => if y = 0 then .nan else .inf
  | .fin x, .inf => if x = 0 then .nan else .inf
  | .inf, .inf => .inf

/-- `x / y` on Numbers. -/
def jsDiv : JSNum → JSNum → JSNum
  | .fin x, .fin y => if y = 0 then (if x = 0 then .nan else .inf) else fl x y
  | .nan, _ => .nan
  | _, .nan => .nan
  | .inf, .inf => .nan
  | .inf, .fin _ => .inf
  | .fin _, .inf => .fin 0

/-- The integer `n` that `x.toFixed(f)` prints with `f` fraction digits, for the finite value
of `u` units: the `n` for which `n / 10 ^ f - x` is closest to zero, the larger one of two. -/
def fixedDigits (f u : ℕ) : ℕ := (2 * u * 10 ^ f + 2 ^ 1074) / 2 ^ 1075

/-- The expression `+(x).toFixed(f)`: `toFixed` prints `x` with `f` fraction digits and the
unary plus reads the numeral back.  From `10 ^ 21` on `toFixed` prints `x` as `ToString` does,
which reads back as `x`; `NaN` and `Infinity` print and read back as themselves. -/
def plusToFixed (f : ℕ) : JSNum → JSNum
  | .fin u => if 10 ^ 21 * 2 ^ 1074 ≤ u then .fin u else ofDecimal (fixedDigits f u) f
  | .inf => .inf
  | .nan => .nan

/-! ## Printing Numbers -/

/-- The least `t ≥ 1` within the fuel with `2 ^ 1074 ≤ u * 10 ^ t`: the position of the first
non-zero fraction digit of a value below one. -/
def leadingPos (u : ℕ) : ℕ → ℕ → ℕ
  | 0, t => t
  | fuel + 1, t => if 2 ^ 1074 ≤ u * 10 ^ t then t else leadingPos u fuel (t + 1)

/-- The decimal exponent `p` of a positive value: `10 ^ p ≤ x < 10 ^ (p + 1)`. -/
def decimalExponent (u : ℕ) : ℤ :=
  if 2 ^ 1074 ≤ u then ((Nat.repr (u / 2 ^ 1074)).length : ℤ) - 1
  else - (leadingPos u 400 1 : ℤ)

/-- The digits `s` for which `s * 10 ^ e` reads back as the value of `u` units, if there are
any: of the two multiples of `10 ^ e` around the value, the one that reads back, the nearer
one when both do. -/
def digitsAt (u : ℕ) (e : ℤ) : Option ℕ :=
  let a := 10 ^ e.toNat
  let b := 10 ^ (-e).toNat
  let lo := u * b / (2 ^ 1074 * a)
  let hi := lo + 1
  let okLo := decide (1 ≤ lo ∧ fl (lo * a) b = .fin u)
  let okHi := decide (fl (hi * a) b = .fin u)
  let dLo := u * b - lo * a * 2 ^ 1074
  let dHi := hi * a * 2 ^ 1074 - u * b
  if okLo && (!okHi || decide (dLo < dHi) || (decide (dLo = dHi) && decide (lo % 2 = 0))) then
    some lo
  else if okHi then some hi
  else none

/-- The shortest digits that read back as the value: the largest exponent `e`, tried
downwards from the start, at which some digits do. -/
def shortestDigits (u : ℕ) : ℕ → ℤ → ℕ × ℤ
  | 0, e => (0, e)
  | fuel + 1, e =>
    match digitsAt u e with
    | some s => (s, e)
    | none => shortestDigits u fuel (e - 1)

/-- The text of the value `s * 10 ^ e` as `Number::toString` lays it out: with `k` digits in
`s` and `n = k + e`, plain digits up to `n = 21`, a leading `0.` down to `n = -5`, and the
exponent form otherwise. -/
def layoutDigits (s : ℕ) (e : ℤ) : String :=
  let ds := (Nat.repr s).data
  let k : ℤ := ds.length
  let n : ℤ := k + e
  if k ≤ n ∧ n ≤ 21 then String.mk (ds ++ List.replicate (n - k).toNat '0')
  else if 0 < n ∧ n ≤ 21 then String.mk (ds.take n.toNat ++ '.' :: ds.drop n.toNat)
  else if -6 < n ∧ n ≤ 0 then String.mk ('0' :: '.' :: List.replicate (-n).toNat '0' ++ ds)
  else
    let mant := match ds with
      | [] => []
      | [d] => [d]
      | d :: rest => d :: '.' :: rest
    String.mk (mant ++ 'e' :: (if 0 ≤ n - 1 then '+' else '-') :: (Nat.repr (n - 1).natAbs).data)

/-- The text of `ToString(x)`: the shortest decimal that reads back as `x`. -/
def numberToString : JSNum → String
  | .nan => "NaN"
  | .inf => "Infinity"
  | .fin u =>
    if u = 0 then "0"
    else
      let r := shortestDigits u 20 (decimalExponent u + 1)
      layoutDigits r.1 r.2

/-! ## Strings -/

/-- Whether the needle occurs in the text, from some position on. -/
def includesChars (needle : List Char) : List Char → Bool
  | [] => needle.isPrefixOf []
  | c :: cs => needle.isPrefixOf (c :: cs) || includesChars needle cs

/-- The call `s.includes(needle)`. -/
def includes (s needle : String) : Bool := includesChars needle.data s.data

/-- The pieces of `String.prototype.split` for a non-empty separator, scanning left to right:
`skip` counts the characters of a matched separator still to pass over, `cur` is the piece
being read, in reverse. -/
def splitChars (sep : List Char) : ℕ → List Char → List Char → List (List Char)
  | _, [], cur => [cur.reverse]
  | skip + 1, _ :: cs, cur => splitChars sep skip cs cur
  | 0, c :: cs, cur =>
    if sep.isPrefixOf (c :: cs) then cur.reverse :: splitChars sep (sep.length - 1) cs []
    else splitChars sep 0 cs (c :: cur)

/-- The call `s.split(sep)` for a non-empty separator. -/
def split (s sep : String) : List String := (splitChars sep.data 0 s.data []).map String.mk

/-- The simple lower-case mappings of Unicode 14.0 outside ASCII, in runs
`(first, last, step, image)`: a code point `c` from `first` to `last` with `c - first` a
multiple of `step` is mapped to `image + (c - first)`. -/
def lowerRuns : List (ℕ × ℕ × ℕ × ℕ) :=
  [(0xC0, 0xD6, 1, 0xE0), (0xD8, 0xDE, 1, 0xF8), (0x100, 0x12E, 2, 0x101),
   (0x132, 0x136, 2, 0x133), (0x139, 0x147, 2, 0x13A), (0x14A, 0x176, 2, 0x14B),
   (0x178, 0x178, 1, 0xFF), (0x179, 0x17D, 2, 0x17A), (0x181, 0x181, 1, 0x253),
   (0x182, 0x184, 2, 0x183), (0x186, 0x186, 1, 0x254), (0x187, 0x187, 1, 0x188),
   (0x189, 0x18A, 1, 0x256), (0x18B, 0x18B, 1, 0x18C), (0x18E, 0x18E, 1, 0x1DD),
   (0x18F, 0x18F, 1, 0x259), (0x190, 0x190, 1, 0x25B), (0x191, 0x191, 1, 0x192),
   (0x193, 0x193, 1, 0x260), (0x194, 0x194, 1, 0x263), (0x196, 0x196, 1, 0x269),
   (0x197, 0x197, 1, 0x268), (0x198, 0x198, 1, 0x199), (0x19C, 0x19C, 1, 0x26F),
   (0x19D, 0x19D, 1, 0x272), (0x19F, 0x19F, 1, 0x275), (0x1A0, 0x1A4, 2, 0x1A1),
   (0x1A6, 0x1A6, 1, 0x280), (0x1A7, 0x1A7, 1, 0x1A8), (0x1A9, 0x1A9, 1, 0x283),
   (0x1AC, 0x1AC, 1, 0x1AD), (0x1AE, 0x1AE, 1, 0x288), (0x1AF, 0x1AF, 1, 0x1B0),
   (0x1B1, 0x1B2, 1, 0x28A), (0x1B3, 0x1B5, 2, 0x1B4), (0x1B7, 0x1B7, 1, 0x292),
   (0x1B8, 0x1B8, 1, 0x1B9), (0x1BC, 0x1BC, 1, 0x1BD), (0x1C4, 0x1C4, 1, 0x1C6),
   (0x1C5, 0x1C5, 1, 0x1C6), (0x1C7, 0x1C7, 1, 0x1C9), (0x1C8, 0x1C8, 1, 0x1C9),
   (0x1CA, 0x1CA, 1, 0x1CC), (0x1CB, 0x1DB, 2, 0x1CC), (0x1DE, 0x1EE, 2, 0x1DF),
   (0x1F1, 0x1F1, 1, 0x1F3), (0x1F2, 0x1F4, 2, 0x1F3), (0x1F6, 0x1F6, 1, 0x195),
   (0x1F7, 0x1F7, 1, 0x1BF), (0x1F8, 0x21E, 2, 0x1F9), (0x220, 0x220, 1, 0x19E),
   (0x222, 0x232, 2, 0x223), (0x23A, 0x23A, 1, 0x2C65), (0x23B, 0x23B, 1, 0x23C),
   (0x23D, 0x23D, 1, 0x19A), (0x23E, 0x23E, 1, 0x2C66), (0x241, 0x241, 1, 0x242),
   (0x243, 0x243, 1, 0x180), (0x244, 0x244, 1, 0x289), (0x245, 0x245, 1, 0x28C),
   (0x246, 0x24E, 2, 0x247), (0x370, 0x372, 2, 0x371), (0x376, 0x376, 1, 0x377),
   (0x37F, 0x37F, 1, 0x3F3), (0x386, 0x386, 1, 0x3AC), (0x388, 0x38A, 1, 0x3AD),
   (0x38C, 0x38C, 1, 0x3CC), (0x38E, 0x38F, 1, 0x3CD), (0x391, 0x3A1, 1, 0x3B1),
   (0x3A3, 0x3AB, 1, 0x3C3), (0x3CF, 0x3CF, 1, 0x3D7), (0x3D8, 0x3EE, 2, 0x3D9),
   (0x3F4, 0x3F4, 1, 0x3B8), (0x3F7, 0x3F7, 1, 0x3F8), (0x3F9, 0x3F9, 1, 0x3F2),
   (0x3FA, 0x3FA, 1, 0x3FB), (0x3FD, 0x3FF, 1, 0x37B), (0x400, 0x40F, 1, 0x450),
   (0x410, 0x42F, 1, 0x430), (0x460, 0x480, 2, 0x461), (0x48A, 0x4BE, 2, 0x48B),
   (0x4C0, 0x4C0, 1, 0x4CF), (0x4C1, 0x4CD, 2, 0x4C2), (0x4D0, 0x52E, 2, 0x4D1),
   (0x531, 0x556, 1, 0x561), (0x10A0, 0x10C5, 1, 0x2D00), (0x10C7, 0x10C7, 1, 0x2D27),
   (0x10CD, 0x10CD, 1, 0x2D2D), (0x13A0, 0x13EF, 1, 0xAB70), (0x13F0, 0x13F5, 1, 0x13F8),
   (0x1C90, 0x1CBA, 1, 0x10D0), (0x1CBD, 0x1CBF, 1, 0x10FD), (0x1E00, 0x1E94, 2, 0x1E01),
   (0x1E9E, 0x1E9E, 1, 0xDF), (0x1EA0, 0x1EFE, 2, 0x1EA1), (0x1F08, 0x1F0F, 1, 0x1F00),
   (0x1F18, 0x1F1D, 1, 0x1F10), (0x1F28, 0x1F2F, 1, 0x1F20), (0x1F38, 0x1F3F, 1, 0x1F30),
   (0x1F48, 0x1F4D, 1, 0x1F40), (0x1F59, 0x1F5F, 2, 0x1F51), (0x1F68, 0x1F6F, 1, 0x1F60),
   (0x1F88, 0x1F8F, 1, 0x1F80), (0x1F98, 0x1F9F, 1, 0x1F90), (0x1FA8, 0x1FAF, 1, 0x1FA0),
   (0x1FB8, 0x1FB9, 1, 0x1FB0), (0x1FBA, 0x1FBB, 1, 0x1F70), (0x1FBC, 0x1FBC, 1, 0x1FB3),
   (0x1FC8, 0x1FCB, 1, 0x1F72), (0x1FCC, 0x1FCC, 1, 0x1FC3), (0x1FD8, 0x1FD9, 1, 0x1FD0),
   (0x1FDA, 0x1FDB, 1, 0x1F76), (0x1FE8, 0x1FE9, 1, 0x1FE0), (0x1FEA, 0x1FEB, 1, 0x1F7A),
   (0x1FEC, 0x1FEC, 1, 0x1FE5), (0x1FF8, 0x1FF9, 1, 0x1F78), (0x1FFA, 0x1FFB, 1, 0x1F7C),
   (0x1FFC, 0x1FFC, 1, 0x1FF3), (0x2126, 0x2126, 1, 0x3C9), (0x212A, 0x212A, 1, 0x6B),
   (0x212B, 0x212B, 1, 0xE5), (0x2132, 0x2132, 1, 0x214E), (0x2160, 0x216F, 1, 0x2170),
   (0x2183, 0x2183, 1, 0x2184), (0x24B6, 0x24CF, 1, 0x24D0), (0x2C00, 0x2C2F, 1, 0x2C30),
   (0x2C60, 0x2C60, 1, 0x2C61), (0x2C62, 0x2C62, 1, 0x26B), (0x2C63, 0x2C63, 1, 0x1D7D),
   (0x2C64, 0x2C64, 1, 0x27D), (0x2C67, 0x2C6B, 2, 0x2C68), (0x2C6D, 0x2C6D, 1, 0x251),
   (0x2C6E, 0x2C6E, 1, 0x271), (0x2C6F, 0x2C6F, 1, 0x250), (0x2C70, 0x2C70, 1, 0x252),
   (0x2C72, 0x2C72, 1, 0x2C73), (0x2C75, 0x2C75, 1, 0x2C76), (0x2C7E, 0x2C7F, 1, 0x23F),
   (0x2C80, 0x2CE2, 2, 0x2C81), (0x2CEB, 0x2CED, 2, 0x2CEC), (0x2CF2, 0x2CF2, 1, 0x2CF3),
   (0xA640, 0xA66C, 2, 0xA641), (0xA680, 0xA69A, 2, 0xA681), (0xA722, 0xA72E, 2, 0xA723),
   (0xA732, 0xA76E, 2, 0xA733), (0xA779, 0xA77B, 2, 0xA77A), (0xA77D, 0xA77D, 1, 0x1D79),
   (0xA77E, 0xA786, 2, 0xA77F), (0xA78B, 0xA78B, 1, 0xA78C), (0xA78D, 0xA78D, 1, 0x265),
   (0xA790, 0xA792, 2, 0xA791), (0xA796, 0xA7A8, 2, 0xA797), (0xA7AA, 0xA7AA, 1, 0x266),
   (0xA7AB, 0xA7AB, 1, 0x25C), (0xA7AC, 0xA7AC, 1, 0x261), (0xA7AD, 0xA7AD, 1, 0x26C),
   (0xA7AE, 0xA7AE, 1, 0x26A), (0xA7B0, 0xA7B0, 1, 0x29E), (0xA7B1, 0xA7B1, 1, 0x287),
   (0xA7B2, 0xA7B2, 1, 0x29D), (0xA7B3, 0xA7B3, 1, 0xAB53), (0xA7B4, 0xA7C2, 2, 0xA7B5),
   (0xA7C4, 0xA7C4, 1, 0xA794), (0xA7C5, 0xA7C5, 1, 0x282), (0xA7C6, 0xA7C6, 1, 0x1D8E),
   (0xA7C7, 0xA7C9, 2, 0xA7C8), (0xA7D0, 0xA7D0, 1, 0xA7D1), (0xA7D6, 0xA7D8, 2, 0xA7D7),
   (0xA7F5, 0xA7F5, 1, 0xA7F6), (0xFF21, 0xFF3A, 1, 0xFF41), (0x10400, 0x10427, 1, 0x10428),
   (0x104B0, 0x104D3, 1, 0x104D8), (0x10570, 0x10594, 2, 0x10597), (0x10571, 0x1057A, 1, 0x10598),
   (0x1057D, 0x1058A, 1, 0x105A4), (0x1058D, 0x10592, 1, 0x105B4), (0x10595, 0x10595, 1, 0x105BC),
   (0x10C80, 0x10CB2, 1, 0x10CC0), (0x118A0, 0x118BF, 1, 0x118C0), (0x16E40, 0x16E5F, 1, 0x16E60),
   (0x1E900, 0x1E921, 1, 0x1E922)]

/-- The ranges `(first, last)` of the code points with the property `Case_Ignorable` in
Unicode 14.0. -/
def caseIgnorableRanges : List (ℕ × ℕ) :=
  [(0x27, 0x27), (0x2E, 0x2E), (0x3A, 0x3A), (0x5E, 0x5E), (0x60, 0x60), (0xA8, 0xA8),
   (0xAD, 0xAD), (0xAF, 0xAF), (0xB4, 0xB4), (0xB7, 0xB8), (0x2B0, 0x36F), (0x374, 0x375),
   (0x37A, 0x37A), (0x384, 0x385), (0x387, 0x387), (0x483, 0x489), (0x559, 0x559), (0x55F, 0x55F),
   (0x591, 0x5BD), (0x5BF, 0x5BF), (0x5C1, 0x5C2), (0x5C4, 0x5C5), (0x5C7, 0x5C7), (0x5F4, 0x5F4),
   (0x600, 0x605), (0x610, 0x61A), (0x61C, 0x61C), (0x640, 0x640), (0x64B, 0x65F), (0x670, 0x670),
   (0x6D6, 0x6DD), (0x6DF, 0x6E8), (0x6EA, 0x6ED), (0x70F, 0x70F), (0x711, 0x711), (0x730, 0x74A),
   (0x7A6, 0x7B0), (0x7EB, 0x7F5), (0x7FA, 0x7FA), (0x7FD, 0x7FD), (0x816, 0x82D), (0x859, 0x85B),
   (0x888, 0x888), (0x890, 0x891), (0x898, 0x89F), (0x8C9, 0x902), (0x93A, 0x93A), (0x93C, 0x93C),
   (0x941, 0x948), (0x94D, 0x94D), (0x951, 0x957), (0x962, 0x963), (0x971, 0x971), (0x981, 0x981),
   (0x9BC, 0x9BC), (0x9C1, 0x9C4), (0x9CD, 0x9CD), (0x9E2, 0x9E3), (0x9FE, 0x9FE), (0xA01, 0xA02),
   (0xA3C, 0xA3C), (0xA41, 0xA42), (0xA47, 0xA48), (0xA4B, 0xA4D), (0xA51, 0xA51), (0xA70, 0xA71),
   (0xA75, 0xA75), (0xA81, 0xA82), (0xABC, 0xABC), (0xAC1, 0xAC5), (0xAC7, 0xAC8), (0xACD, 0xACD),
   (0xAE2, 0xAE3), (0xAFA, 0xAFF), (0xB01, 0xB01), (0xB3C, 0xB3C), (0xB3F, 0xB3F), (0xB41, 0xB44),
   (0xB4D, 0xB4D), (0xB55, 0xB56), (0xB62, 0xB63), (0xB82, 0xB82), (0xBC0, 0xBC0), (0xBCD, 0xBCD),
   (0xC00, 0xC00), (0xC04, 0xC04), (0xC3C, 0xC3C), (0xC3E, 0xC40), (0xC46, 0xC48), (0xC4A, 0xC4D),
   (0xC55, 0xC56), (0xC62, 0xC63), (0xC81, 0xC81), (0xCBC, 0xCBC), (0xCBF, 0xCBF), (0xCC6, 0xCC6),
   (0xCCC, 0xCCD), (0xCE2, 0xCE3), (0xD00, 0xD01), (0xD3B, 0xD3C), (0xD41, 0xD44), (0xD4D, 0xD4D),
   (0xD62, 0xD63), (0xD81, 0xD81), (0xDCA, 0xDCA), (0xDD2, 0xDD4), (0xDD6, 0xDD6), (0xE31, 0xE31),
   (0xE34, 0xE3A), (0xE46, 0xE4E), (0xEB1, 0xEB1), (0xEB4, 0xEBC), (0xEC6, 0xEC6), (0xEC8, 0xECD),
   (0xF18, 0xF19), (0xF35, 0xF35), (0xF37, 0xF37), (0xF39, 0xF39), (0xF71, 0xF7E), (0xF80, 0xF84),
   (0xF86, 0xF87), (0xF8D, 0xF97), (0xF99, 0xFBC), (0xFC6, 0xFC6), (0x102D, 0x1030),
   (0x1032, 0x1037), (0x1039, 0x103A), (0x103D, 0x103E), (0x1058, 0x1059), (0x105E, 0x1060),
   (0x1071, 0x1074), (0x1082, 0x1082), (0x1085, 0x1086), (0x108D, 0x108D), (0x109D, 0x109D),
   (0x10FC, 0x10FC), (0x135D, 0x135F), (0x1712, 0x1714), (0x1732, 0x1733), (0x1752, 0x1753),
   (0x1772, 0x1773), (0x17B4, 0x17B5), (0x17B7, 0x17BD), (0x17C6, 0x17C6), (0x17C9, 0x17D3),
   (0x17D7, 0x17D7), (0x17DD, 0x17DD), (0x180B, 0x180F), (0x1843, 0x1843), (0x1885, 0x1886),
   (0x18A9, 0x18A9), (0x1920, 0x1922), (0x1927, 0x1928), (0x1932, 0x1932), (0x1939, 0x193B),
   (0x1A17, 0x1A18), (0x1A1B, 0x1A1B), (0x1A56, 0x1A56), (0x1A58, 0x1A5E), (0x1A60, 0x1A60),
   (0x1A62, 0x1A62), (0x1A65, 0x1A6C), (0x1A73, 0x1A7C), (0x1A7F, 0x1A7F), (0x1AA7, 0x1AA7),
   (0x1AB0, 0x1ACE), (0x1B00, 0x1B03), (0x1B34, 0x1B34), (0x1B36, 0x1B3A), (0x1B3C, 0x1B3C),
   (0x1B42, 0x1B42), (0x1B6B, 0x1B73), (0x1B80, 0x1B81), (0x1BA2, 0x1BA5), (0x1BA8, 0x1BA9),
   (0x1BAB, 0x1BAD), (0x1BE6, 0x1BE6), (0x1BE8, 0x1BE9), (0x1BED, 0x1BED), (0x1BEF, 0x1BF1),
   (0x1C2C, 0x1C33), (0x1C36, 0x1C37), (0x1C78, 0x1C7D), (0x1CD0, 0x1CD2), (0x1CD4, 0x1CE0),
   (0x1CE2, 0x1CE8), (0x1CED, 0x1CED), (0x1CF4, 0x1CF4), (0x1CF8, 0x1CF9), (0x1D2C, 0x1D6A),
   (0x1D78, 0x1D78), (0x1D9B, 0x1DFF), (0x1FBD, 0x1FBD), (0x1FBF, 0x1FC1), (0x1FCD, 0x1FCF),
   (0x1FDD, 0x1FDF), (0x1FED, 0x1FEF), (0x1FFD, 0x1FFE), (0x200B, 0x200F), (0x2018, 0x2019),
   (0x2024, 0x2024), (0x2027, 0x2027), (0x202A, 0x202E), (0x2060, 0x2064), (0x2066, 0x206F),
   (0x2071, 0x2071), (0x207F, 0x207F), (0x2090, 0x209C), (0x20D0, 0x20F0), (0x2C7C, 0x2C7D),
   (0x2CEF, 0x2CF1), (0x2D6F, 0x2D6F), (0x2D7F, 0x2D7F), (0x2DE0, 0x2DFF), (0x2E2F, 0x2E2F),
   (0x3005, 0x3005), (0x302A, 0x302D), (0x3031, 0x3035), (0x303B, 0x303B), (0x3099, 0x309E),
   (0x30FC, 0x30FE), (0xA015, 0xA015), (0xA4F8, 0xA4FD), (0xA60C, 0xA60C), (0xA66F, 0xA672),
   (0xA674, 0xA67D), (0xA67F, 0xA67F), (0xA69C, 0xA69F), (0xA6F0, 0xA6F1), (0xA700, 0xA721),
   (0xA770, 0xA770), (0xA788, 0xA78A), (0xA7F2, 0xA7F4), (0xA7F8, 0xA7F9), (0xA802, 0xA802),
   (0xA806, 0xA806), (0xA80B, 0xA80B), (0xA825, 0xA826), (0xA82C, 0xA82C), (0xA8C4, 0xA8C5),
   (0xA8E0, 0xA8F1), (0xA8FF, 0xA8FF), (0xA926, 0xA92D), (0xA947, 0xA951), (0xA980, 0xA982),
   (0xA9B3, 0xA9B3), (0xA9B6, 0xA9B9), (0xA9BC, 0xA9BD), (0xA9CF, 0xA9CF), (0xA9E5, 0xA9E6),
   (0xAA29, 0xAA2E), (0xAA31, 0xAA32), (0xAA35, 0xAA36), (0xAA43, 0xAA43), (0xAA4C, 0xAA4C),
   (0xAA70, 0xAA70), (0xAA7C, 0xAA7C), (0xAAB0, 0xAAB0), (0xAAB2, 0xAAB4), (0xAAB7, 0xAAB8),
   (0xAABE, 0xAABF), (0xAAC1, 0xAAC1), (0xAADD, 0xAADD), (0xAAEC, 0xAAED), (0xAAF3, 0xAAF4),
   (0xAAF6, 0xAAF6), (0xAB5B, 0xAB5F), (0xAB69, 0xAB6B), (0xABE5, 0xABE5), (0xABE8, 0xABE8),
   (0xABED, 0xABED), (0xFB1E, 0xFB1E), (0xFBB2, 0xFBC2), (0xFE00, 0xFE0F), (0xFE13, 0xFE13),
   (0xFE20, 0xFE2F), (0xFE52, 0xFE52), (0xFE55, 0xFE55), (0xFEFF, 0xFEFF), (0xFF07, 0xFF07),
   (0xFF0E, 0xFF0E), (0xFF1A, 0xFF1A), (0xFF3E, 0xFF3E), (0xFF40, 0xFF40), (0xFF70, 0xFF70),
   (0xFF9E, 0xFF9F), (0xFFE3, 0xFFE3), (0xFFF9, 0xFFFB), (0x101FD, 0x101FD), (0x102E0, 0x102E0),
   (0x10376, 0x1037A), (0x10780, 0x10785), (0x10787, 0x107B0), (0x107B2, 0x107BA),
   (0x10A01, 0x10A03), (0x10A05, 0x10A06), (0x10A0C, 0x10A0F), (0x10A38, 0x10A3A),
   (0x10A3F, 0x10A3F), (0x10AE5, 0x10AE6), (0x10D24, 0x10D27), (0x10EAB, 0x10EAC),
   (0x10F46, 0x10F50), (0x10F82, 0x10F85), (0x11001, 0x11001), (0x11038, 0x11046),
   (0x11070, 0x11070), (0x11073, 0x11074), (0x1107F, 0x11081), (0x110B3, 0x110B6),
   (0x110B9, 0x110BA), (0x110BD, 0x110BD), (0x110C2, 0x110C2), (0x110CD, 0x110CD),
   (0x11100, 0x11102), (0x11127, 0x1112B), (0x1112D, 0x11134), (0x11173, 0x11173),
   (0x11180, 0x11181), (0x111B6, 0x111BE), (0x111C9, 0x111CC), (0x111CF, 0x111CF),
   (0x1122F, 0x11231), (0x11234, 0x11234), (0x11236, 0x11237), (0x1123E, 0x1123E),
   (0x112DF, 0x112DF), (0x112E3, 0x112EA), (0x11300, 0x11301), (0x1133B, 0x1133C),
   (0x11340, 0x11340), (0x11366, 0x1136C), (0x11370, 0x11374), (0x11438, 0x1143F),
   (0x11442, 0x11444), (0x11446, 0x11446), (0x1145E, 0x1145E), (0x114B3, 0x114B8),
   (0x114BA, 0x114BA), (0x114BF, 0x114C0), (0x114C2, 0x114C3), (0x115B2, 0x115B5),
   (0x115BC, 0x115BD), (0x115BF, 0x115C0), (0x115DC, 0x115DD), (0x11633, 0x1163A),
   (0x1163D, 0x1163D), (0x1163F, 0x11640), (0x116AB, 0x116AB), (0x116AD, 0x116AD),
   (0x116B0, 0x116B5), (0x116B7, 0x116B7), (0x1171D, 0x1171F), (0x11722, 0x11725),
   (0x11727, 0x1172B), (0x1182F, 0x11837), (0x11839, 0x1183A), (0x1193B, 0x1193C),
   (0x1193E, 0x1193E), (0x11943, 0x11943), (0x119D4, 0x119D7), (0x119DA, 0x119DB),
   (0x119E0, 0x119E0), (0x11A01, 0x11A0A), (0x11A33, 0x11A38), (0x11A3B, 0x11A3E),
   (0x11A47, 0x11A47), (0x11A51, 0x11A56), (0x11A59, 0x11A5B), (0x11A8A, 0x11A96),
   (0x11A98, 0x11A99), (0x11C30, 0x11C36), (0x11C38, 0x11C3D), (0x11C3F, 0x11C3F),
   (0x11C92, 0x11CA7), (0x11CAA, 0x11CB0), (0x11CB2, 0x11CB3), (0x11CB5, 0x11CB6),
   (0x11D31, 0x11D36), (0x11D3A, 0x11D3A), (0x11D3C, 0x11D3D), (0x11D3F, 0x11D45),
   (0x11D47, 0x11D47), (0x11D90, 0x11D91), (0x11D95, 0x11D95), (0x11D97, 0x11D97),
   (0x11EF3, 0x11EF4), (0x13430, 0x13438), (0x16AF0, 0x16AF4), (0x16B30, 0x16B36),
   (0x16B40, 0x16B43), (0x16F4F, 0x16F4F), (0x16F8F, 0x16F9F), (0x16FE0, 0x16FE1),
   (0x16FE3, 0x16FE4), (0x1AFF0, 0x1AFF3), (0x1AFF5, 0x1AFFB), (0x1AFFD, 0x1AFFE),
   (0x1BC9D, 0x1BC9E), (0x1BCA0, 0x1BCA3), (0x1CF00, 0x1CF2D), (0x1CF30, 0x1CF46),
   (0x1D167, 0x1D169), (0x1D173, 0x1D182), (0x1D185, 0x1D18B), (0x1D1AA, 0x1D1AD),
   (0x1D242, 0x1D244), (0x1DA00, 0x1DA36), (0x1DA3B, 0x1DA6C), (0x1DA75, 0x1DA75),
   (0x1DA84, 0x1DA84), (0x1DA9B, 0x1DA9F), (0x1DAA1, 0x1DAAF), (0x1E000, 0x1E006),
   (0x1E008, 0x1E018), (0x1E01B, 0x1E021), (0x1E023, 0x1E024), (0x1E026, 0x1E02A),
   (0x1E130, 0x1E13D), (0x1E2AE, 0x1E2AE), (0x1E2EC, 0x1E2EF), (0x1E8D0, 0x1E8D6),
   (0x1E944, 0x1E94B), (0x1F3FB, 0x1F3FF), (0xE0001, 0xE0001), (0xE0020, 0xE007F),
   (0xE0100, 0xE01EF)]

/-- The ranges `(first, last)` of the code points with the property `Cased` and without the
property `Case_Ignorable` in Unicode 14.0. -/
def casedRanges : List (ℕ × ℕ) :=
  [(0x41, 0x5A), (0x61, 0x7A), (0xAA, 0xAA), (0xB5, 0xB5), (0xBA, 0xBA), (0xC0, 0xD6),
   (0xD8, 0xF6), (0xF8, 0x1BA), (0x1BC, 0x1BF), (0x1C4, 0x293), (0x295, 0x2AF), (0x370, 0x373),
   (0x376, 0x377), (0x37B, 0x37D), (0x37F, 0x37F), (0x386, 0x386), (0x388, 0x38A), (0x38C, 0x38C),
   (0x38E, 0x3A1), (0x3A3, 0x3F5), (0x3F7, 0x481), (0x48A, 0x52F), (0x531, 0x556), (0x560, 0x588),
   (0x10A0, 0x10C5), (0x10C7, 0x10C7), (0x10CD, 0x10CD), (0x10D0, 0x10FA), (0x10FD, 0x10FF),
   (0x13A0, 0x13F5), (0x13F8, 0x13FD), (0x1C80, 0x1C88), (0x1C90, 0x1CBA), (0x1CBD, 0x1CBF),
   (0x1D00, 0x1D2B), (0x1D6B, 0x1D77), (0x1D79, 0x1D9A), (0x1E00, 0x1F15), (0x1F18, 0x1F1D),
   (0x1F20, 0x1F45), (0x1F48, 0x1F4D), (0x1F50, 0x1F57), (0x1F59, 0x1F59), (0x1F5B, 0x1F5B),
   (0x1F5D, 0x1F5D), (0x1F5F, 0x1F7D), (0x1F80, 0x1FB4), (0x1FB6, 0x1FBC), (0x1FBE, 0x1FBE),
   (0x1FC2, 0x1FC4), (0x1FC6, 0x1FCC), (0x1FD0, 0x1FD3), (0x1FD6, 0x1FDB), (0x1FE0, 0x1FEC),
   (0x1FF2, 0x1FF4), (0x1FF6, 0x1FFC), (0x2102, 0x2102), (0x2107, 0x2107), (0x210A, 0x2113),
   (0x2115, 0x2115), (0x2119, 0x211D), (0x2124, 0x2124), (0x2126, 0x2126), (0x2128, 0x2128),
   (0x212A, 0x212D), (0x212F, 0x2134), (0x2139, 0x2139), (0x213C, 0x213F), (0x2145, 0x2149),
   (0x214E, 0x214E), (0x2160, 0x217F), (0x2183, 0x2184), (0x24B6, 0x24E9), (0x2C00, 0x2C7B),
   (0x2C7E, 0x2CE4), (0x2CEB, 0x2CEE), (0x2CF2, 0x2CF3), (0x2D00, 0x2D25), (0x2D27, 0x2D27),
   (0x2D2D, 0x2D2D), (0xA640, 0xA66D), (0xA680, 0xA69B), (0xA722, 0xA76F), (0xA771, 0xA787),
   (0xA78B, 0xA78E), (0xA790, 0xA7CA), (0xA7D0, 0xA7D1), (0xA7D3, 0xA7D3), (0xA7D5, 0xA7D9),
   (0xA7F5, 0xA7F6), (0xA7FA, 0xA7FA), (0xAB30, 0xAB5A), (0xAB60, 0xAB68), (0xAB70, 0xABBF),
   (0xFB00, 0xFB06), (0xFB13, 0xFB17), (0xFF21, 0xFF3A), (0xFF41, 0xFF5A), (0x10400, 0x1044F),
   (0x104B0, 0x104D3), (0x104D8, 0x104FB), (0x10570, 0x1057A), (0x1057C, 0x1058A),
   (0x1058C, 0x10592), (0x10594, 0x10595), (0x10597, 0x105A1), (0x105A3, 0x105B1),
   (0x105B3, 0x105B9), (0x105BB, 0x105BC), (0x10C80, 0x10CB2), (0x10CC0, 0x10CF2),
   (0x118A0, 0x118DF), (0x16E40, 0x16E7F), (0x1D400, 0x1D454), (0x1D456, 0x1D49C),
   (0x1D49E, 0x1D49F), (0x1D4A2, 0x1D4A2), (0x1D4A5, 0x1D4A6), (0x1D4A9, 0x1D4AC),
   (0x1D4AE, 0x1D4B9), (0x1D4BB, 0x1D4BB), (0x1D4BD, 0x1D4C3), (0x1D4C5, 0x1D505),
   (0x1D507, 0x1D50A), (0x1D50D, 0x1D514), (0x1D516, 0x1D51C), (0x1D51E, 0x1D539),
   (0x1D53B, 0x1D53E), (0x1D540, 0x1D544), (0x1D546, 0x1D546), (0x1D54A, 0x1D550),
   (0x1D552, 0x1D6A5), (0x1D6A8, 0x1D6C0), (0x1D6C2, 0x1D6DA), (0x1D6DC, 0x1D6FA),
   (0x1D6FC, 0x1D714), (0x1D716, 0x1D734), (0x1D736, 0x1D74E), (0x1D750, 0x1D76E),
   (0x1D770, 0x1D788), (0x1D78A, 0x1D7A8), (0x1D7AA, 0x1D7C2), (0x1D7C4, 0x1D7CB),
   (0x1DF00, 0x1DF09), (0x1DF0B, 0x1DF1E), (0x1E900, 0x1E943), (0x1F130, 0x1F149),
   (0x1F150, 0x1F169), (0x1F170, 0x1F189)]

/-- Whether the code point lies in one of the ranges. -/
def inRanges (ranges : List (ℕ × ℕ)) (c : ℕ) : Bool :=
  ranges.any fun r => decide (r.1 ≤ c ∧ c ≤ r.2)

/-- The lower-case mapping of a character that does not depend on its context: `Char.toLower`
on ASCII, `U+0130` to `U+0069 U+0307`, and the runs of `lowerRuns` on the other
characters. -/
def lowerChar (c : Char) : List Char :=
  if c.toNat < 128 then [c.toLower]
  else if c.toNat = 0x130 then [Char.ofNat 0x69, Char.ofNat 0x307]
  else
    match lowerRuns.find?
      (fun r => decide (r.1 ≤ c.toNat ∧ c.toNat ≤ r.2.1 ∧ (c.toNat - r.1) % r.2.2.1 = 0)) with
    | some r => [Char.ofNat (r.2.2.2 + (c.toNat - r.1))]
    | none => [c]

/-- The first of the characters that is not case-ignorable. -/
def skipCaseIgnorable : List Char → Option Char
  | [] => none
  | c :: cs => if inRanges caseIgnorableRanges c.toNat then skipCaseIgnorable cs else some c

/-- Whether there is such a character and it is cased. -/
def isCased : Option Char → Bool
  | some c => inRanges casedRanges c.toNat
  | none => false

/-- The condition `Final_Sigma` of the Unicode case conversion, for a capital sigma with the
characters `before` it, nearest first, and the characters `after` it: case-ignorable
characters apart, a cased letter precedes it and none follows it. -/
def finalSigma (before after : List Char) : Bool :=
  isCased (skipCaseIgnorable before) && !isCased (skipCaseIgnorable after)

/-- The lower-case conversion of the characters that follow `before`, which is in reverse
order: a capital sigma in the `Final_Sigma` context becomes the final small sigma `U+03C2`,
any other character its `lowerChar`. -/
def toLowerChars : List Char → List Char → List Char
  | _, [] => []
  | before, c :: cs =>
    (if c.toNat = 0x3A3 ∧ finalSigma before cs = true then [Char.ofNat 0x3C2] else lowerChar c)
      ++ toLowerChars (c :: before) cs

/-- The call `s.toLowerCase()`: the Unicode default case conversion, with the tables of
Unicode 14.0. -/
def toLowerCase (s : String) : String := String.mk (toLowerChars [] s.data)

/-! ## Errors and values -/

/-- The exceptions of the embedded code.  `invalidParameterError` is the error class the
specification names; no statement of the two source files throws it. -/
inductive JSError where
  | typeError
  | uriError
  | invalidParameterError
deriving DecidableEq, Repr

/-- A value that is a string on one path and a Number on another (`stats.kda`, `stats.kp`). -/
inductive JSValue where
  | str (s : String)
  | num (n : JSNum)
deriving DecidableEq, Repr

/-! ## Match records and game data -/

/-- The `player` object of a participant identity. -/
structure IdentityPlayer where
  summonerName : String
deriving DecidableEq, Repr

/-- An entry of `match.participantIdentities`. -/
structure ParticipantIdentity where
  participantId : ℕ
  player : IdentityPlayer
deriving DecidableEq, Repr

/-- The `timeline` object of a participant. -/
structure Timeline where
  lane : String
  role : String
deriving DecidableEq, Repr

/-- The `stats` object of a participant.  The three perk fields are absent in matches played
before runes existed. -/
structure ParticipantStats where
  champLevel : ℕ
  kills : ℕ
  deaths : ℕ
  assists : ℕ
  totalMinionsKilled : ℕ
  neutralMinionsKilled : ℕ
  visionScore : ℕ
  goldEarned : ℕ
  totalDamageDealtToChampions : ℕ
  damageDealtToObjectives : ℕ
  totalDamageTaken : ℕ
  perkPrimaryStyle : Option ℕ
  perk0 : Option ℕ
  perkSubStyle : Option ℕ
  item0 : ℕ
  item1 : ℕ
  item2 : ℕ
  item3 : ℕ
  item4 : ℕ
  item5 : ℕ
deriving DecidableEq, Repr

/-- An entry of `match.participants`; the `player` argument of `getPlayerData` is one. -/
structure Participant where
  participantId : ℕ
  teamId : ℕ
  championId : ℕ
  spell1Id : ℕ
  spell2Id : ℕ
  stats : ParticipantStats
  timeline : Timeline
deriving DecidableEq, Repr

/-- A match as the API returns it. -/
structure Match where
  mapId : ℕ
  queueId : ℕ
  gameCreation : ℕ
  gameDuration : ℕ
  participantIdentities : List ParticipantIdentity
  participants : List Participant
deriving DecidableEq, Repr

/-- A champion of the DDragon list.  `key` holds the Number that `Number(champion.key)` yields
for the key string of the list; `title` and `blurb` stand for the fields beside `id`, `name`
and `tags`. -/
structure Champion where
  key : JSNum
  id : String
  name : String
  tags : List String
  title : String
  blurb : String
deriving DecidableEq, Repr

/-- An item of the CDragon list. -/
structure Item where
  id : ℕ
  iconPath : String
  name : String
  description : String
  priceTotal : ℕ
deriving DecidableEq, Repr

/-- A perk of the CDragon list. -/
structure Perk where
  id : ℕ
  iconPath : String
deriving DecidableEq, Repr

/-- A perk style of the CDragon list. -/
structure PerkStyle where
  id : ℕ
  iconPath : String
deriving DecidableEq, Repr

/-- The state of a `MatchTransformer` after `getContext`: `champions` is the object of the
DDragon list as `Object.entries` enumerates it, `version` the DDragon version. -/
structure MatchTransformer where
  champions : List (String × Champion)
  items : List Item
  perks : List Perk
  perkstyles : List PerkStyle
  version : String
deriving DecidableEq, Repr

/-- The `teamStats` argument; the default `{}` has no field. -/
structure TeamStats where
  kills : Option ℕ
  gold : Option ℕ
  dmgChamp : Option ℕ
  dmgObj : Option ℕ
  dmgTaken : Option ℕ
deriving DecidableEq, Repr

/-- The default value `{}` of the `teamStats` parameter. -/
def TeamStats.empty : TeamStats := ⟨none, none, none, none, none⟩

/-! ## Display records -/

/-- The projection `{ id, name, tags }` of a champion. -/
structure ChampionView where
  id : String
  name : String
  tags : List String
deriving DecidableEq, Repr

/-- A filled item slot of the display record. -/
structure ItemView where
  image : String
  name : String
  description : String
  price : ℕ
deriving DecidableEq, Repr

/-- The `stats` object of the display record. -/
structure StatsView where
  kills : ℕ
  deaths : ℕ
  assists : ℕ
  minions : JSNum
  vision : ℕ
  gold : String
  dmgChamp : String
  dmgObj : String
  dmgTaken : String
  kda : JSValue
  kp : JSValue
deriving DecidableEq, Repr

/-- The `percentStats` object of the display record. -/
structure PercentStats where
  minions : JSNum
  vision : JSNum
  gold : String
  dmgChamp : String
  dmgObj : String
  dmgTaken : String
deriving DecidableEq, Repr

/-- The record `getPlayerData` returns: `none` is `null` for the runes and the item slots and
`undefined` for `percentStats`. -/
structure PlayerView where
  name : String
  champion : ChampionView
  role : String
  primaryRune : Option String
  secondaryRune : Option String
  level : ℕ
  items : List (Option ItemView)
  firstSum : ℕ
  secondSum : ℕ
  stats : StatsView
  percentStats : Option PercentStats
deriving DecidableEq, Repr

/-! ## `MatchTransformer` -/

/-- The base every icon address starts with. -/
def cdragonBase : String :=
  "https://raw.communitydragon.org/latest/plugins/rcp-be-lol-game-data/global/default/"

/-- The expression `iconPath.split('/assets/')[1].toLowerCase()`; a path without `/assets/`
has no piece at index 1 and the call on `undefined` throws. -/
def iconTail (iconPath : String) : Except JSError String :=
  match (split iconPath "/assets/")[1]? with
  | some piece => .ok (toLowerCase piece)
  | none => .error .typeError

/-- The icon address built from an `iconPath`. -/
def iconUrl (iconPath : String) : Except JSError String :=
  match iconTail iconPath with
  | .ok tail => .ok (cdragonBase ++ tail)
  | .error e => .error e

/-- The method `getRoleName(timeline)`. -/
def getRoleName (timeline : Timeline) : String :=
  if timeline.lane = "BOTTOM" ∧ includes timeline.role "SUPPORT" = true then "SUPPORT"
  else timeline.lane

/-- The call `xs.indexOf(x)`, counting from `i`: the first position holding `x`, or `-1`. -/
def indexOfFrom (x : String) : List String → ℕ → ℤ
  | [], _ => -1
  | y :: ys, i => if y = x then (i : ℤ) else indexOfFrom x ys (i + 1)

/-- The array `sortingArr` of `sortTeamByRole`. -/
def sortingArr : List String := ["TOP", "JUNGLE", "MIDDLE", "BOTTOM", "SUPPORT"]

/-- The method `sortTeamByRole(a, b)`.  The two indices lie between `-1` and `4`, so their
difference is the exact integer. -/
def sortTeamByRole (a b : PlayerView) : ℤ :=
  indexOfFrom a.role sortingArr 0 - indexOfFrom b.role sortingArr 0

/-- The comparison `x === y` of two Numbers: `NaN` equals nothing. -/
def strictEq (x y : JSNum) : Bool := decide (x ≠ .nan ∧ x = y)

/-- The text `+(x).toFixed(1) + unit`. -/
def fixed1 (x : JSNum) (unit : String) : String := numberToString (plusToFixed 1 x) ++ unit

/-- The sum `stats.kills + stats.assists`. -/
def killsAssists (player : Participant) : JSNum :=
  jsAdd (ofNat player.stats.kills) (ofNat player.stats.assists)

/-- The value `totalKills` of the branch for `detailed = false`: the `reduce` over
`match.participants`. -/
def totalKills (m : Match) (player : Participant) : JSNum :=
  m.participants.foldl
    (fun prev current =>
      if current.teamId ≠ player.teamId then prev else jsAdd prev (ofNat current.stats.kills))
    (ofNat 0)

/-- The value of `stats.kda`. -/
def kdaOf (player : Participant) : JSValue :=
  if killsAssists player ≠ .fin 0 ∧ player.stats.deaths = 0 then .str "∞"
  else .num (plusToFixed 2
    (if player.stats.deaths = 0 then ofNat 0
     else jsDiv (killsAssists player) (ofNat player.stats.deaths)))

/-- The value of `stats.kp`. -/
def kpOf (m : Match) (player : Participant) (detailed : Bool) (teamStats : TeamStats) :
    JSValue :=
  if detailed then
    if teamStats.kills = some 0 then .str "0%"
    else .str (fixed1 (jsDiv (jsMul (killsAssists player) (ofNat 100))
      (toNumber teamStats.kills)) "%")
  else
    if totalKills m player = .fin 0 then .num (ofNat 0)
    else .num (plusToFixed 1 (jsDiv (jsMul (killsAssists player) (ofNat 100))
      (totalKills m player)))

/-- The object `stats`, with `kda` and `kp` set. -/
def statsOf (m : Match) (player : Participant) (detailed : Bool) (teamStats : TeamStats) :
    StatsView :=
  { kills := player.stats.kills
    deaths := player.stats.deaths
    assists := player.stats.assists
    minions := jsAdd (ofNat player.stats.totalMinionsKilled)
      (ofNat player.stats.neutralMinionsKilled)
    vision := player.stats.visionScore
    gold := fixed1 (jsDiv (ofNat player.stats.goldEarned) (ofNat 1000)) "k"
    dmgChamp := fixed1 (jsDiv (ofNat player.stats.totalDamageDealtToChampions) (ofNat 1000)) "k"
    dmgObj := fixed1 (jsDiv (ofNat player.stats.damageDealtToObjectives) (ofNat 1000)) "k"
    dmgTaken := fixed1 (jsDiv (ofNat player.stats.totalDamageTaken) (ofNat 1000)) "k"
    kda := kdaOf player
    kp := kpOf m player detailed teamStats }

/-- The value of `percentStats`: set only when `detailed` holds. -/
def percentStatsOf (m : Match) (player : Participant) (detailed : Bool)
    (teamStats : TeamStats) : Option PercentStats :=
  if detailed then
    some
      { minions := plusToFixed 2
          (jsDiv (jsAdd (ofNat player.stats.totalMinionsKilled)
            (ofNat player.stats.neutralMinionsKilled))
            (jsDiv (ofNat m.gameDuration) (ofNat 60)))
        vision := plusToFixed 2
          (jsDiv (ofNat player.stats.visionScore) (jsDiv (ofNat m.gameDuration) (ofNat 60)))
        gold := fixed1 (jsDiv (jsMul (ofNat player.stats.goldEarned) (ofNat 100))
          (toNumber teamStats.gold)) "%"
        dmgChamp := fixed1 (jsDiv (jsMul (ofNat player.stats.totalDamageDealtToChampions)
          (ofNat 100)) (toNumber teamStats.dmgChamp)) "%"
        dmgObj := fixed1 (jsDiv (jsMul (ofNat player.stats.damageDealtToObjectives)
          (ofNat 100)) (toNumber teamStats.dmgObj)) "%"
        dmgTaken := fixed1 (jsDiv (jsMul (ofNat player.stats.totalDamageTaken)
          (ofNat 100)) (toNumber teamStats.dmgTaken)) "%" }
  else none

/-- The pair `primaryRune`, `secondaryRune`.  `perkPrimaryStyle` is truthy when it is present
and not `0`. -/
def runesOf (self : MatchTransformer) (player : Participant) :
    Except JSError (Option String × Option String) :=
  match player.stats.perkPrimaryStyle with
  | none => .ok (none, none)
  | some 0 => .ok (none, none)
  | some (_ + 1) =>
    match self.perks.find? (fun p => decide (some p.id = player.stats.perk0)) with
    | none => .error .typeError
    | some firstRune =>
      match iconUrl firstRune.iconPath with
      | .error e => .error e
      | .ok primaryRune =>
        match self.perkstyles.find? (fun p => decide (some p.id = player.stats.perkSubStyle)) with
        | none => .error .typeError
        | some secondRuneStyle =>
          match iconUrl secondRuneStyle.iconPath with
          | .error e => .error e
          | .ok secondaryRune => .ok (some primaryRune, some secondaryRune)

/-- One round of the loop over the item slots, for the id of the slot. -/
def itemSlot (self : MatchTransformer) (id : ℕ) : Except JSError (Option ItemView) :=
  if id = 0 then .ok none
  else
    match self.items.find? (fun i => decide (i.id = id)) with
    | none => .error .typeError
    | some item =>
      match iconUrl item.iconPath with
      | .error e => .error e
      | .ok image =>
        .ok (some
          { image := image, name := item.name, description := item.description,
            price := item.priceTotal })

/-- The loop over the item slots, in order. -/
def itemSlots (self : MatchTransformer) : List ℕ → Except JSError (List (Option ItemView))
  | [] => .ok []
  | id :: ids =>
    match itemSlot self id with
    | .error e => .error e
    | .ok slot =>
      match itemSlots self ids with
      | .error e => .error e
      | .ok slots => .ok (slot :: slots)

/-- The ids `player.stats['item' + i]` for `i` from `0` to `5`. -/
def itemIds (stats : ParticipantStats) : List ℕ :=
  [stats.item0, stats.item1, stats.item2, stats.item3, stats.item4, stats.item5]

/-- The method `getPlayerData(match, player, detailed, teamStats)`.  A call that leaves
`teamStats` out passes `TeamStats.empty`. -/
def getPlayerData (self : MatchTransformer) (m : Match) (player : Participant)
    (detailed : Bool) (teamStats : TeamStats) : Except JSError PlayerView :=
  match m.participantIdentities.find? (fun p => decide (p.participantId = player.participantId)) with
  | none => .error .typeError
  | some identity =>
    match self.champions.find? (fun entry => strictEq entry.2.key (ofNat player.championId)) with
    | none => .error .typeError
    | some entry =>
      match runesOf self player with
      | .error e => .error e
      | .ok runes =>
        match itemSlots self (itemIds player.stats) with
        | .error e => .error e
        | .ok items =>
          .ok
            { name := identity.player.summonerName
              champion := { id := entry.2.id, name := entry.2.name, tags := entry.2.tags }
              role := getRoleName player.timeline
              primaryRune := runes.1
              secondaryRune := runes.2
              level := player.stats.champLevel
              items := items
              firstSum := player.spell1Id
              secondSum := player.spell2Id
              stats := statsOf m player detailed teamStats
              percentStats := percentStatsOf m player detailed teamStats }

/-! ## The body of `getPlayerData` on a heap -/

/-- A reference to an object: its position on the heap. -/
abbrev Ref := ℕ

/-- The object `stats` of the body.  The literal of lines 55 to 65 creates it without `kda`
and `kp`; the assignments of lines 68, 70, 85 and 94 add them. -/
structure StatsObject where
  kills : ℕ
  deaths : ℕ
  assists : ℕ
  minions : JSNum
  vision : ℕ
  gold : String
  dmgChamp : String
  dmgObj : String
  dmgTaken : String
  kda : Option JSValue
  kp : Option JSValue
deriving DecidableEq, Repr

/-- An object of the heap: one of the four objects a call is handed (`this`, `match`, `player`
and `teamStats`, each with everything it holds), or one of the two objects the body creates
and writes to afterwards, `stats` and the array `items`.  The other objects the body creates
are literals it never assigns to, and they are values. -/
inductive HeapObject where
  | transformer (self : MatchTransformer)
  | matchData (m : Match)
  | participant (player : Participant)
  | teamStats (teamStats : TeamStats)
  | stats (stats : StatsObject)
  | array (elements : List (Option ItemView))
deriving DecidableEq, Repr

/-- The heap: the objects that exist, in the order of their creation. -/
abbrev Heap := List HeapObject

/-- The object the body returns.  `stats` and `items` hold the references to the two objects
the body built. -/
structure ResultObject where
  name : String
  champion : ChampionView
  role : String
  primaryRune : Option String
  secondaryRune : Option String
  level : ℕ
  items : Ref
  firstSum : ℕ
  secondSum : ℕ
  stats : Ref
  percentStats : Option PercentStats
deriving DecidableEq, Repr

/-- A piece of the body: from the heap it starts on, the value it yields or the exception it
throws, and the heap it leaves. -/
def Exec (α : Type) : Type := Heap → Except JSError α × Heap

instance : Monad Exec where
  pure a := fun h => (.ok a, h)
  bind x f := fun h =>
    match x h with
    | (.ok a, h') => f a h'
    | (.error e, h') => (.error e, h')

/-- The creation of an object: it is put at the end of the heap. -/
def Exec.alloc (o : HeapObject) : Exec Ref := fun h => (.ok h.length, h ++ [o])

/-- A value, or the `TypeError` of a property access on `undefined`. -/
def Exec.defined {α : Type} : Option α → Exec α
  | some a => fun h => (.ok a, h)
  | none => fun h => (.error .typeError, h)

/-- A value, or the exception thrown instead of it. -/
def Exec.lift {α : Type} : Except JSError α → Exec α
  | .ok a => fun h => (.ok a, h)
  | .error e => fun h => (.error e, h)

/-- The object `this` as it is on the heap now. -/
def Exec.readThis (this : Ref) : Exec MatchTransformer := fun h =>
  match h.get? this with
  | some (.transformer self) => (.ok self, h)
  | _ => (.error .typeError, h)

/-- The object `match` as it is on the heap now. -/
def Exec.readMatch (mref : Ref) : Exec Match := fun h =>
  match h.get? mref with
  | some (.matchData m) => (.ok m, h)
  | _ => (.error .typeError, h)

/-- The object `player` as it is on the heap now. -/
def Exec.readPlayer (pref : Ref) : Exec Participant := fun h =>
  match h.get? pref with
  | some (.participant player) => (.ok player, h)
  | _ => (.error .typeError, h)

/-- The object `teamStats` as it is on the heap now. -/
def Exec.readTeamStats (tref : Ref) : Exec TeamStats := fun h =>
  match h.get? tref with
  | some (.teamStats teamStats) => (.ok teamStats, h)
  | _ => (.error .typeError, h)

/-- The object `stats` as it is on the heap now. -/
def Exec.readStats (stats : Ref) : Exec StatsObject := fun h =>
  match h.get? stats with
  | some (.stats s) => (.ok s, h)
  | _ => (.error .typeError, h)

/-- The assignment `stats.kda = value`. -/
def Exec.assignKda (stats : Ref) (value : JSValue) : Exec Unit := fun h =>
  match h.get? stats with
  | some (.stats s) => (.ok (), h.set stats (.stats { s with kda := some value }))
  | _ => (.error .typeError, h)

/-- The assignment `stats.kp = value`. -/
def Exec.assignKp (stats : Ref) (value : JSValue) : Exec Unit := fun h =>
  match h.get? stats with
  | some (.stats s) => (.ok (), h.set stats (.stats { s with kp := some value }))
  | _ => (.error .typeError, h)

/-- The call `items.push(element)`. -/
def Exec.push (items : Ref) (element : Option ItemView) : Exec Unit := fun h =>
  match h.get? items with
  | some (.array elements) => (.ok (), h.set items (.array (elements ++ [element])))
  | _ => (.error .typeError, h)

/-- The sum `stats.kills + stats.assists`, read from the object `stats`. -/
def StatsObject.killsAssists (s : StatsObject) : JSNum := jsAdd (ofNat s.kills) (ofNat s.assists)

/-- The value lines 67 to 71 assign to `stats.kda`. -/
def StatsObject.kdaValue (s : StatsObject) : JSValue :=
  if s.killsAssists ≠ .fin 0 ∧ s.deaths = 0 then .str "∞"
  else .num (plusToFixed 2
    (if s.deaths = 0 then ofNat 0 else jsDiv s.killsAssists (ofNat s.deaths)))

/-- The slots the loop over the item ids has filled when it ends or throws. -/
def itemsPushed (self : MatchTransformer) : List ℕ → List (Option ItemView)
  | [] => []
  | id :: ids =>
    match itemSlot self id with
    | .ok slot => slot :: itemsPushed self ids
    | .error _ => []

/-- The loop of lines 110 to 126 over the slots `i` of the list. -/
def itemLoop (this pref items : Ref) : List ℕ → Exec Unit
  | [] => pure ()
  | i :: rest => do
    let player ← Exec.readPlayer pref
    let id := (itemIds player.stats).getD i 0
    if id = 0 then
      Exec.push items none
    else
      let self ← Exec.readThis this
      let item ← Exec.defined (self.items.find? (fun i => decide (i.id = id)))
      let itemUrl ← Exec.lift (iconTail item.iconPath)
      Exec.push items (some
        { image := cdragonBase ++ itemUrl, name := item.name, description := item.description,
          price := item.priceTotal })
    itemLoop this pref items rest

/-- The body of `getPlayerData(match, player, detailed, teamStats)`, statement by statement,
on the heap that holds `this`, `match`, `player` and `teamStats` at the four references.
An input object is read from the heap where a statement reads it. -/
def getPlayerDataBody (this mref pref : Ref) (detailed : Bool) (tref : Ref) :
    Exec ResultObject := do
  -- lines 48 and 49
  let m ← Exec.readMatch mref
  let player ← Exec.readPlayer pref
  let identity ← Exec.defined
    (m.participantIdentities.find? (fun p => decide (p.participantId = player.participantId)))
  let name := identity.player.summonerName
  -- line 50
  let self ← Exec.readThis this
  let entry ← Exec.defined
    (self.champions.find? (fun entry => strictEq entry.2.key (ofNat player.championId)))
  let champion : ChampionView := { id := entry.2.id, name := entry.2.name, tags := entry.2.tags }
  -- lines 51 and 52
  let role := getRoleName player.timeline
  let level := player.stats.champLevel
  -- lines 55 to 65
  let stats ← Exec.alloc (.stats
    { kills := player.stats.kills
      deaths := player.stats.deaths
      assists := player.stats.assists
      minions := jsAdd (ofNat player.stats.totalMinionsKilled)
        (ofNat player.stats.neutralMinionsKilled)
      vision := player.stats.visionScore
      gold := fixed1 (jsDiv (ofNat player.stats.goldEarned) (ofNat 1000)) "k"
      dmgChamp := fixed1 (jsDiv (ofNat player.stats.totalDamageDealtToChampions) (ofNat 1000)) "k"
      dmgObj := fixed1 (jsDiv (ofNat player.stats.damageDealtToObjectives) (ofNat 1000)) "k"
      dmgTaken := fixed1 (jsDiv (ofNat player.stats.totalDamageTaken) (ofNat 1000)) "k"
      kda := none
      kp := none })
  -- lines 67 to 71
  let s ← Exec.readStats stats
  Exec.assignKda stats s.kdaValue
  -- lines 74 to 95
  let percentStats ←
    if detailed then do
      let s ← Exec.readStats stats
      let m ← Exec.readMatch mref
      let player ← Exec.readPlayer pref
      let teamStats ← Exec.readTeamStats tref
      let percentStats : PercentStats :=
        { minions := plusToFixed 2 (jsDiv s.minions (jsDiv (ofNat m.gameDuration) (ofNat 60)))
          vision := plusToFixed 2
            (jsDiv (ofNat s.vision) (jsDiv (ofNat m.gameDuration) (ofNat 60)))
          gold := fixed1 (jsDiv (jsMul (ofNat player.stats.goldEarned) (ofNat 100))
            (toNumber teamStats.gold)) "%"
          dmgChamp := fixed1 (jsDiv (jsMul (ofNat player.stats.totalDamageDealtToChampions)
            (ofNat 100)) (toNumber teamStats.dmgChamp)) "%"
          dmgObj := fixed1 (jsDiv (jsMul (ofNat player.stats.damageDealtToObjectives)
            (ofNat 100)) (toNumber teamStats.dmgObj)) "%"
          dmgTaken := fixed1 (jsDiv (jsMul (ofNat player.stats.totalDamageTaken)
            (ofNat 100)) (toNumber teamStats.dmgTaken)) "%" }
      Exec.assignKp stats
        (if teamStats.kills = some 0 then .str "0%"
         else .str (fixed1 (jsDiv (jsMul s.killsAssists (ofNat 100))
           (toNumber teamStats.kills)) "%"))
      pure (some percentStats)
    else do
      let m ← Exec.readMatch mref
      let player ← Exec.readPlayer pref
      let totalKills := totalKills m player
      let s ← Exec.readStats stats
      Exec.assignKp stats
        (if totalKills = .fin 0 then .num (ofNat 0)
         else .num (plusToFixed 1 (jsDiv (jsMul s.killsAssists (ofNat 100)) totalKills)))
      pure none
  -- lines 97 to 107
  let player ← Exec.readPlayer pref
  let self ← Exec.readThis this
  let runes ← Exec.lift (runesOf self player)
  -- lines 109 to 126
  let items ← Exec.alloc (.array [])
  itemLoop this pref items [0, 1, 2, 3, 4, 5]
  -- lines 128 to 143
  let player ← Exec.readPlayer pref
  pure
    { name := name
      champion := champion
      role := role
      primaryRune := runes.1
      secondaryRune := runes.2
      level := level
      items := items
      firstSum := player.spell1Id
      secondSum := player.spell2Id
      stats := stats
      percentStats := percentStats }

/-- The object `stats` as the caller reads it; `kda` and `kp` are set in every object the body
returns. -/
def StatsObject.view (s : StatsObject) : Option StatsView :=
  match s.kda, s.kp with
  | some kda, some kp =>
    some
      { kills := s.kills, deaths := s.deaths, assists := s.assists, minions := s.minions
        vision := s.vision, gold := s.gold, dmgChamp := s.dmgChamp, dmgObj := s.dmgObj
        dmgTaken := s.dmgTaken, kda := kda, kp := kp }
  | _, _ => none

/-- The record the caller reads from a returned object on a heap: the object with the contents
of `stats` and `items` in the place of the two references. -/
def Heap.view (h : Heap) (res : ResultObject) : Option PlayerView :=
  match h.get? res.stats, h.get? res.items with
  | some (.stats s), some (.array elements) =>
    match s.view with
    | some stats =>
      some
        { name := res.name, champion := res.champion, role := res.role
          primaryRune := res.primaryRune, secondaryRune := res.secondaryRune
          level := res.level, items := elements, firstSum := res.firstSum
          secondSum := res.secondSum, stats := stats, percentStats := res.percentStats }
    | none => none
  | _, _ => none

/-- What a call gives its caller: the exception, or the record read from the heap the call
leaves. -/
def outcomeOf (run : Except JSError ResultObject × Heap) : Except JSError (Option PlayerView) :=
  match run with
  | (.ok res, h) => .ok (h.view res)
  | (.error e, _) => .error e

/-! ## `SummonerEndpoint` -/

/-- The UTF-16 code units of a Lean string: one unit below `0x10000`, a surrogate pair from
there on. -/
def utf16 (s : String) : List ℕ :=
  s.data.flatMap fun c =>
    if c.toNat < 0x10000 then [c.toNat]
    else [0xD800 + (c.toNat - 0x10000) / 0x400, 0xDC00 + (c.toNat - 0x10000) % 0x400]

/-- The code units `encodeURI` copies: letters, digits, the marks `-_.!~*'()`, the reserved
characters `;/?:@&=+$,` and `#`. -/
def uriKept (c : ℕ) : Bool :=
  decide ((65 ≤ c ∧ c ≤ 90) ∨ (97 ≤ c ∧ c ≤ 122) ∨ (48 ≤ c ∧ c ≤ 57)) ||
    [45, 95, 46, 33, 126, 42, 39, 40, 41, 59, 47, 63, 58, 64, 38, 61, 43, 36, 44, 35].contains c

/-- The octets of the UTF-8 encoding of a code point. -/
def utf8 (cp : ℕ) : List ℕ :=
  if cp < 0x80 then [cp]
  else if cp < 0x800 then [0xC0 + cp / 0x40, 0x80 + cp % 0x40]
  else if cp < 0x10000 then [0xE0 + cp / 0x1000, 0x80 + cp / 0x40 % 0x40, 0x80 + cp % 0x40]
  else
    [0xF0 + cp / 0x40000, 0x80 + cp / 0x1000 % 0x40, 0x80 + cp / 0x40 % 0x40, 0x80 + cp % 0x40]

/-- An upper-case hexadecimal digit. -/
def hexDigit (n : ℕ) : Char := if n < 10 then Char.ofNat (48 + n) else Char.ofNat (55 + n)

/-- The escapes `%XX` of a list of octets. -/
def percentEncode : List ℕ → List Char
  | [] => []
  | b :: bs => '%' :: hexDigit (b / 16) :: hexDigit (b % 16) :: percentEncode bs

/-- The loop of `encodeURI` over the code units: a kept unit is copied, any other code point is
escaped octet by octet, and a surrogate without its partner throws `URIError`. -/
def encodeUnits : List ℕ → Except JSError (List Char)
  | [] => .ok []
  | [c] =>
    if uriKept c then .ok [Char.ofNat c]
    else if 0xD800 ≤ c ∧ c ≤ 0xDFFF then .error .uriError
    else .ok (percentEncode (utf8 c))
  | c :: d :: rest =>
    if uriKept c then
      match encodeUnits (d :: rest) with
      | .ok out => .ok (Char.ofNat c :: out)
      | .error e => .error e
    else if 0xD800 ≤ c ∧ c ≤ 0xDFFF then
      if c ≤ 0xDBFF ∧ 0xDC00 ≤ d ∧ d ≤ 0xDFFF then
        match encodeUnits rest with
        | .ok out =>
          .ok (percentEncode (utf8 ((c - 0xD800) * 0x400 + (d - 0xDC00) + 0x10000)) ++ out)
        | .error e => .error e
      else .error .uriError
    else
      match encodeUnits (d :: rest) with
      | .ok out => .ok (percentEncode (utf8 c) ++ out)
      | .error e => .error e

/-- The call `encodeURI(s)` on a string given by its UTF-16 code units. -/
def encodeURI (s : List ℕ) : Except JSError String :=
  match encodeUnits s with
  | .ok out => .ok (String.mk out)
  | .error e => .error e

/-- The arguments of a `new JaxRequest(path, limiter, region)`; the class itself is not part
of the two source files. -/
structure JaxRequest (L R : Type) where
  path : String
  limiter : L
  region : R

/-- The class `SummonerEnpoint` with the two fields its constructor sets. -/
structure SummonerEnpoint (L R : Type) where
  limiter : L
  region : R

/-- The method `summonerName(summonerName)`: `.ok req` says that the method constructs the
request `req` and returns the result of its `execute()`, `.error e` that it throws `e` before
it constructs a request. -/
def SummonerEnpoint.summonerName {L R : Type} (self : SummonerEnpoint L R)
    (summonerName : List ℕ) : Except JSError (JaxRequest L R) :=
  match encodeURI summonerName with
  | .ok encoded =>
    .ok
      { path := "summoner/v4/summoners/by-name/" ++ encoded
        limiter := self.limiter
        region := self.region }
  | .error e => .error e

/-! ## The rate limiter -/

/-- Modelled from the spec: the state of the rate limiter, which is not part of the two source
files: the budget per time window, the usage counter of the current window and the queue of
deferred requests. -/
structure RateLimiter (α : Type) where
  budget : ℕ
  used : ℕ
  queue : List α
deriving DecidableEq, Repr

/-- Modelled from the spec: the operation `submit(request)` of the rate limiter, which is not
part of the two source files.  If budget remains in the current window the request is admitted
at once and the usage counter goes up by one; otherwise the request joins the end of the queue.
The second component lists the requests admitted by the step. -/
def RateLimiter.submit {α : Type} (s : RateLimiter α) (request : α) : RateLimiter α × List α :=
  if s.used < s.budget then ({ s with used := s.used + 1 }, [request])
  else ({ s with queue := s.queue ++ [request] }, [])

/-- Modelled from the spec: the window rollover of the rate limiter, which is not part of the
two source files.  The budget is reset to the configured maximum and queued requests are
admitted in FIFO order until the queue is empty or the budget of the new window is used up.
The second component lists the requests admitted by the step. -/
def RateLimiter.rollover {α : Type} (s : RateLimiter α) : RateLimiter α × List α :=
  ({ s with used := (s.queue.take s.budget).length, queue := s.queue.drop s.budget },
    s.queue.take s.budget)

/-- Modelled from the spec: what happens to a rate limiter over time: a request is submitted,
or the current window ends. -/
inductive LimiterEvent (α : Type) where
  | submit (request : α)
  | rollover
deriving DecidableEq, Repr

/-- Modelled from the spec: the requests admitted in each time window, in order of time, when
the events reach a limiter in state `s` whose current window has admitted `current` so far.
The last entry is the window that is open at the end. -/
def RateLimiter.windows {α : Type} :
    RateLimiter α → List α → List (LimiterEvent α) → List (List α)
  | _, current, [] => [current]
  | s, current, .submit request :: events =>
    RateLimiter.windows (s.submit request).1 (current ++ (s.submit request).2) events
  | s, current, .rollover :: events =>
    current :: RateLimiter.windows s.rollover.1 s.rollover.2 events

/-! ## Reference notions of the specification -/

/-- The rank of a role in the display order `TOP`, `JUNGLE`, `MIDDLE`, `BOTTOM`, `SUPPORT`;
a role outside the five has rank `5`. -/
def roleRank (role : String) : ℕ :=
  ["TOP", "JUNGLE", "MIDDLE", "BOTTOM", "SUPPORT"].indexOf role

/-- The kills of the player's team, counted exactly: the sum of `stats.kills` over the
participants whose `teamId` is the player's. -/
def teamKills (m : Match) (player : Participant) : ℕ :=
  ((m.participants.filter fun current => current.teamId = player.teamId).map
    fun current => current.stats.kills).sum

/-- Whether a sequence of UTF-16 code units is well formed: every leading surrogate
(`0xD800` to `0xDBFF`) is followed by a trailing one (`0xDC00` to `0xDFFF`) and no trailing
surrogate stands alone. -/
def wellFormedUTF16 : List ℕ → Bool
  | [] => true
  | [c] => !decide (0xD800 ≤ c ∧ c ≤ 0xDFFF)
  | c :: d :: rest =>
    if 0xD800 ≤ c ∧ c ≤ 0xDBFF then decide (0xDC00 ≤ d ∧ d ≤ 0xDFFF) && wellFormedUTF16 rest
    else !decide (0xDC00 ≤ c ∧ c ≤ 0xDFFF) && wellFormedUTF16 (d :: rest)

/-- The text the specification gives a value of `n` tenths: the decimal numeral of `n / 10`
with one decimal place, without a trailing `.0`. -/
def decimalTenths (n : ℕ) : String :=
  if n % 10 = 0 then Nat.repr (n / 10)
  else Nat.repr (n / 10) ++ "." ++ Nat.repr (n % 10)

/-! ## Sample data -/

/-- A context with two champions, one item, one perk and one perk style. -/
def sampleContext : MatchTransformer :=
  { champions :=
      [("Aatrox", ⟨ofNat 266, "Aatrox", "Aatrox", ["Fighter", "Tank"], "the Darkin Blade", ""⟩),
       ("Ahri", ⟨ofNat 103, "Ahri", "Ahri", ["Mage", "Assassin"], "the Nine-Tailed Fox", ""⟩)]
    items :=
      [⟨1001, "/lol-game-data/assets/ASSETS/Items/Icons2D/1001_Class_T1_BootsofSpeed.png",
        "Boots", "", 300⟩]
    perks := [⟨8005, "/lol-game-data/assets/v1/perk-images/Styles/Precision/PressTheAttack.png"⟩]
    perkstyles := [⟨8100, "/lol-game-data/assets/v1/perk-images/Styles/7200_Domination.png"⟩]
    version := "10.8.1" }

/-- A participant of team `100` playing Ahri, with the given kills, deaths and assists. -/
def samplePlayer (kills deaths assists : ℕ) : Participant :=
  { participantId := 1, teamId := 100, championId := 103, spell1Id := 4, spell2Id := 7
    stats :=
      { champLevel := 13, kills := kills, deaths := deaths, assists := assists
        totalMinionsKilled := 150, neutralMinionsKilled := 12, visionScore := 20
        goldEarned := 12345, totalDamageDealtToChampions := 15432
        damageDealtToObjectives := 0, totalDamageTaken := 12000
        perkPrimaryStyle := some 8000, perk0 := some 8005, perkSubStyle := some 8100
        item0 := 1001, item1 := 0, item2 := 0, item3 := 1001, item4 := 0, item5 := 0 }
    timeline := ⟨"BOTTOM", "DUO_SUPPORT"⟩ }

/-- A match of thirty minutes with the given participants and the identity of participant
`1`. -/
def sampleMatch (players : List Participant) : Match :=
  { mapId := 11, queueId := 420, gameCreation := 0, gameDuration := 1800
    participantIdentities := [⟨1, ⟨"Faker"⟩⟩]
    participants := players }

/-- A display record with the given role, as `getPlayerData` builds it for the sample
player. -/
def sampleView (role : String) : PlayerView :=
  { name := "Faker", champion := ⟨"Ahri", "Ahri", ["Mage", "Assassin"]⟩, role := role
    primaryRune := none, secondaryRune := none, level := 13
    items := [none, none, none, none, none, none], firstSum := 4, secondSum := 7
    stats := statsOf (sampleMatch []) (samplePlayer 4 3 2) false TeamStats.empty
    percentStats := none }

/-- A heap with the sample context, match and player and the default `teamStats`. -/
def sampleHeap : Heap :=
  [.transformer sampleContext, .matchData (sampleMatch [samplePlayer 4 3 2]),
   .participant (samplePlayer 4 3 2), .teamStats TeamStats.empty]

/-! ## Rounding lemmas -/

theorem roundHalfEven_bounds (N D : ℕ) (hD : 0 < D) :
    2 * (roundHalfEven N D * D) ≤ 2 * N + D ∧ 2 * N ≤ 2 * (roundHalfEven N D * D) + D := by
  have h1 := Nat.div_add_mod N D
  have h2 := Nat.mod_lt N hD
  have h3 : (N / D + 1) * D = D * (N / D) + D := by ring
  have h4 : N / D * D = D * (N / D) := by ring
  unfold roundHalfEven
  split_ifs <;> (first | rw [h3] | rw [h4]) <;> omega

theorem roundHalfEven_ge (N D : ℕ) : N / D ≤ roundHalfEven N D := by
  unfold roundHalfEven
  split_ifs <;> omega

theorem roundHalfEven_of_dvd (D q : ℕ) (hD : 0 < D) : roundHalfEven (D * q) D = q := by
  unfold roundHalfEven
  simp [Nat.mul_mod_right, hD, Nat.mul_div_cancel_left]

theorem roundHalfEven_mul_left (c N D : ℕ) (hc : 0 < c) :
    roundHalfEven (c * N) (c * D) = roundHalfEven N D := by
  unfold roundHalfEven
  rw [Nat.mul_mod_mul_left, Nat.mul_div_mul_left _ _ hc]
  have : ∀ a b : ℕ, (2 * (c * a) < c * b ↔ 2 * a < b) := by
    intro a b
    rw [show 2 * (c * a) = c * (2 * a) by ring]
    exact Nat.mul_lt_mul_left hc
  have h' : ∀ a b : ℕ, (c * b < 2 * (c * a) ↔ b < 2 * a) := by
    intro a b
    rw [show 2 * (c * a) = c * (2 * a) by ring]
    exact Nat.mul_lt_mul_left hc
  simp only [this, h']

theorem expoSearch_spec (x : ℕ) : ∀ (i acc : ℕ), (acc = 0 ∨ 2 ^ (acc + 52) ≤ x) →
    x < 2 ^ (acc + 2 ^ i + 52) →
    (expoSearch x i acc = 0 ∨ 2 ^ (expoSearch x i acc + 52) ≤ x) ∧
      x < 2 ^ (expoSearch x i acc + 53) := by
  intro i
  induction i with
  | zero =>
    intro acc h1 h2
    simp only [expoSearch]
    refine ⟨h1, ?_⟩
    simpa [Nat.add_assoc] using h2
  | succ i ih =>
    intro acc h1 h2
    simp only [expoSearch]
    split_ifs with h
    · apply ih
      · right
        exact h
      · have : acc + 2 ^ i + 2 ^ i + 52 = acc + 2 ^ (i + 1) + 52 := by ring
        rw [this]; exact h2
    · apply ih _ h1
      omega

theorem fl_expo (N D : ℕ) (hlt : ¬ D * 2 ^ 1024 ≤ N) :
    (expoSearch (N * 2 ^ 1074 / D) 11 0 = 0 ∨
        2 ^ (expoSearch (N * 2 ^ 1074 / D) 11 0 + 52) ≤ N * 2 ^ 1074 / D) ∧
      N * 2 ^ 1074 / D < 2 ^ (expoSearch (N * 2 ^ 1074 / D) 11 0 + 53) := by
  apply expoSearch_spec _ 11 0 (Or.inl rfl)
  have h1 : N * 2 ^ 1074 < D * 2 ^ 2098 := by
    have : N < D * 2 ^ 1024 := Nat.lt_of_not_le hlt
    calc N * 2 ^ 1074 < D * 2 ^ 1024 * 2 ^ 1074 :=
          Nat.mul_lt_mul_of_pos_right this (Nat.two_pow_pos _)
      _ = D * 2 ^ 2098 := by rw [Nat.mul_assoc, ← Nat.pow_add]
  have h2 : N * 2 ^ 1074 / D < 2 ^ 2098 := by
    apply Nat.div_lt_of_lt_mul
    exact h1
  calc N * 2 ^ 1074 / D < 2 ^ 2098 := h2
    _ ≤ 2 ^ (0 + 2 ^ 11 + 52) := Nat.pow_le_pow_right (by norm_num) (by norm_num)

theorem fl_int (n D : ℕ) (hD : 0 < D) (hn : n < 2 ^ 53) : fl (n * D) D = .fin (n * 2 ^ 1074) := by
  have hlt : ¬ D * 2 ^ 1024 ≤ n * D := by
    intro h
    have h1 : n * D < 2 ^ 1024 * D := by
      apply Nat.mul_lt_mul_of_pos_right _ hD
      exact lt_of_lt_of_le hn (Nat.pow_le_pow_right (by norm_num) (by norm_num))
    rw [Nat.mul_comm D] at h
    omega
  have hx : n * D * 2 ^ 1074 / D = n * 2 ^ 1074 := by
    rw [show n * D * 2 ^ 1074 = D * (n * 2 ^ 1074) by ring, Nat.mul_div_cancel_left _ hD]
  obtain ⟨h1, h2⟩ := fl_expo (n * D) D hlt
  rw [hx] at h1 h2
  generalize hj : expoSearch (n * 2 ^ 1074) 11 0 = j at h1 h2
  have hj' : j ≤ 1074 := by
    rcases h1 with h1 | h1
    · omega
    · have h3 : n * 2 ^ 1074 < 2 ^ 53 * 2 ^ 1074 :=
        Nat.mul_lt_mul_of_pos_right hn (Nat.two_pow_pos _)
      rw [← Nat.pow_add] at h3
      have h4 : 2 ^ (j + 52) < 2 ^ (53 + 1074) := lt_of_le_of_lt h1 h3
      have := (Nat.pow_lt_pow_iff_right (by norm_num : 1 < 2)).1 h4
      omega
  have hp : 2 ^ 1074 = 2 ^ j * 2 ^ (1074 - j) := by
    rw [← Nat.pow_add]; congr 1; omega
  have hm : roundHalfEven (n * D * 2 ^ 1074) (D * 2 ^ j) = n * 2 ^ (1074 - j) := by
    rw [show n * D * 2 ^ 1074 = D * 2 ^ j * (n * 2 ^ (1074 - j)) by rw [hp]; ring]
    exact roundHalfEven_of_dvd _ _ (Nat.mul_pos hD (Nat.two_pow_pos _))
  unfold fl
  simp only [hlt, if_false, hx, hj, hm]
  have h5 : n * 2 ^ (1074 - j) * 2 ^ j = n * 2 ^ 1074 := by rw [hp]; ring
  rw [h5]
  have h6 : n * 2 ^ 1074 < 2 ^ 2098 := by
    calc n * 2 ^ 1074 < 2 ^ 53 * 2 ^ 1074 :=
          Nat.mul_lt_mul_of_pos_right hn (Nat.two_pow_pos _)
      _ = 2 ^ 1127 := by rw [← Nat.pow_add]
      _ ≤ 2 ^ 2098 := Nat.pow_le_pow_right (by norm_num) (by norm_num)
  rw [if_pos h6]

theorem ofNat_small (n : ℕ) (hn : n < 2 ^ 53) : ofNat n = .fin (n * 2 ^ 1074) := by
  have := fl_int n 1 (by norm_num) hn
  simpa [ofNat] using this

theorem fl_near (N D : ℕ) (hD : 0 < D) (hlo : D * 2 ^ 52 ≤ N * 2 ^ 1074)
    (hhi : N < D * 2 ^ 1023) :
    ∃ u, fl N D = .fin u ∧ 2 ^ 53 * (u * D) ≤ (2 ^ 53 + 1) * (N * 2 ^ 1074) ∧
      (2 ^ 53 - 1) * (N * 2 ^ 1074) ≤ 2 ^ 53 * (u * D) := by
  have hlt : ¬ D * 2 ^ 1024 ≤ N := by
    intro h
    have : D * 2 ^ 1023 ≤ D * 2 ^ 1024 :=
      Nat.mul_le_mul_left _ (Nat.pow_le_pow_right (by norm_num) (by norm_num))
    omega
  obtain ⟨h1, -⟩ := fl_expo N D hlt
  generalize hj : expoSearch (N * 2 ^ 1074 / D) 11 0 = j at h1
  obtain ⟨b1, b2⟩ := roundHalfEven_bounds (N * 2 ^ 1074) (D * 2 ^ j)
    (Nat.mul_pos hD (Nat.two_pow_pos _))
  generalize hm : roundHalfEven (N * 2 ^ 1074) (D * 2 ^ j) = m at b1 b2
  have hE : D * 2 ^ j * 2 ^ 52 ≤ N * 2 ^ 1074 := by
    rcases h1 with h1 | h1
    · subst h1; simpa using hlo
    · have := (Nat.le_div_iff_mul_le hD).1 h1
      calc D * 2 ^ j * 2 ^ 52 = 2 ^ (j + 52) * D := by rw [Nat.pow_add]; ring
        _ ≤ N * 2 ^ 1074 := this
  have hU : N * 2 ^ 1074 < D * 2 ^ 2097 := by
    calc N * 2 ^ 1074 < D * 2 ^ 1023 * 2 ^ 1074 :=
          Nat.mul_lt_mul_of_pos_right hhi (Nat.two_pow_pos _)
      _ = D * 2 ^ 2097 := by rw [Nat.mul_assoc, ← Nat.pow_add]
  have hu : m * 2 ^ j * D = m * (D * 2 ^ j) := by ring
  have e53 : (2 : ℕ) ^ 53 = 2 * 2 ^ 52 := by norm_num
  have k1 : 2 ^ 53 * (m * 2 ^ j * D) ≤ (2 ^ 53 + 1) * (N * 2 ^ 1074) := by
    rw [hu]
    generalize m * (D * 2 ^ j) = A at b1 b2
    generalize N * 2 ^ 1074 = U at *
    generalize D * 2 ^ j = E at *
    nlinarith
  have k2 : (2 ^ 53 - 1) * (N * 2 ^ 1074) ≤ 2 ^ 53 * (m * 2 ^ j * D) := by
    rw [hu]
    generalize m * (D * 2 ^ j) = A at b1 b2
    generalize N * 2 ^ 1074 = U at *
    generalize D * 2 ^ j = E at *
    have : (2 ^ 53 - 1 : ℕ) * U + U = 2 ^ 53 * U := by
      have : (2 ^ 53 - 1 : ℕ) + 1 = 2 ^ 53 := by norm_num
      calc (2 ^ 53 - 1 : ℕ) * U + U = ((2 ^ 53 - 1) + 1) * U := by ring
        _ = 2 ^ 53 * U := by rw [this]
    nlinarith
  have k3 : m * 2 ^ j < 2 ^ 2098 := by
    by_contra hc
    have hc' : 2 ^ 2098 ≤ m * 2 ^ j := Nat.le_of_not_lt hc
    have : 2 ^ 2098 * D ≤ m * 2 ^ j * D := Nat.mul_le_mul_right _ hc'
    have e : (2 : ℕ) ^ 2098 = 2 * 2 ^ 2097 := by rw [← pow_succ']
    generalize m * 2 ^ j * D = B at *
    generalize N * 2 ^ 1074 = U at *
    rw [e] at this
    generalize (2 : ℕ) ^ 2097 = Q at *
    nlinarith
  refine ⟨m * 2 ^ j, ?_, k1, k2⟩
  unfold fl
  simp only [hlt, if_false, hj, hm]
  rw [if_pos k3]

theorem fl_scale (c N D : ℕ) (hc : 0 < c) : fl (c * N) (c * D) = fl N D := by
  unfold fl
  have h1 : (c * D * 2 ^ 1024 ≤ c * N) ↔ (D * 2 ^ 1024 ≤ N) := by
    rw [Nat.mul_assoc]
    exact mul_le_mul_left hc
  have h2 : c * N * 2 ^ 1074 / (c * D) = N * 2 ^ 1074 / D := by
    rw [Nat.mul_assoc, Nat.mul_div_mul_left _ _ hc]
  have h3 : ∀ j, roundHalfEven (c * N * 2 ^ 1074) (c * D * 2 ^ j) =
      roundHalfEven (N * 2 ^ 1074) (D * 2 ^ j) := by
    intro j
    rw [Nat.mul_assoc, Nat.mul_assoc]
    exact roundHalfEven_mul_left c _ _ hc
  simp only [h1, h2, h3]

theorem fl_ne_nan (N D : ℕ) : fl N D ≠ .nan := by
  intro h
  unfold fl at h
  dsimp only at h
  split_ifs at h

theorem fl_zero (D : ℕ) (hD : 0 < D) : fl 0 D = .fin 0 := by
  have := fl_int 0 D hD (by norm_num)
  simpa using this

theorem fl_eq_zero (N D : ℕ) (hD : 0 < D) (h : fl N D = .fin 0) : 2 * (N * 2 ^ 1074) ≤ D := by
  by_cases hlt : D * 2 ^ 1024 ≤ N
  · unfold fl at h
    rw [if_pos hlt] at h
    cases h
  · obtain ⟨h1, -⟩ := fl_expo N D hlt
    unfold fl at h
    simp only [hlt, if_false] at h
    generalize hj : expoSearch (N * 2 ^ 1074 / D) 11 0 = j at h h1
    obtain ⟨-, b2⟩ := roundHalfEven_bounds (N * 2 ^ 1074) (D * 2 ^ j)
      (Nat.mul_pos hD (Nat.two_pow_pos _))
    generalize hm : roundHalfEven (N * 2 ^ 1074) (D * 2 ^ j) = m at h b2
    split_ifs at h
    have hm0 : m = 0 := by
      have h' : m * 2 ^ j = 0 := by injection h
      rcases Nat.mul_eq_zero.1 h' with h0 | h0
      · exact h0
      · exact absurd h0 (Nat.two_pow_pos j).ne'
    subst hm0
    rcases h1 with h1 | h1
    · subst h1
      simpa using b2
    · exfalso
      have h3 := (Nat.le_div_iff_mul_le hD).1 h1
      have h4 : 2 ^ (j + 52) * D = D * 2 ^ j * 2 ^ 52 := by rw [Nat.pow_add]; ring
      rw [h4] at h3
      have hE : 0 < D * 2 ^ j := Nat.mul_pos hD (Nat.two_pow_pos _)
      generalize D * 2 ^ j = E at *
      generalize N * 2 ^ 1074 = U at *
      have : (2 : ℕ) ^ 52 = 4503599627370496 := by norm_num
      rw [this] at h3
      omega

theorem ofNat_eq_zero_iff (n : ℕ) : ofNat n = .fin 0 ↔ n = 0 := by
  constructor
  · intro h
    have := fl_eq_zero n 1 (by norm_num) h
    have hp : 0 < 2 ^ 1074 := Nat.two_pow_pos _
    rcases Nat.eq_zero_or_pos n with h0 | h0
    · exact h0
    · exfalso
      have : 2 ^ 1074 ≤ n * 2 ^ 1074 := Nat.le_mul_of_pos_left _ h0
      omega
  · rintro rfl
    exact fl_zero 1 (by norm_num)

theorem ofNat_ne_nan (n : ℕ) : ofNat n ≠ .nan := fl_ne_nan n 1

theorem jsAdd_ofNat_eq_zero_iff (k a : ℕ) :
    jsAdd (ofNat k) (ofNat a) = .fin 0 ↔ k + a = 0 := by
  constructor
  · intro h
    cases hk : ofNat k with
    | nan => exact absurd hk (ofNat_ne_nan k)
    | inf =>
      cases ha : ofNat a <;> simp [hk, ha, jsAdd] at h
    | fin x =>
      cases ha : ofNat a with
      | nan => exact absurd ha (ofNat_ne_nan a)
      | inf => simp [hk, ha, jsAdd] at h
      | fin y =>
        rw [hk, ha] at h
        simp only [jsAdd] at h
        have h2 := fl_eq_zero _ _ (Nat.two_pow_pos _) h
        have hxy : x + y = 0 := by
          rcases Nat.eq_zero_or_pos (x + y) with h0 | h0
          · exact h0
          · exfalso
            have : 2 ^ 1074 ≤ (x + y) * 2 ^ 1074 := Nat.le_mul_of_pos_left _ h0
            have hp : 0 < 2 ^ 1074 := Nat.two_pow_pos _
            omega
        have hx : x = 0 := by omega
        have hy : y = 0 := by omega
        subst hx; subst hy
        have := (ofNat_eq_zero_iff k).1 hk
        have := (ofNat_eq_zero_iff a).1 ha
        omega
  · intro h
    have hk : k = 0 := by omega
    have ha : a = 0 := by omega
    subst hk; subst ha
    rw [(ofNat_eq_zero_iff 0).2 rfl]
    simp only [jsAdd]
    simpa using fl_zero (2 ^ 1074) (Nat.two_pow_pos _)

theorem fixedDigits_bounds (f u : ℕ) :
    2 ^ 1074 * (2 * fixedDigits f u) ≤ 2 * u * 10 ^ f + 2 ^ 1074 ∧
      2 * u * 10 ^ f + 2 ^ 1074 < 2 ^ 1074 * (2 * fixedDigits f u) + 2 * 2 ^ 1074 := by
  have e : (2 : ℕ) ^ 1075 = 2 ^ 1074 * 2 := by rw [← pow_succ]
  have h1 := Nat.div_add_mod (2 * u * 10 ^ f + 2 ^ 1074) (2 ^ 1075)
  have h2 := Nat.mod_lt (2 * u * 10 ^ f + 2 ^ 1074) (Nat.two_pow_pos 1075)
  unfold fixedDigits
  generalize (2 * u * 10 ^ f + 2 ^ 1074) / 2 ^ 1075 = n at *
  generalize (2 * u * 10 ^ f + 2 ^ 1074) % 2 ^ 1075 = r at *
  rw [e] at h1 h2
  generalize 2 * u * 10 ^ f = A at *
  generalize (2 : ℕ) ^ 1074 = P at *
  constructor <;> nlinarith

theorem plusToFixed_fl (f N D : ℕ) (hD : 0 < D) (hD' : D < 2 ^ 53)
    (hb : 2 * 10 ^ f * N < 2 ^ 53) :
    ∃ n, plusToFixed f (fl N D) = ofDecimal n f ∧
      2 * D * n ≤ 2 * 10 ^ f * N + D ∧ 2 * 10 ^ f * N ≤ 2 * D * n + D := by
  have hT : 0 < 10 ^ f := pow_pos (by norm_num) _
  rcases Nat.eq_zero_or_pos N with hN | hN
  · subst hN
    refine ⟨0, ?_, by omega, by omega⟩
    rw [fl_zero D hD]
    have h0 : fixedDigits f 0 = 0 := by
      unfold fixedDigits
      rw [Nat.mul_zero, Nat.zero_mul, Nat.zero_add]
      exact Nat.div_eq_of_lt (Nat.pow_lt_pow_right (by norm_num) (by norm_num))
    have h1 : ¬ 10 ^ 21 * 2 ^ 1074 ≤ 0 := by
      have : 0 < 10 ^ 21 * 2 ^ 1074 := Nat.mul_pos (by norm_num) (Nat.two_pow_pos _)
      omega
    simp only [plusToFixed, h1, if_false, h0]
  · have hN53 : N < 2 ^ 53 := by
      have : N ≤ 2 * 10 ^ f * N := Nat.le_mul_of_pos_left _ (by omega)
      omega
    have hlo : D * 2 ^ 52 ≤ N * 2 ^ 1074 := by
      calc D * 2 ^ 52 ≤ 2 ^ 53 * 2 ^ 52 := Nat.mul_le_mul_right _ hD'.le
        _ = 2 ^ 105 := by rw [← Nat.pow_add]
        _ ≤ 2 ^ 1074 := Nat.pow_le_pow_right (by norm_num) (by norm_num)
        _ ≤ N * 2 ^ 1074 := Nat.le_mul_of_pos_left _ hN
    have hhi : N < D * 2 ^ 1023 := by
      calc N < 2 ^ 53 := hN53
        _ ≤ 2 ^ 1023 := Nat.pow_le_pow_right (by norm_num) (by norm_num)
        _ ≤ D * 2 ^ 1023 := Nat.le_mul_of_pos_left _ hD
    obtain ⟨u, hu, k1, k2⟩ := fl_near N D hD hlo hhi
    obtain ⟨d1, d2⟩ := fixedDigits_bounds f u
    have hP : 0 < 2 ^ 1074 := Nat.two_pow_pos _
    have c53 : (2 : ℕ) ^ 53 = 9007199254740992 := by norm_num
    have hubig : ¬ 10 ^ 21 * 2 ^ 1074 ≤ u := by
      intro hc
      have h1 : u ≤ u * D := Nat.le_mul_of_pos_right _ hD
      have h3 : (10 : ℕ) ^ 21 = 1000000000000000000000 := by norm_num
      rw [c53] at k1 hN53
      rw [h3] at hc
      generalize (2 : ℕ) ^ 1074 = P at *
      generalize u * D = B at *
      nlinarith
    refine ⟨fixedDigits f u, ?_, ?_, ?_⟩
    · rw [hu]
      simp only [plusToFixed, hubig, if_false]
    · rw [c53] at k1 hb
      generalize fixedDigits f u = n at *
      generalize (10 : ℕ) ^ f = T at *
      have key : 2 ^ 1074 * (18014398509481984 * (D * n)) ≤
          2 ^ 1074 * (2 * 9007199254740993 * (T * N) + 9007199254740992 * D) := by
        have e1 := Nat.mul_le_mul_left (9007199254740992 * D) d1
        have e2 := Nat.mul_le_mul_left (2 * T) k1
        generalize (2 : ℕ) ^ 1074 = P at *
        nlinarith
      have key' := Nat.le_of_mul_le_mul_left key hP
      have hXY : 2 * D * n = 2 * (D * n) := by ring
      have hTN : 2 * T * N = 2 * (T * N) := by ring
      rw [hXY, hTN]
      rw [hTN] at hb
      generalize D * n = X at *
      generalize T * N = Y at *
      omega
    · rw [c53] at k2 hb
      generalize fixedDigits f u = n at *
      generalize (10 : ℕ) ^ f = T at *
      have key : 2 ^ 1074 * (2 * 9007199254740991 * (T * N)) <
          2 ^ 1074 * (9007199254740992 * (2 * (D * n) + D)) := by
        have e1 := Nat.mul_lt_mul_of_pos_left d2 (show 0 < 9007199254740992 * D by omega)
        have e2 := Nat.mul_le_mul_left (2 * T) k2
        have e3 : (9007199254740992 - 1 : ℕ) = 9007199254740991 := by norm_num
        rw [e3] at e2
        generalize (2 : ℕ) ^ 1074 = P at *
        nlinarith
      have key' := Nat.lt_of_mul_lt_mul_left key
      have hXY : 2 * D * n = 2 * (D * n) := by ring
      have hTN : 2 * T * N = 2 * (T * N) := by ring
      rw [hXY, hTN]
      rw [hTN] at hb
      generalize D * n = X at *
      generalize T * N = Y at *
      omega

theorem jsAdd_small (a b : ℕ) (h : a + b < 2 ^ 53) :
    jsAdd (.fin (a * 2 ^ 1074)) (.fin (b * 2 ^ 1074)) = .fin ((a + b) * 2 ^ 1074) := by
  simp only [jsAdd]
  rw [← Nat.add_mul]
  exact fl_int (a + b) (2 ^ 1074) (Nat.two_pow_pos _) h

theorem jsMul_small (a b : ℕ) (h : a * b < 2 ^ 53) :
    jsMul (.fin (a * 2 ^ 1074)) (.fin (b * 2 ^ 1074)) = .fin (a * b * 2 ^ 1074) := by
  simp only [jsMul]
  have e : a * 2 ^ 1074 * (b * 2 ^ 1074) = a * b * 2 ^ 2148 := by
    rw [show (2 : ℕ) ^ 2148 = 2 ^ 1074 * 2 ^ 1074 by rw [← Nat.pow_add]]
    ring
  rw [e]
  exact fl_int (a * b) (2 ^ 2148) (Nat.two_pow_pos _) h

theorem jsDiv_small (a b : ℕ) (hb : 0 < b) :
    jsDiv (.fin (a * 2 ^ 1074)) (.fin (b * 2 ^ 1074)) = fl a b := by
  have h : b * 2 ^ 1074 ≠ 0 := (Nat.mul_pos hb (Nat.two_pow_pos _)).ne'
  simp only [jsDiv, h, if_false]
  rw [Nat.mul_comm a, Nat.mul_comm b]
  exact fl_scale _ a b (Nat.two_pow_pos _)

theorem plusToFixed_fl_raw (f N D : ℕ) (hD : 0 < D) (hD' : D < 2 ^ 53) (hN : N < 2 ^ 53) :
    ∃ n, plusToFixed f (fl N D) = ofDecimal n f ∧
      2 ^ 54 * (D * n) ≤ 2 * (2 ^ 53 + 1) * (10 ^ f * N) + 2 ^ 53 * D ∧
      2 * (2 ^ 53 - 1) * (10 ^ f * N) < 2 ^ 53 * (2 * (D * n) + D) := by
  have hT : 0 < 10 ^ f := pow_pos (by norm_num) _
  have c53 : (2 : ℕ) ^ 53 = 9007199254740992 := by norm_num
  have c54 : (2 : ℕ) ^ 54 = 18014398509481984 := by norm_num
  rcases Nat.eq_zero_or_pos N with hN0 | hN0
  · subst hN0
    refine ⟨0, ?_, by omega, ?_⟩
    · rw [fl_zero D hD]
      have h0 : fixedDigits f 0 = 0 := by
        unfold fixedDigits
        rw [Nat.mul_zero, Nat.zero_mul, Nat.zero_add]
        exact Nat.div_eq_of_lt (Nat.pow_lt_pow_right (by norm_num) (by norm_num))
      have h1 : ¬ 10 ^ 21 * 2 ^ 1074 ≤ 0 := by
        have : 0 < 10 ^ 21 * 2 ^ 1074 := Nat.mul_pos (by norm_num) (Nat.two_pow_pos _)
        omega
      simp only [plusToFixed, h1, if_false, h0]
    · rw [c53]; omega
  · have hlo : D * 2 ^ 52 ≤ N * 2 ^ 1074 := by
      calc D * 2 ^ 52 ≤ 2 ^ 53 * 2 ^ 52 := Nat.mul_le_mul_right _ hD'.le
        _ = 2 ^ 105 := by rw [← Nat.pow_add]
        _ ≤ 2 ^ 1074 := Nat.pow_le_pow_right (by norm_num) (by norm_num)
        _ ≤ N * 2 ^ 1074 := Nat.le_mul_of_pos_left _ hN0
    have hhi : N < D * 2 ^ 1023 := by
      calc N < 2 ^ 53 := hN
        _ ≤ 2 ^ 1023 := Nat.pow_le_pow_right (by norm_num) (by norm_num)
        _ ≤ D * 2 ^ 1023 := Nat.le_mul_of_pos_left _ hD
    obtain ⟨u, hu, k1, k2⟩ := fl_near N D hD hlo hhi
    obtain ⟨d1, d2⟩ := fixedDigits_bounds f u
    have hP : 0 < 2 ^ 1074 := Nat.two_pow_pos _
    have hubig : ¬ 10 ^ 21 * 2 ^ 1074 ≤ u := by
      intro hc
      have h1 : u ≤ u * D := Nat.le_mul_of_pos_right _ hD
      have h3 : (10 : ℕ) ^ 21 = 1000000000000000000000 := by norm_num
      rw [c53] at k1 hN
      rw [h3] at hc
      generalize (2 : ℕ) ^ 1074 = P at *
      generalize u * D = B at *
      nlinarith
    refine ⟨fixedDigits f u, ?_, ?_, ?_⟩
    · rw [hu]
      simp only [plusToFixed, hubig, if_false]
    · rw [c53] at k1
      rw [c53, c54]
      generalize fixedDigits f u = n at *
      generalize (10 : ℕ) ^ f = T at *
      have key : 2 ^ 1074 * (18014398509481984 * (D * n)) ≤
          2 ^ 1074 * (2 * (9007199254740992 + 1) * (T * N) + 9007199254740992 * D) := by
        have e1 := Nat.mul_le_mul_left (9007199254740992 * D) d1
        have e2 := Nat.mul_le_mul_left (2 * T) k1
        generalize (2 : ℕ) ^ 1074 = P at *
        nlinarith
      exact Nat.le_of_mul_le_mul_left key hP
    · rw [c53] at k2
      rw [c53]
      generalize fixedDigits f u = n at *
      generalize (10 : ℕ) ^ f = T at *
      have key : 2 ^ 1074 * (2 * (9007199254740992 - 1) * (T * N)) <
          2 ^ 1074 * (9007199254740992 * (2 * (D * n) + D)) := by
        have e1 := Nat.mul_lt_mul_of_pos_left d2 (show 0 < 9007199254740992 * D by omega)
        have e2 := Nat.mul_le_mul_left (2 * T) k2
        have e3 : (9007199254740992 - 1 : ℕ) = 9007199254740991 := by norm_num
        rw [e3] at e2 ⊢
        generalize (2 : ℕ) ^ 1074 = P at *
        nlinarith
      exact Nat.lt_of_mul_lt_mul_left key

theorem fl_one (m : ℕ) (h : m < 2 ^ 53) : fl m 1 = .fin (m * 2 ^ 1074) := ofNat_small m h

theorem fl_tenths_ne (a b : ℕ) (ha : 1 ≤ a) (hab : a < b) (hb : b < 2 ^ 52) :
    fl a 10 ≠ fl b 10 := by
  have c52 : (2 : ℕ) ^ 52 = 4503599627370496 := by norm_num
  have c53 : (2 : ℕ) ^ 53 = 9007199254740992 := by norm_num
  have hP : 0 < 2 ^ 1074 := Nat.two_pow_pos _
  have hlo : ∀ n : ℕ, 1 ≤ n → 10 * 2 ^ 52 ≤ n * 2 ^ 1074 := by
    intro n hn
    calc 10 * 2 ^ 52 ≤ 2 ^ 4 * 2 ^ 52 := Nat.mul_le_mul_right _ (by norm_num)
      _ = 2 ^ 56 := by rw [← Nat.pow_add]
      _ ≤ 2 ^ 1074 := Nat.pow_le_pow_right (by norm_num) (by norm_num)
      _ ≤ n * 2 ^ 1074 := Nat.le_mul_of_pos_left _ hn
  have hhi : ∀ n : ℕ, n < 2 ^ 52 → n < 10 * 2 ^ 1023 := by
    intro n hn
    calc n < 2 ^ 52 := hn
      _ ≤ 2 ^ 1023 := Nat.pow_le_pow_right (by norm_num) (by norm_num)
      _ ≤ 10 * 2 ^ 1023 := Nat.le_mul_of_pos_left _ (by norm_num)
  obtain ⟨u, hu, k1, _⟩ := fl_near a 10 (by norm_num) (hlo a ha) (hhi a (by omega))
  obtain ⟨w, hw, _, k2⟩ := fl_near b 10 (by norm_num) (hlo b (by omega)) (hhi b hb)
  rw [hu, hw]
  intro h
  have huw : u = w := JSNum.fin.inj h
  subst huw
  have key : 2 ^ 1074 * ((2 ^ 53 - 1) * b) ≤ 2 ^ 1074 * ((2 ^ 53 + 1) * a) := by
    calc 2 ^ 1074 * ((2 ^ 53 - 1) * b) = (2 ^ 53 - 1) * (b * 2 ^ 1074) := by ring
      _ ≤ 2 ^ 53 * (u * 10) := k2
      _ ≤ (2 ^ 53 + 1) * (a * 2 ^ 1074) := k1
      _ = 2 ^ 1074 * ((2 ^ 53 + 1) * a) := by ring
  have key' := Nat.le_of_mul_le_mul_left key hP
  rw [c53] at key'
  rw [c52] at hb
  omega

/-! ## Lemmas on the embedded functions -/

theorem includesChars_iff (needle l : List Char) : includesChars needle l = true ↔ needle <:+: l := by
  induction l with
  | nil =>
    simp only [includesChars, List.isPrefixOf_iff_prefix]
    simp
  | cons c cs ih =>
    simp only [includesChars, Bool.or_eq_true, List.isPrefixOf_iff_prefix, ih, List.infix_cons_iff]

theorem indexOfFrom_eq (x : String) : ∀ (l : List String) (i : ℕ), x ∈ l →
    indexOfFrom x l i = ((i + l.indexOf x : ℕ) : ℤ) := by
  intro l
  induction l with
  | nil => intro i h; simp at h
  | cons y ys ih =>
    intro i h
    by_cases hy : y = x
    · subst hy
      simp [indexOfFrom]
    · have hx : x ∈ ys := by
        rcases List.mem_cons.1 h with h | h
        · exact absurd h.symm hy
        · exact h
      have hy' : ¬ x = y := fun e => hy e.symm
      simp only [indexOfFrom, hy, if_false]
      rw [ih (i + 1) hx, List.indexOf_cons_ne _ hy]
      congr 1
      omega

theorem sortTeamByRole_eq (a b : PlayerView) (ha : a.role ∈ sortingArr) (hb : b.role ∈ sortingArr) :
    sortTeamByRole a b = (roleRank a.role : ℤ) - (roleRank b.role : ℤ) := by
  unfold sortTeamByRole roleRank
  rw [indexOfFrom_eq _ _ _ ha, indexOfFrom_eq _ _ _ hb]
  simp [sortingArr]

theorem roleRank_inj (x y : String) (hx : x ∈ sortingArr) (hy : y ∈ sortingArr)
    (h : roleRank x = roleRank y) : x = y := by
  unfold roleRank at h
  exact (List.indexOf_inj hx hy).1 h

theorem getPlayerData_ok {self : MatchTransformer} {m : Match} {player : Participant}
    {detailed : Bool} {teamStats : TeamStats} {r : PlayerView}
    (h : getPlayerData self m player detailed teamStats = .ok r) :
    r.stats = statsOf m player detailed teamStats ∧
      r.percentStats = percentStatsOf m player detailed teamStats ∧
      r.role = getRoleName player.timeline ∧
      itemSlots self (itemIds player.stats) = .ok r.items ∧
      runesOf self player = .ok (r.primaryRune, r.secondaryRune) := by
  unfold getPlayerData at h
  split at h
  · cases h
  · split at h
    · cases h
    · split at h
      · cases h
      · split at h
        · cases h
        · rename_i hr _ _ hi
          cases h
          exact ⟨rfl, rfl, rfl, hi, hr⟩

theorem itemSlot_none_iff {self : MatchTransformer} {id : ℕ} {slot : Option ItemView}
    (h : itemSlot self id = .ok slot) : slot = none ↔ id = 0 := by
  unfold itemSlot at h
  split_ifs at h with h0
  · cases h
    simp [h0]
  · split at h
    · cases h
    · split at h
      · cases h
      · cases h
        simp [h0]

theorem itemSlots_cons {self : MatchTransformer} {id : ℕ} {ids : List ℕ}
    {out : List (Option ItemView)} (h : itemSlots self (id :: ids) = .ok out) :
    ∃ slot rest, out = slot :: rest ∧ itemSlot self id = .ok slot ∧
      itemSlots self ids = .ok rest := by
  simp only [itemSlots] at h
  split at h
  · cases h
  · split at h
    · cases h
    · rename_i slot hs _ rest hr
      cases h
      exact ⟨slot, rest, rfl, hs, hr⟩

theorem itemSlots_nil {self : MatchTransformer} {out : List (Option ItemView)}
    (h : itemSlots self [] = .ok out) : out = [] := by
  simp only [itemSlots] at h
  cases h
  rfl

theorem digitChar_ne (n : ℕ) : Nat.digitChar n ≠ 'N' := by
  rcases Nat.lt_or_ge n 16 with h | h
  · interval_cases n <;> decide
  · have e : Nat.digitChar n = '*' := by
      unfold Nat.digitChar
      repeat rw [if_neg (by omega)]
    rw [e]
    decide

theorem toDigitsCore_ne : ∀ (fuel n : ℕ) (ds : List Char), (∀ c ∈ ds, c ≠ 'N') →
    ∀ c ∈ Nat.toDigitsCore 10 fuel n ds, c ≠ 'N' := by
  intro fuel
  induction fuel with
  | zero => intro n ds h; simpa [Nat.toDigitsCore] using h
  | succ fuel ih =>
    intro n ds h
    have h' : ∀ c ∈ Nat.digitChar (n % 10) :: ds, c ≠ 'N' := by
      intro c hc
      rcases List.mem_cons.1 hc with e | e
      · rw [e]; exact digitChar_ne _
      · exact h c e
    simp only [Nat.toDigitsCore]
    split_ifs
    · exact h'
    · exact ih _ _ h'

theorem repr_ne (n : ℕ) : ∀ c ∈ (Nat.repr n).data, c ≠ 'N' := by
  unfold Nat.repr Nat.toDigits
  simp only [List.asString]
  exact toDigitsCore_ne _ _ _ (by simp)

theorem layoutDigits_ne (s : ℕ) (e : ℤ) : ∀ c ∈ (layoutDigits s e).data, c ≠ 'N' := by
  have hr := repr_ne s
  have hz : ∀ k, ∀ c ∈ List.replicate k '0', c ≠ 'N' := by
    intro k c hc
    rw [List.eq_of_mem_replicate hc]
    decide
  intro c hc
  unfold layoutDigits at hc
  dsimp only at hc
  split_ifs at hc
  · rcases List.mem_append.1 hc with h | h
    · exact hr c h
    · exact hz _ c h
  · rcases List.mem_append.1 hc with h | h
    · exact hr c (List.mem_of_mem_take h)
    · rcases List.mem_cons.1 h with h | h
      · rw [h]; decide
      · exact hr c (List.mem_of_mem_drop h)
  · rcases List.mem_cons.1 hc with h | h
    · rw [h]; decide
    · rcases List.mem_cons.1 h with h | h
      · rw [h]; decide
      · rcases List.mem_append.1 h with h | h
        · exact hz _ c h
        · exact hr c h
  · rcases List.mem_append.1 hc with h | h
    · revert h
      generalize (Nat.repr s).data = ds at hr
      match ds with
      | [] => intro h; simp at h
      | [d] => intro h; exact hr c h
      | d :: d' :: rest =>
        intro h
        rcases List.mem_cons.1 h with h | h
        · exact hr c (h ▸ List.mem_cons_self _ _)
        · rcases List.mem_cons.1 h with h | h
          · rw [h]; decide
          · exact hr c (List.mem_cons_of_mem _ h)
    · rcases List.mem_cons.1 h with h | h
      · rw [h]; decide
      · rcases List.mem_cons.1 h with h | h
        · rw [h]; decide
        · exact repr_ne _ c h
  · rcases List.mem_append.1 hc with h | h
    · revert h
      generalize (Nat.repr s).data = ds at hr
      match ds with
      | [] => intro h; simp at h
      | [d] => intro h; exact hr c h
      | d :: d' :: rest =>
        intro h
        rcases List.mem_cons.1 h with h | h
        · exact hr c (h ▸ List.mem_cons_self _ _)
        · rcases List.mem_cons.1 h with h | h
          · rw [h]; decide
          · exact hr c (List.mem_cons_of_mem _ h)
    · rcases List.mem_cons.1 h with h | h
      · rw [h]; decide
      · rcases List.mem_cons.1 h with h | h
        · rw [h]; decide
        · exact repr_ne _ c h

theorem numberToString_percent_ne (x : JSNum) (hx : x ≠ .nan) :
    numberToString x ++ "%" ≠ "NaN%" := by
  intro h
  have hd : (numberToString x).data ++ ['%'] = ['N', 'a', 'N', '%'] := by
    have := congrArg String.data h
    simpa using this
  have hN : 'N' ∈ (numberToString x).data := by
    have h2 : (numberToString x).data = ['N', 'a', 'N'] := by
      have hd' : (numberToString x).data ++ ['%'] = ['N', 'a', 'N'] ++ ['%'] := hd
      exact (List.append_inj' hd' rfl).1
    rw [h2]; simp
  cases x with
  | nan => exact hx rfl
  | inf => revert hN; decide
  | fin u =>
    simp only [numberToString] at hN
    split_ifs at hN
    · revert hN; decide
    · exact layoutDigits_ne _ _ _ hN rfl

theorem abs_sub_le_of_bounds (n T N D : ℕ) (hT : 0 < T) (hD : 0 < D)
    (h1 : 2 * D * n ≤ 2 * T * N + D) (h2 : 2 * T * N ≤ 2 * D * n + D) :
    |(n : ℚ) / T - (N : ℚ) / D| ≤ 1 / (2 * T) := by
  have hT' : (0 : ℚ) < T := by exact_mod_cast hT
  have hD' : (0 : ℚ) < D := by exact_mod_cast hD
  have h1' : (2 : ℚ) * D * n ≤ 2 * T * N + D := by exact_mod_cast h1
  have h2' : (2 : ℚ) * T * N ≤ 2 * D * n + D := by exact_mod_cast h2
  rw [abs_le]
  constructor
  · rw [div_sub_div _ _ hT'.ne' hD'.ne', le_div_iff₀ (by positivity), neg_mul,
      neg_le_iff_add_nonneg]
    have : (1 : ℚ) / (2 * T) * (T * D) = D / 2 := by field_simp; ring
    rw [this]
    linarith
  · rw [div_sub_div _ _ hT'.ne' hD'.ne', div_le_iff₀ (by positivity)]
    have : (1 : ℚ) / (2 * T) * (T * D) = D / 2 := by field_simp; ring
    rw [this]
    linarith

theorem killsAssists_small (player : Participant)
    (h : player.stats.kills + player.stats.assists < 2 ^ 53) :
    killsAssists player = .fin ((player.stats.kills + player.stats.assists) * 2 ^ 1074) := by
  unfold killsAssists
  rw [ofNat_small _ (by omega), ofNat_small _ (by omega)]
  exact jsAdd_small _ _ h

theorem foldl_kills (team : ℕ) : ∀ (l : List Participant) (acc : ℕ),
    acc + ((l.filter fun current => current.teamId = team).map
      fun current => current.stats.kills).sum < 2 ^ 53 →
    l.foldl (fun prev current =>
        if current.teamId ≠ team then prev else jsAdd prev (ofNat current.stats.kills))
      (.fin (acc * 2 ^ 1074)) =
      .fin ((acc + ((l.filter fun current => current.teamId = team).map
        fun current => current.stats.kills).sum) * 2 ^ 1074) := by
  intro l
  induction l with
  | nil => intro acc _; simp
  | cons p ps ih =>
    intro acc h
    by_cases hp : p.teamId = team
    · simp only [List.filter_cons, hp, decide_True, if_true, List.map_cons, List.sum_cons,
        List.foldl_cons, ne_eq, not_true_eq_false, if_false] at h ⊢
      rw [ofNat_small _ (by omega), jsAdd_small _ _ (by omega), ih _ (by omega)]
      congr 2
      omega
    · simp only [List.filter_cons, hp, decide_False, List.foldl_cons, ne_eq,
        not_false_eq_true, if_true] at h ⊢
      simpa using ih acc (by simpa using h)

theorem totalKills_small (m : Match) (player : Participant) (h : teamKills m player < 2 ^ 53) :
    totalKills m player = .fin (teamKills m player * 2 ^ 1074) := by
  unfold totalKills teamKills at *
  rw [ofNat_small 0 (by norm_num)]
  have := foldl_kills player.teamId m.participants 0 (by simpa using h)
  simpa using this

theorem kp_quotient (player : Participant) (t : ℕ) (ht : 0 < t) (ht' : t < 2 ^ 53)
    (hka : 2000 * (player.stats.kills + player.stats.assists) < 2 ^ 53) :
    ∃ n : ℕ, plusToFixed 1 (jsDiv (jsMul (killsAssists player) (ofNat 100))
        (.fin (t * 2 ^ 1074))) = ofDecimal n 1 ∧
      |(n : ℚ) / 10 - ((player.stats.kills : ℚ) + player.stats.assists) * 100 / t| ≤ 1 / 20 := by
  rw [killsAssists_small player (by omega), ofNat_small 100 (by norm_num),
    jsMul_small _ _ (by omega), jsDiv_small _ _ ht]
  obtain ⟨n, hn, b1, b2⟩ := plusToFixed_fl 1
    ((player.stats.kills + player.stats.assists) * 100) t ht ht' (by norm_num; omega)
  refine ⟨n, hn, ?_⟩
  have := abs_sub_le_of_bounds n (10 ^ 1) _ _ (by norm_num) ht b1 b2
  norm_num at this
  exact this

theorem uriKept_lt (c : ℕ) (h : uriKept c = true) : c < 0xD800 := by
  unfold uriKept at h
  simp only [Bool.or_eq_true, decide_eq_true_eq, List.contains_iff_exists_mem_beq,
    beq_iff_eq] at h
  rcases h with h | ⟨x, hx, rfl⟩
  · omega
  · revert hx
    simp only [List.mem_cons, List.mem_singleton, List.not_mem_nil, or_false]
    omega

theorem encodeUnits_ok_iff : ∀ (n : ℕ) (s : List ℕ), s.length = n →
    ((∃ out, encodeUnits s = .ok out) ↔ wellFormedUTF16 s = true) ∧
      ∀ e, encodeUnits s = .error e → e = .uriError := by
  intro n
  induction n using Nat.strong_induction_on with
  | _ n ih =>
    intro s hs
    match s, hs with
    | [], _ => simp [encodeUnits, wellFormedUTF16]
    | [c], _ =>
      simp only [encodeUnits, wellFormedUTF16]
      by_cases hk : uriKept c = true
      · have := uriKept_lt c hk
        simp only [hk, if_true]
        constructor
        · simp; omega
        · intro e he; cases he
      · simp only [hk, Bool.false_eq_true, if_false]
        by_cases hsur : 0xD800 ≤ c ∧ c ≤ 0xDFFF
        · simp only [hsur, and_self, if_true, decide_True, Bool.not_true]
          constructor
          · simp
          · intro e he; cases he; rfl
        · simp only [hsur, if_false, decide_False, Bool.not_false]
          constructor
          · simp
          · intro e he; cases he
    | c :: d :: rest, hs =>
      have hlen1 : (d :: rest).length < n := by simp at hs ⊢; omega
      have hlen2 : rest.length < n := by simp at hs ⊢; omega
      obtain ⟨i1, e1⟩ := ih _ hlen1 (d :: rest) rfl
      obtain ⟨i2, e2⟩ := ih _ hlen2 rest rfl
      simp only [encodeUnits, wellFormedUTF16]
      by_cases hk : uriKept c = true
      · have hc := uriKept_lt c hk
        have h1 : ¬ (0xD800 ≤ c ∧ c ≤ 0xDBFF) := by omega
        have h2 : ¬ (0xDC00 ≤ c ∧ c ≤ 0xDFFF) := by omega
        simp only [hk, if_true, h1, if_false, h2, decide_False, Bool.not_false, Bool.true_and]
        rw [← i1]
        cases hr : encodeUnits (d :: rest) with
        | ok out => simp
        | error e =>
          simp only [reduceCtorEq, exists_false, Except.error.injEq, true_and]
          exact fun e' he => he ▸ e1 e hr
      · simp only [hk, Bool.false_eq_true, if_false]
        by_cases hsur : 0xD800 ≤ c ∧ c ≤ 0xDFFF
        · simp only [hsur, and_self, if_true]
          by_cases hpair : c ≤ 0xDBFF ∧ 0xDC00 ≤ d ∧ d ≤ 0xDFFF
          · have h1 : 0xD800 ≤ c ∧ c ≤ 0xDBFF := ⟨hsur.1, hpair.1⟩
            simp only [hpair, and_self, if_true, h1, decide_True, Bool.true_and]
            rw [← i2]
            cases hr : encodeUnits rest with
            | ok out => simp
            | error e =>
              simp only [reduceCtorEq, exists_false, Except.error.injEq, true_and]
              exact fun e' he => he ▸ e2 e hr
          · simp only [hpair, if_false, reduceCtorEq, exists_false, false_iff,
              Except.error.injEq]
            constructor
            · by_cases h1 : 0xD800 ≤ c ∧ c ≤ 0xDBFF
              · have h3 : ¬ (0xDC00 ≤ d ∧ d ≤ 0xDFFF) := by omega
                simp [h1, h3]
              · have h2 : 0xDC00 ≤ c ∧ c ≤ 0xDFFF := by omega
                simp [h1, h2]
                intros
                omega
            · intro e he; exact he.symm
        · have h1 : ¬ (0xD800 ≤ c ∧ c ≤ 0xDBFF) := by omega
          have h2 : ¬ (0xDC00 ≤ c ∧ c ≤ 0xDFFF) := by omega
          simp only [hsur, if_false, h1, h2, decide_False, Bool.not_false, Bool.true_and]
          rw [← i1]
          cases hr : encodeUnits (d :: rest) with
          | ok out => simp
          | error e =>
            simp only [reduceCtorEq, exists_false, Except.error.injEq, true_and]
            exact fun e' he => he ▸ e1 e hr

theorem getPlayerData_lookups {self : MatchTransformer} {m : Match} {player : Participant}
    {detailed : Bool} {teamStats : TeamStats} {r : PlayerView}
    (h : getPlayerData self m player detailed teamStats = .ok r) :
    ∃ identity entry,
      m.participantIdentities.find?
          (fun p => decide (p.participantId = player.participantId)) = some identity ∧
        self.champions.find?
          (fun entry => strictEq entry.2.key (ofNat player.championId)) = some entry ∧
        r.name = identity.player.summonerName ∧
        r.champion = { id := entry.2.id, name := entry.2.name, tags := entry.2.tags } := by
  unfold getPlayerData at h
  split at h
  · cases h
  · rename_i identity hid
    split at h
    · cases h
    · rename_i entry hen
      split at h
      · cases h
      · split at h
        · cases h
        · cases h
          exact ⟨identity, entry, hid, hen, rfl, rfl⟩

theorem itemSlots_congr (self self' : MatchTransformer) (hi : self'.items = self.items) :
    ∀ ids, itemSlots self' ids = itemSlots self ids := by
  intro ids
  induction ids with
  | nil => rfl
  | cons id ids ih => simp only [itemSlots, itemSlot, hi, ih]

theorem getPlayerData_congr (self self' : MatchTransformer) (m : Match) (player : Participant)
    (detailed : Bool) (teamStats : TeamStats)
    (hc : self'.champions = self.champions) (hi : self'.items = self.items)
    (hp : self'.perks = self.perks) (hs : self'.perkstyles = self.perkstyles) :
    getPlayerData self' m player detailed teamStats =
      getPlayerData self m player detailed teamStats := by
  simp only [getPlayerData, runesOf, hc, hp, hs, itemSlots_congr self self' hi]

theorem indexOfFrom_not_mem (x : String) : ∀ (l : List String) (i : ℕ), x ∉ l →
    indexOfFrom x l i = -1 := by
  intro l
  induction l with
  | nil => intro i _; rfl
  | cons y ys ih =>
    intro i h
    have hy : ¬ y = x := fun e => h (e ▸ List.mem_cons_self _ _)
    have hx : x ∉ ys := fun e => h (List.mem_cons_of_mem _ e)
    simp only [indexOfFrom, hy, if_false]
    exact ih (i + 1) hx

theorem indexOfFrom_nonneg (x : String) : ∀ (l : List String) (i : ℕ), x ∈ l →
    0 ≤ indexOfFrom x l i := by
  intro l i h
  rw [indexOfFrom_eq x l i h]
  exact Int.natCast_nonneg _

theorem splitChars_no_separator (sep : List Char) : ∀ (s cur : List Char), ¬ sep <:+: s →
    splitChars sep 0 s cur = [cur.reverse ++ s] := by
  intro s
  induction s with
  | nil => intro cur _; simp [splitChars]
  | cons c cs ih =>
    intro cur h
    have h1 : ¬ sep <+: c :: cs := fun hp => h hp.isInfix
    have h2 : ¬ sep <:+: cs := fun hi => h (List.infix_cons hi)
    have h3 : sep.isPrefixOf (c :: cs) = false := by
      rw [Bool.eq_false_iff]
      intro hp
      exact h1 ( List.isPrefixOf_iff_prefix.1 hp)
    simp only [splitChars, h3, Bool.false_eq_true, if_false]
    rw [ih (c :: cur) h2]
    simp

theorem iconUrl_no_separator (iconPath : String)
    (h : ¬ "/assets/".data <:+: iconPath.data) : iconUrl iconPath = .error .typeError := by
  unfold iconUrl iconTail split
  rw [splitChars_no_separator _ _ _ h]
  rfl

theorem itemSlots_error (self : MatchTransformer) : ∀ (ids : List ℕ), (∃ id ∈ ids,
    itemSlot self id = .error .typeError) → (∀ id ∈ ids, ∀ e, itemSlot self id = .error e →
      e = .typeError) → itemSlots self ids = .error .typeError := by
  intro ids
  induction ids with
  | nil => rintro ⟨id, hid, -⟩; simp at hid
  | cons x xs ih =>
    rintro ⟨id, hid, hbad⟩ hall
    simp only [itemSlots]
    cases hx : itemSlot self x with
    | error e =>
      have := hall x (List.mem_cons_self _ _) e hx
      simp [this]
    | ok slot =>
      have hid' : id ∈ xs := by
        rcases List.mem_cons.1 hid with e | e
        · rw [e, hx] at hbad; cases hbad
        · exact e
      simp only []
      rw [ih ⟨id, hid', hbad⟩ (fun i hi => hall i (List.mem_cons_of_mem _ hi))]

theorem iconUrl_error_type (iconPath : String) (e : JSError)
    (h : iconUrl iconPath = .error e) : e = .typeError := by
  unfold iconUrl iconTail at h
  split at h
  · cases h
  · rename_i e' h2
    split at h2
    · cases h2
    · cases h2; cases h; rfl

theorem itemSlot_error_type (self : MatchTransformer) (id : ℕ) (e : JSError)
    (h : itemSlot self id = .error e) : e = .typeError := by
  unfold itemSlot at h
  split_ifs at h
  split at h
  · cases h; rfl
  · split at h
    · rename_i e' h1
      cases h
      exact iconUrl_error_type _ _ h1
    · cases h

theorem runesOf_error_type (self : MatchTransformer) (player : Participant) (e : JSError)
    (h : runesOf self player = .error e) : e = .typeError := by
  unfold runesOf at h
  split at h
  · cases h
  · cases h
  · split at h
    · cases h; rfl
    · split at h
      · rename_i e' h1
        cases h
        exact iconUrl_error_type _ _ h1
      · split at h
        · cases h; rfl
        · split at h
          · rename_i e' h1
            cases h
            exact iconUrl_error_type _ _ h1
          · cases h

theorem windows_le_budget {α : Type} : ∀ (events : List (LimiterEvent α)) (s : RateLimiter α)
    (current : List α), current.length = s.used → s.used ≤ s.budget →
    ∀ w ∈ RateLimiter.windows s current events, w.length ≤ s.budget := by
  intro events
  induction events with
  | nil =>
    intro s current hc hu w hw
    simp only [RateLimiter.windows, List.mem_singleton] at hw
    rw [hw, hc]; exact hu
  | cons ev events ih =>
    intro s current hc hu w hw
    cases ev with
    | submit request =>
      simp only [RateLimiter.windows] at hw
      by_cases hlt : s.used < s.budget
      · have e : s.submit request = ({ s with used := s.used + 1 }, [request]) := by
          simp only [RateLimiter.submit, hlt, if_true]
        rw [e] at hw
        exact ih { s with used := s.used + 1 } (current ++ [request])
          (by simp only [List.length_append, List.length_singleton, hc]) hlt w hw
      · have e : s.submit request = ({ s with queue := s.queue ++ [request] }, []) := by
          simp only [RateLimiter.submit, hlt, if_false]
        rw [e] at hw
        exact ih { s with queue := s.queue ++ [request] } (current ++ [])
          (by simp only [List.append_nil, hc]) hu w hw
    | rollover =>
      simp only [RateLimiter.windows, List.mem_cons] at hw
      rcases hw with hw | hw
      · rw [hw, hc]; exact hu
      · exact ih s.rollover.1 s.rollover.2 rfl
          (by simp only [RateLimiter.rollover, List.length_take]; exact Nat.min_le_left _ _) w hw

/-! ## Lemmas on the heap -/

theorem Exec.bind_apply {α β : Type} (x : Exec α) (f : α → Exec β) (h : Heap) :
    (x >>= f) h =
      match x h with
      | (.ok a, h') => f a h'
      | (.error e, h') => (.error e, h') := rfl

theorem Exec.pure_apply {α : Type} (a : α) (h : Heap) : (pure a : Exec α) h = (.ok a, h) := rfl

theorem get?_append_of_get? {h : Heap} {r : Ref} {o : HeapObject} (hr : h.get? r = some o)
    (ex : Heap) : (h ++ ex).get? r = some o := by
  rw [List.get?_eq_getElem?] at hr ⊢
  have hlt : r < h.length := by
    by_contra hc
    rw [List.getElem?_eq_none (Nat.le_of_not_lt hc)] at hr
    cases hr
  rw [List.getElem?_append_left hlt]
  exact hr

theorem get?_length_append (h : Heap) (o : HeapObject) (ex : Heap) :
    (h ++ o :: ex).get? h.length = some o := by
  rw [List.get?_eq_getElem?, List.getElem?_append_right (Nat.le_refl _)]
  simp

theorem get?_length_succ (h : Heap) (o o' : HeapObject) (ex : Heap) :
    (h ++ o :: o' :: ex).get? (h.length + 1) = some o' := by
  rw [List.get?_eq_getElem?, List.getElem?_append_right (Nat.le_succ _)]
  simp

theorem set_length_append (h : Heap) (o o' : HeapObject) (ex : Heap) :
    (h ++ o :: ex).set h.length o' = h ++ o' :: ex := by
  rw [List.set_append_right _ _ (Nat.le_refl _), Nat.sub_self]
  rfl

theorem set_length_succ (h : Heap) (o o₁ o' : HeapObject) (ex : Heap) :
    (h ++ o :: o₁ :: ex).set (h.length + 1) o' = h ++ o :: o' :: ex := by
  rw [List.set_append_right _ _ (Nat.le_succ _)]
  simp

theorem push_run (h : Heap) (s : StatsObject) (es : List (Option ItemView))
    (element : Option ItemView) :
    Exec.push (h.length + 1) element (h ++ [.stats s, .array es]) =
      (.ok (), h ++ [.stats s, .array (es ++ [element])]) := by
  simp only [Exec.push, get?_length_succ, set_length_succ]

theorem itemsPushed_of_ok (self : MatchTransformer) : ∀ (ids : List ℕ)
    (slots : List (Option ItemView)), itemSlots self ids = .ok slots →
    itemsPushed self ids = slots := by
  intro ids
  induction ids with
  | nil =>
    intro slots hs
    simp only [itemSlots, Except.ok.injEq] at hs
    rw [← hs]; rfl
  | cons id ids ih =>
    intro slots hs
    simp only [itemSlots] at hs
    cases h1 : itemSlot self id with
    | error e => rw [h1] at hs; cases hs
    | ok slot =>
      rw [h1] at hs
      cases h2 : itemSlots self ids with
      | error e => rw [h2] at hs; cases hs
      | ok rest =>
        rw [h2] at hs
        simp only [Except.ok.injEq] at hs
        simp only [itemsPushed, h1, ih rest h2, hs]

theorem itemLoop_run (h : Heap) (this pref : Ref) (self : MatchTransformer)
    (player : Participant) (hthis : h.get? this = some (.transformer self))
    (hp : h.get? pref = some (.participant player)) (s : StatsObject) :
    ∀ (idx : List ℕ) (es : List (Option ItemView)),
      itemLoop this pref (h.length + 1) idx (h ++ [.stats s, .array es]) =
        ((itemSlots self (idx.map fun i => (itemIds player.stats).getD i 0)).map fun _ => (),
          h ++ [.stats s, .array
            (es ++ itemsPushed self (idx.map fun i => (itemIds player.stats).getD i 0))]) := by
  intro idx
  induction idx with
  | nil =>
    intro es
    simp only [itemLoop, List.map_nil, itemSlots, itemsPushed, List.append_nil]
    rfl
  | cons i rest ih =>
    intro es
    have hp' := get?_append_of_get? hp [.stats s, .array es]
    have hthis' := get?_append_of_get? hthis [.stats s, .array es]
    simp only [itemLoop, Exec.bind_apply, Exec.readPlayer, hp', List.map_cons, itemSlots,
      itemSlot, itemsPushed]
    by_cases h0 : (itemIds player.stats).getD i 0 = 0
    · simp only [h0, if_true, Exec.bind_apply, push_run, ih, List.append_assoc,
        List.singleton_append]
      cases itemSlots self (rest.map fun i => (itemIds player.stats).getD i 0) <;> rfl
    · simp only [h0, if_false, Exec.bind_apply, Exec.readThis, hthis']
      cases hf : self.items.find? (fun i_1 => decide (i_1.id = (itemIds player.stats).getD i 0))
        with
      | none =>
        simp only [Exec.defined, List.append_nil]
        rfl
      | some item =>
        simp only [Exec.defined, iconUrl]
        cases ht : iconTail item.iconPath with
        | error e =>
          simp only [Exec.lift, List.append_nil]
          rfl
        | ok tail =>
          simp only [Exec.lift, push_run, ih, List.append_assoc, List.singleton_append]
          cases itemSlots self (rest.map fun i => (itemIds player.stats).getD i 0) <;> rfl

theorem readThis_run {g : Heap} {this : Ref} {self : MatchTransformer}
    (hg : g.get? this = some (.transformer self)) : Exec.readThis this g = (.ok self, g) := by
  simp only [Exec.readThis, hg]

theorem readMatch_run {g : Heap} {mref : Ref} {m : Match}
    (hg : g.get? mref = some (.matchData m)) : Exec.readMatch mref g = (.ok m, g) := by
  simp only [Exec.readMatch, hg]

theorem readPlayer_run {g : Heap} {pref : Ref} {player : Participant}
    (hg : g.get? pref = some (.participant player)) :
    Exec.readPlayer pref g = (.ok player, g) := by
  simp only [Exec.readPlayer, hg]

theorem readTeamStats_run {g : Heap} {tref : Ref} {teamStats : TeamStats}
    (hg : g.get? tref = some (.teamStats teamStats)) :
    Exec.readTeamStats tref g = (.ok teamStats, g) := by
  simp only [Exec.readTeamStats, hg]

theorem readStats_run (h : Heap) (s : StatsObject) (ex : Heap) :
    Exec.readStats h.length (h ++ .stats s :: ex) = (.ok s, h ++ .stats s :: ex) := by
  simp only [Exec.readStats, get?_length_append]

theorem assignKda_run (h : Heap) (s : StatsObject) (value : JSValue) (ex : Heap) :
    Exec.assignKda h.length value (h ++ .stats s :: ex) =
      (.ok (), h ++ .stats { s with kda := some value } :: ex) := by
  simp only [Exec.assignKda, get?_length_append, set_length_append]

theorem assignKp_run (h : Heap) (s : StatsObject) (value : JSValue) (ex : Heap) :
    Exec.assignKp h.length value (h ++ .stats s :: ex) =
      (.ok (), h ++ .stats { s with kp := some value } :: ex) := by
  simp only [Exec.assignKp, get?_length_append, set_length_append]

theorem alloc_stats_run (h : Heap) (s : StatsObject) :
    Exec.alloc (.stats s) h = (.ok h.length, h ++ [.stats s]) := rfl

theorem alloc_array_run (h : Heap) (s : StatsObject) :
    Exec.alloc (.array []) (h ++ [.stats s]) = (.ok (h.length + 1), h ++ [.stats s, .array []]) := by
  simp only [Exec.alloc, List.length_append, List.length_singleton, List.append_assoc,
    List.singleton_append]

theorem getPlayerDataBody_run (h : Heap) (this mref pref tref : Ref) (detailed : Bool)
    (self : MatchTransformer) (m : Match) (player : Participant) (teamStats : TeamStats)
    (hthis : h.get? this = some (.transformer self))
    (hm : h.get? mref = some (.matchData m))
    (hp : h.get? pref = some (.participant player))
    (ht : h.get? tref = some (.teamStats teamStats)) :
    (∃ ex, (getPlayerDataBody this mref pref detailed tref h).2 = h ++ ex) ∧
      outcomeOf (getPlayerDataBody this mref pref detailed tref h) =
        (getPlayerData self m player detailed teamStats).map some := by
  have rthis := fun ex => readThis_run (get?_append_of_get? hthis ex)
  have rm := fun ex => readMatch_run (get?_append_of_get? hm ex)
  have rp := fun ex => readPlayer_run (get?_append_of_get? hp ex)
  have rt := fun ex => readTeamStats_run (get?_append_of_get? ht ex)
  have rthis0 := readThis_run hthis
  have rm0 := readMatch_run hm
  have rp0 := readPlayer_run hp
  have rt0 := readTeamStats_run ht
  unfold getPlayerDataBody getPlayerData
  simp only [Exec.bind_apply, rm0, rp0]
  cases hid : m.participantIdentities.find?
      (fun p => decide (p.participantId = player.participantId)) with
  | none => exact ⟨⟨[], by simp [Exec.defined]⟩, rfl⟩
  | some identity =>
    simp only [Exec.defined, rthis0]
    cases hch : self.champions.find?
        (fun entry => strictEq entry.2.key (ofNat player.championId)) with
    | none => exact ⟨⟨[], by simp⟩, rfl⟩
    | some entry =>
      simp only [alloc_stats_run, readStats_run, assignKda_run]
      cases detailed with
      | true =>
        simp only [if_true, Exec.bind_apply, readStats_run, rm, rp, rt, rthis, assignKp_run,
          Exec.pure_apply]
        cases hr : runesOf self player with
        | error e => exact ⟨⟨_, rfl⟩, rfl⟩
        | ok runes =>
          simp only [Exec.lift, alloc_array_run]
          have hloop := itemLoop_run h this pref self player hthis hp
          have hids : ([0, 1, 2, 3, 4, 5].map fun i => (itemIds player.stats).getD i 0) =
              itemIds player.stats := rfl
          simp only [hloop, hids, List.nil_append]
          cases hs : itemSlots self (itemIds player.stats) with
          | error e => exact ⟨⟨_, rfl⟩, rfl⟩
          | ok slots =>
            simp only [Except.map, rp, Exec.pure_apply, itemsPushed_of_ok self _ _ hs]
            refine ⟨⟨_, rfl⟩, ?_⟩
            simp only [outcomeOf, Heap.view, get?_length_append, get?_length_succ,
              StatsObject.view, Except.map]
            rfl
      | false =>
        simp only [Bool.false_eq_true, if_false, Exec.bind_apply, readStats_run, rm, rp, rthis,
          assignKp_run, Exec.pure_apply]
        cases hr : runesOf self player with
        | error e => exact ⟨⟨_, rfl⟩, rfl⟩
        | ok runes =>
          simp only [Exec.lift, alloc_array_run]
          have hloop := itemLoop_run h this pref self player hthis hp
          have hids : ([0, 1, 2, 3, 4, 5].map fun i => (itemIds player.stats).getD i 0) =
              itemIds player.stats := rfl
          simp only [hloop, hids, List.nil_append]
          cases hs : itemSlots self (itemIds player.stats) with
          | error e => exact ⟨⟨_, rfl⟩, rfl⟩
          | ok slots =>
            simp only [Except.map, rp, Exec.pure_apply, itemsPushed_of_ok self _ _ hs]
            refine ⟨⟨_, rfl⟩, ?_⟩
            simp only [outcomeOf, Heap.view, get?_length_append, get?_length_succ,
              StatsObject.view, Except.map]
            rfl

/-! ## Lemmas on printing -/

theorem toDigitsCore_append : ∀ (fuel n : ℕ) (ds : List Char),
    Nat.toDigitsCore 10 fuel n ds = Nat.toDigitsCore 10 fuel n [] ++ ds := by
  intro fuel
  induction fuel with
  | zero => intro n ds; simp [Nat.toDigitsCore]
  | succ fuel ih =>
    intro n ds
    simp only [Nat.toDigitsCore]
    split_ifs
    · simp
    · rw [ih _ (Nat.digitChar (n % 10) :: ds), ih _ [Nat.digitChar (n % 10)]]
      simp

theorem toDigitsCore_fuel : ∀ (fuel fuel' n : ℕ) (ds : List Char), n < fuel → n < fuel' →
    Nat.toDigitsCore 10 fuel n ds = Nat.toDigitsCore 10 fuel' n ds := by
  intro fuel
  induction fuel with
  | zero => intro fuel' n ds h; omega
  | succ fuel ih =>
    intro fuel' n ds h h'
    match fuel', h' with
    | f' + 1, h' =>
      simp only [Nat.toDigitsCore]
      split_ifs with h0
      · rfl
      · have : n / 10 < n := Nat.div_lt_self (by omega) (by norm_num)
        exact ih f' _ _ (by omega) (by omega)

theorem repr_data_digit (b : ℕ) (hb : b < 10) : (Nat.repr b).data = [Nat.digitChar b] := by
  interval_cases b <;> rfl

theorem repr_data_step (a b : ℕ) (ha : 1 ≤ a) (hb : b < 10) :
    (Nat.repr (10 * a + b)).data = (Nat.repr a).data ++ [Nat.digitChar b] := by
  have h1 : (10 * a + b) % 10 = b := by omega
  have h2 : (10 * a + b) / 10 = a := by omega
  have step : Nat.toDigitsCore 10 (10 * a + b + 1) (10 * a + b) [] =
      Nat.toDigitsCore 10 (10 * a + b) a [Nat.digitChar b] := by
    conv_lhs => unfold Nat.toDigitsCore
    simp only [h1, h2]
    rw [if_neg (by omega)]
  simp only [Nat.repr, Nat.toDigits, List.asString]
  rw [step, toDigitsCore_append,
    toDigitsCore_fuel (10 * a + b) (a + 1) a [] (by omega) (by omega)]

theorem repr_data_mul_pow (s : ℕ) (hs : 1 ≤ s) : ∀ z : ℕ,
    (Nat.repr (s * 10 ^ z)).data = (Nat.repr s).data ++ List.replicate z '0' := by
  intro z
  induction z with
  | zero => simp
  | succ z ih =>
    have h : s * 10 ^ (z + 1) = 10 * (s * 10 ^ z) + 0 := by ring
    rw [h, repr_data_step _ 0 (Nat.mul_pos hs (pow_pos (by norm_num) _)) (by norm_num), ih,
      List.replicate_succ', List.append_assoc]
    rfl

theorem repr_length_pos (n : ℕ) : 1 ≤ (Nat.repr n).data.length := by
  rcases Nat.lt_or_ge n 10 with h | h
  · rw [repr_data_digit n h]; simp
  · have e : n = 10 * (n / 10) + n % 10 := by omega
    rw [e, repr_data_step _ _ (by omega) (Nat.mod_lt _ (by norm_num))]
    simp

theorem digitsAt_none (u : ℕ) (e : ℤ)
    (hlo : fl (u * 10 ^ (-e).toNat / (2 ^ 1074 * 10 ^ e.toNat) * 10 ^ e.toNat) (10 ^ (-e).toNat)
      ≠ .fin u)
    (hhi : fl ((u * 10 ^ (-e).toNat / (2 ^ 1074 * 10 ^ e.toNat) + 1) * 10 ^ e.toNat)
      (10 ^ (-e).toNat) ≠ .fin u) :
    digitsAt u e = none := by
  unfold digitsAt
  simp only [hlo, hhi, and_false, decide_False, Bool.false_and, if_false, Bool.false_eq_true]

theorem digitsAt_lo (u : ℕ) (e : ℤ)
    (hpos : 1 ≤ u * 10 ^ (-e).toNat / (2 ^ 1074 * 10 ^ e.toNat))
    (hlo : fl (u * 10 ^ (-e).toNat / (2 ^ 1074 * 10 ^ e.toNat) * 10 ^ e.toNat) (10 ^ (-e).toNat)
      = .fin u)
    (hhi : fl ((u * 10 ^ (-e).toNat / (2 ^ 1074 * 10 ^ e.toNat) + 1) * 10 ^ e.toNat)
      (10 ^ (-e).toNat) ≠ .fin u) :
    digitsAt u e = some (u * 10 ^ (-e).toNat / (2 ^ 1074 * 10 ^ e.toNat)) := by
  unfold digitsAt
  simp only [hlo, hhi, hpos, and_self, decide_True, decide_False, Bool.not_false, Bool.true_or,
    Bool.and_self, if_true]

theorem digitsAt_hi (u : ℕ) (e : ℤ)
    (hlo : fl (u * 10 ^ (-e).toNat / (2 ^ 1074 * 10 ^ e.toNat) * 10 ^ e.toNat) (10 ^ (-e).toNat)
      ≠ .fin u)
    (hhi : fl ((u * 10 ^ (-e).toNat / (2 ^ 1074 * 10 ^ e.toNat) + 1) * 10 ^ e.toNat)
      (10 ^ (-e).toNat) = .fin u) :
    digitsAt u e = some (u * 10 ^ (-e).toNat / (2 ^ 1074 * 10 ^ e.toNat) + 1) := by
  unfold digitsAt
  simp only [hlo, hhi, and_false, decide_False, Bool.false_and, if_false, Bool.false_eq_true,
    decide_True, if_true]

theorem shortestDigits_found (u : ℕ) (e₀ : ℤ) (s : ℕ) (hs : digitsAt u e₀ = some s) :
    ∀ (j fuel : ℕ), j < fuel → (∀ i : ℕ, i < j → digitsAt u (e₀ + 1 + i) = none) →
      shortestDigits u fuel (e₀ + j) = (s, e₀) := by
  intro j
  induction j with
  | zero =>
    intro fuel hf _
    match fuel, hf with
    | f + 1, _ =>
      simp only [Nat.cast_zero, add_zero, shortestDigits, hs]
  | succ j ih =>
    intro fuel hf hnone
    match fuel, hf with
    | f + 1, hf =>
      have h1 : digitsAt u (e₀ + (j + 1 : ℕ)) = none := by
        have := hnone j (Nat.lt_succ_self j)
        rw [← this]
        congr 1
        push_cast
        ring
      have h2 : e₀ + ((j + 1 : ℕ) : ℤ) - 1 = e₀ + j := by push_cast; ring
      simp only [shortestDigits, h1, h2]
      exact ih f (by omega) (fun i hi => hnone i (by omega))

theorem exists_trailing_zeros : ∀ c : ℕ, 1 ≤ c → ∃ s z, c = s * 10 ^ z ∧ s % 10 ≠ 0 := by
  intro c
  induction c using Nat.strong_induction_on with
  | _ c ih =>
    intro hc
    by_cases h : c % 10 = 0
    · obtain ⟨s, z, hs, hz⟩ := ih (c / 10) (by omega) (by omega)
      refine ⟨s, z + 1, ?_, hz⟩
      have : c = 10 * (c / 10) := by omega
      rw [this, hs]; ring
    · exact ⟨c, 0, by simp, h⟩

theorem numberToString_int (c : ℕ) (hc : 1 ≤ c) (hc' : c < 10 ^ 14) :
    numberToString (.fin (c * 2 ^ 1074)) = Nat.repr c := by
  obtain ⟨s, z, hsz, hs10⟩ := exists_trailing_zeros c hc
  have hP : 0 < 2 ^ 1074 := Nat.two_pow_pos _
  have hs1 : 1 ≤ s := by omega
  have hlen : (Nat.repr c).data.length = (Nat.repr s).data.length + z := by
    rw [hsz, repr_data_mul_pow s hs1 z]; simp
  have hlen14 : (Nat.repr c).data.length ≤ 14 := Nat.repr_length c 14 (by norm_num) hc'
  have hspos := repr_length_pos s
  have hu0 : c * 2 ^ 1074 ≠ 0 := by
    have := Nat.mul_pos hc hP
    omega
  have hdec : decimalExponent (c * 2 ^ 1074) + 1 = (z : ℤ) + ((Nat.repr s).data.length : ℕ) := by
    unfold decimalExponent
    rw [if_pos (Nat.le_mul_of_pos_left _ hc), Nat.mul_div_cancel _ hP]
    simp only [String.length]
    rw [hlen]
    push_cast
    ring
  have c53 : (2 : ℕ) ^ 53 = 9007199254740992 := by norm_num
  have c14 : (10 : ℕ) ^ 14 = 100000000000000 := by norm_num
  -- the value at exponent `k`
  have hquot : ∀ k : ℕ, c * 2 ^ 1074 * 10 ^ (-(k : ℤ)).toNat / (2 ^ 1074 * 10 ^ ((k : ℤ)).toNat)
      = c / 10 ^ k := by
    intro k
    have e1 : (-(k : ℤ)).toNat = 0 := by omega
    have e2 : ((k : ℤ)).toNat = k := by omega
    rw [e1, e2, pow_zero, Nat.mul_one, Nat.mul_comm c, Nat.mul_div_mul_left _ _ hP]
  have hhi : ∀ k : ℕ, k ≤ 14 →
      fl ((c / 10 ^ k + 1) * 10 ^ k) 1 ≠ .fin (c * 2 ^ 1074) := by
    intro k hk
    have hk14 : 10 ^ k ≤ 10 ^ 14 := Nat.pow_le_pow_right (by norm_num) hk
    have hpos : 0 < 10 ^ k := pow_pos (by norm_num) _
    have h1 := Nat.div_add_mod c (10 ^ k)
    have h2 := Nat.mod_lt c hpos
    have e : (c / 10 ^ k + 1) * 10 ^ k = 10 ^ k * (c / 10 ^ k) + 10 ^ k := by ring
    have hlt : (c / 10 ^ k + 1) * 10 ^ k < 2 ^ 53 := by
      rw [e, c53]; rw [c14] at hk14 hc'; omega
    rw [fl_one _ hlt]
    intro h
    have h3 := Nat.eq_of_mul_eq_mul_right hP (JSNum.fin.inj h)
    omega
  have hfound : digitsAt (c * 2 ^ 1074) z = some s := by
    have hz : z ≤ 14 := by omega
    have hq : c / 10 ^ z = s := by
      rw [hsz]; exact Nat.mul_div_cancel _ (pow_pos (by norm_num) _)
    have e1 : (-(z : ℤ)).toNat = 0 := by omega
    have e2 : ((z : ℤ)).toNat = z := by omega
    have := digitsAt_lo (c * 2 ^ 1074) z (by rw [hquot, hq]; exact hs1)
      (by
        rw [hquot, hq, e1, e2, pow_zero, ← hsz]
        exact fl_one c (by rw [c53]; rw [c14] at hc'; omega))
      (by
        rw [hquot, e1, e2, pow_zero]
        exact hhi z hz)
    rw [this, hquot, hq]
  have hnone : ∀ i : ℕ, i < (Nat.repr s).data.length →
      digitsAt (c * 2 ^ 1074) ((z : ℤ) + 1 + i) = none := by
    intro i hi
    have ek : (z : ℤ) + 1 + i = ((z + 1 + i : ℕ) : ℤ) := by push_cast; ring
    rw [ek]
    have e1 : (-((z + 1 + i : ℕ) : ℤ)).toNat = 0 := by omega
    have e2 : (((z + 1 + i : ℕ) : ℤ)).toNat = z + 1 + i := by omega
    have hk : z + 1 + i ≤ 14 := by omega
    apply digitsAt_none
    · rw [hquot, e1, e2, pow_zero]
      have hpos : 0 < 10 ^ (z + 1 + i) := pow_pos (by norm_num) _
      have hle : c / 10 ^ (z + 1 + i) * 10 ^ (z + 1 + i) ≤ c := Nat.div_mul_le_self _ _
      rw [fl_one _ (by rw [c53]; rw [c14] at hc'; omega)]
      intro h
      have h3 := Nat.eq_of_mul_eq_mul_right hP (JSNum.fin.inj h)
      have hdvd : 10 ^ (z + 1 + i) ∣ c := ⟨_, by rw [Nat.mul_comm]; exact h3.symm⟩
      have hdvd' : 10 ^ z * 10 ∣ 10 ^ z * s := by
        have e : 10 ^ z * 10 = 10 ^ (z + 1) := by rw [pow_succ]
        rw [e, Nat.mul_comm _ s, ← hsz]
        exact Dvd.dvd.trans (pow_dvd_pow 10 (by omega)) hdvd
      have := Nat.dvd_of_mul_dvd_mul_left (pow_pos (by norm_num) z) hdvd'
      omega
    · rw [hquot, e1, e2, pow_zero]
      exact hhi _ hk
  have hsd := shortestDigits_found (c * 2 ^ 1074) z s hfound (Nat.repr s).data.length 20
    (by omega) hnone
  unfold numberToString
  simp only [hu0, if_false, hdec, hsd]
  unfold layoutDigits
  simp only
  rw [if_pos (by constructor <;> omega)]
  have e3 : (((Nat.repr s).data.length : ℤ) + z - (Nat.repr s).data.length).toNat = z := by omega
  rw [e3, ← repr_data_mul_pow s hs1 z, ← hsz]

theorem numberToString_tenths (n : ℕ) (hn : 11 ≤ n) (hn' : n < 10 ^ 15) (h10 : n % 10 ≠ 0) :
    numberToString (fl n 10) =
      String.mk ((Nat.repr (n / 10)).data ++ '.' :: [Nat.digitChar (n % 10)]) := by
  have c52 : (2 : ℕ) ^ 52 = 4503599627370496 := by norm_num
  have c53 : (2 : ℕ) ^ 53 = 9007199254740992 := by norm_num
  have c14 : (10 : ℕ) ^ 14 = 100000000000000 := by norm_num
  have c15 : (10 : ℕ) ^ 15 = 1000000000000000 := by norm_num
  have hP : 0 < 2 ^ 1074 := Nat.two_pow_pos _
  have hlo : 10 * 2 ^ 52 ≤ n * 2 ^ 1074 := by
    calc 10 * 2 ^ 52 ≤ 2 ^ 4 * 2 ^ 52 := Nat.mul_le_mul_right _ (by norm_num)
      _ = 2 ^ 56 := by rw [← Nat.pow_add]
      _ ≤ 2 ^ 1074 := Nat.pow_le_pow_right (by norm_num) (by norm_num)
      _ ≤ n * 2 ^ 1074 := Nat.le_mul_of_pos_left _ (by omega)
  have hhi : n < 10 * 2 ^ 1023 := by
    calc n < 10 ^ 15 := hn'
      _ ≤ 2 ^ 1023 := by
        calc 10 ^ 15 ≤ 16 ^ 15 := Nat.pow_le_pow_left (by norm_num) _
          _ = 2 ^ 60 := by norm_num
          _ ≤ 2 ^ 1023 := Nat.pow_le_pow_right (by norm_num) (by norm_num)
      _ ≤ 10 * 2 ^ 1023 := Nat.le_mul_of_pos_left _ (by norm_num)
  obtain ⟨u, hu, k1, k2⟩ := fl_near n 10 (by norm_num) hlo hhi
  rw [c53] at k1 k2
  rw [c15] at hn'
  -- the value is not a whole number
  have hfrac : ∀ c : ℕ, u ≠ c * 2 ^ 1074 := by
    intro c hc
    subst hc
    have a1 : 2 ^ 1074 * (9007199254740992 * (c * 10)) ≤ 2 ^ 1074 * ((9007199254740992 + 1) * n) := by
      calc 2 ^ 1074 * (9007199254740992 * (c * 10)) = 9007199254740992 * (c * 2 ^ 1074 * 10) := by
            ring
        _ ≤ (9007199254740992 + 1) * (n * 2 ^ 1074) := k1
        _ = _ := by ring
    have a2 : 2 ^ 1074 * ((9007199254740992 - 1) * n) ≤ 2 ^ 1074 * (9007199254740992 * (c * 10)) := by
      calc 2 ^ 1074 * ((9007199254740992 - 1) * n) = (9007199254740992 - 1) * (n * 2 ^ 1074) := by
            ring
        _ ≤ 9007199254740992 * (c * 2 ^ 1074 * 10) := k2
        _ = _ := by ring
    have a1' := Nat.le_of_mul_le_mul_left a1 hP
    have a2' := Nat.le_of_mul_le_mul_left a2 hP
    rcases Nat.lt_trichotomy (c * 10) n with hlt | heq | hgt
    · omega
    · omega
    · omega
  -- the whole part
  have hF := Nat.div_add_mod u (2 ^ 1074)
  have hFr := Nat.mod_lt u hP
  have hF1 : 1 ≤ u / 2 ^ 1074 := by
    rw [Nat.one_le_div_iff hP]
    by_contra hc
    have hc' : u < 2 ^ 1074 := Nat.lt_of_not_le hc
    generalize (2 : ℕ) ^ 1074 = P at *
    nlinarith
  have hFn : 10 * (u / 2 ^ 1074) ≤ n := by
    by_contra hc
    have hc' : n + 1 ≤ 10 * (u / 2 ^ 1074) := by omega
    generalize u / 2 ^ 1074 = F at *
    generalize u % 2 ^ 1074 = r at *
    generalize (2 : ℕ) ^ 1074 = P at *
    nlinarith
  have hFlen : (Nat.repr (u / 2 ^ 1074)).data.length ≤ 14 :=
    Nat.repr_length _ 14 (by norm_num) (by rw [c14]; omega)
  have hu0 : u ≠ 0 := by
    intro h; rw [h] at hF1; simp at hF1
  have hdec : decimalExponent u + 1 =
      (-1 : ℤ) + ((Nat.repr (u / 2 ^ 1074)).data.length + 1 : ℕ) := by
    unfold decimalExponent
    rw [if_pos ((Nat.one_le_div_iff hP).mp hF1)]
    simp only [String.length]
    push_cast
    ring
  -- the quotient at exponent `-1`
  have hq : u * 10 / 2 ^ 1074 = n ∨ u * 10 / 2 ^ 1074 + 1 = n := by
    have h1 := Nat.div_add_mod (u * 10) (2 ^ 1074)
    have h2 := Nat.mod_lt (u * 10) hP
    generalize u * 10 / 2 ^ 1074 = q at *
    generalize u * 10 % 2 ^ 1074 = r at *
    have b1 : q < n + 1 := by
      by_contra hc
      have hc' : n + 1 ≤ q := by omega
      generalize (2 : ℕ) ^ 1074 = P at *
      nlinarith
    have b2 : n < q + 2 := by
      by_contra hc
      have hc' : q + 2 ≤ n := by omega
      generalize (2 : ℕ) ^ 1074 = P at *
      nlinarith
    omega
  have hfound : digitsAt u (-1) = some n := by
    have e1 : (-(-1 : ℤ)).toNat = 1 := by decide
    have e2 : ((-1 : ℤ)).toNat = 0 := by decide
    rcases hq with hq | hq
    · have := digitsAt_lo u (-1)
        (by rw [e1, e2, pow_zero, pow_one, Nat.mul_one, hq]; omega)
        (by rw [e1, e2, pow_zero, pow_one, Nat.mul_one, Nat.mul_one, hq]; exact hu)
        (by
          rw [e1, e2, pow_zero, pow_one, Nat.mul_one, Nat.mul_one, hq, ← hu]
          exact (fl_tenths_ne n (n + 1) (by omega) (by omega) (by rw [c52]; omega)).symm)
      rw [this, e1, e2, pow_zero, pow_one, Nat.mul_one, hq]
    · have := digitsAt_hi u (-1)
        (by
          rw [e1, e2, pow_zero, pow_one, Nat.mul_one, Nat.mul_one, ← hu]
          have hlt : u * 10 / 2 ^ 1074 < n := by omega
          have h1 : 1 ≤ u * 10 / 2 ^ 1074 := by omega
          exact fl_tenths_ne _ n h1 hlt (by rw [c52]; omega))
        (by rw [e1, e2, pow_zero, pow_one, Nat.mul_one, Nat.mul_one, hq]; exact hu)
      rw [this, e1, e2, pow_zero, pow_one, Nat.mul_one, hq]
  have hnone : ∀ i : ℕ, i < (Nat.repr (u / 2 ^ 1074)).data.length + 1 →
      digitsAt u ((-1 : ℤ) + 1 + i) = none := by
    intro i hi
    have ek : (-1 : ℤ) + 1 + i = ((i : ℕ) : ℤ) := by ring
    rw [ek]
    have e1 : (-((i : ℕ) : ℤ)).toNat = 0 := by omega
    have e2 : (((i : ℕ) : ℤ)).toNat = i := by omega
    have hk : i ≤ 14 := by omega
    have hk14 : 10 ^ i ≤ 10 ^ 14 := Nat.pow_le_pow_right (by norm_num) hk
    have hpos : 0 < 10 ^ i := pow_pos (by norm_num) _
    have hle : u * 1 / (2 ^ 1074 * 10 ^ i) * 10 ^ i ≤ u / 2 ^ 1074 := by
      rw [Nat.mul_one, ← Nat.div_div_eq_div_mul]
      exact Nat.div_mul_le_self _ _
    rw [c14] at hk14
    have hFb : u / 2 ^ 1074 < 100000000000000 := by omega
    have hlt1 : u * 1 / (2 ^ 1074 * 10 ^ i) * 10 ^ i < 2 ^ 53 := by
      rw [c53]
      exact Nat.lt_of_le_of_lt hle (Nat.lt_trans hFb (by norm_num))
    have hlt2 : (u * 1 / (2 ^ 1074 * 10 ^ i) + 1) * 10 ^ i < 2 ^ 53 := by
      have e : (u * 1 / (2 ^ 1074 * 10 ^ i) + 1) * 10 ^ i =
          u * 1 / (2 ^ 1074 * 10 ^ i) * 10 ^ i + 10 ^ i := by ring
      rw [c53, e]
      have := Nat.lt_of_le_of_lt hle hFb
      generalize u * 1 / (2 ^ 1074 * 10 ^ i) * 10 ^ i = X at *
      generalize (10 : ℕ) ^ i = T at *
      omega
    apply digitsAt_none
    · rw [e1, e2, pow_zero]
      rw [fl_one _ hlt1]
      intro h
      exact hfrac _ (JSNum.fin.inj h).symm
    · rw [e1, e2, pow_zero]
      rw [fl_one _ hlt2]
      intro h
      exact hfrac _ (JSNum.fin.inj h).symm
  have hsd := shortestDigits_found u (-1) n hfound _ 20 (by omega) hnone
  rw [hu]
  unfold numberToString
  simp only [hu0, if_false, hdec, hsd]
  have hrepr : (Nat.repr n).data = (Nat.repr (n / 10)).data ++ [Nat.digitChar (n % 10)] := by
    have e : n = 10 * (n / 10) + n % 10 := by omega
    conv_lhs => rw [e]
    exact repr_data_step _ _ (by omega) (Nat.mod_lt _ (by norm_num))
  have hl := repr_length_pos (n / 10)
  have hl' : (Nat.repr (n / 10)).data.length ≤ 14 :=
    Nat.repr_length _ 14 (by norm_num) (by rw [c14]; omega)
  unfold layoutDigits
  simp only
  rw [hrepr]
  simp only [List.length_append, List.length_singleton]
  rw [if_neg (by omega), if_pos (by constructor <;> omega)]
  have e3 : ((((Nat.repr (n / 10)).data.length + 1 : ℕ) : ℤ) + -1).toNat =
      (Nat.repr (n / 10)).data.length := by omega
  rw [e3, List.take_left, List.drop_left]

theorem numberToString_ofDecimal (n : ℕ) (hn : n < 10 ^ 15) :
    numberToString (ofDecimal n 1) = decimalTenths n := by
  unfold ofDecimal
  rw [pow_one]
  by_cases h10 : n % 10 = 0
  · rcases Nat.eq_zero_or_pos n with h0 | h0
    · subst h0; decide
    · have e : n = n / 10 * 10 := by omega
      have c14 : (10 : ℕ) ^ 14 = 100000000000000 := by norm_num
      have c15 : (10 : ℕ) ^ 15 = 1000000000000000 := by norm_num
      have c53 : (2 : ℕ) ^ 53 = 9007199254740992 := by norm_num
      rw [c15] at hn
      have hfl : fl n 10 = .fin (n / 10 * 2 ^ 1074) := by
        conv_lhs => rw [e]
        exact fl_int (n / 10) 10 (by norm_num) (by rw [c53]; omega)
      rw [hfl, numberToString_int (n / 10) (by omega) (by rw [c14]; omega)]
      unfold decimalTenths
      rw [if_pos h10]
  · rcases Nat.lt_or_ge n 11 with hlt | hge
    · interval_cases n <;> first | (exfalso; exact h10 rfl) | decide
    · rw [numberToString_tenths n hge hn h10]
      unfold decimalTenths
      rw [if_neg h10]
      apply String.ext
      rw [String.data_append, String.data_append,
        repr_data_digit (n % 10) (Nat.mod_lt _ (by norm_num))]
      simp

theorem fixed1_thousands (v : ℕ) (hv : v < 2 ^ 53) :
    ∃ n : ℕ, fixed1 (jsDiv (ofNat v) (ofNat 1000)) "k" = decimalTenths n ++ "k" ∧
      |(n : ℚ) / 10 - (v : ℚ) / 1000| ≤ 1 / 20 := by
  have c53 : (2 : ℕ) ^ 53 = 9007199254740992 := by norm_num
  have c54 : (2 : ℕ) ^ 54 = 18014398509481984 := by norm_num
  have c15 : (10 : ℕ) ^ 15 = 1000000000000000 := by norm_num
  obtain ⟨n, hn, b1, b2⟩ := plusToFixed_fl_raw 1 v 1000 (by norm_num) (by norm_num) hv
  rw [c53, c54, pow_one] at b1
  rw [c53, pow_one] at b2
  rw [c53] at hv
  have h1 : 100 * n ≤ v + 50 := by omega
  have h2 : v ≤ 100 * n + 50 := by omega
  refine ⟨n, ?_, ?_⟩
  · unfold fixed1
    rw [ofNat_small v (by rw [c53]; exact hv), ofNat_small 1000 (by norm_num),
      jsDiv_small v 1000 (by norm_num), hn, numberToString_ofDecimal n (by rw [c15]; omega)]
  · have := abs_sub_le_of_bounds n 10 v 1000 (by norm_num) (by norm_num) (by omega) (by omega)
    norm_num at this ⊢
    exact this

/-! # The claims -/

/-! ## C1: the KDA sentinel -/

/-- C1: whenever `getPlayerData` returns a record, detailed or not, `stats.kda` is the string
`∞` if and only if `stats.deaths = 0` and `stats.kills + stats.assists ≠ 0`. -/
theorem C1_kda_infinite (self : MatchTransformer) (m : Match) (player : Participant)
    (detailed : Bool) (teamStats : TeamStats) (r : PlayerView)
    (h : getPlayerData self m player detailed teamStats = .ok r) :
    r.stats.kda = .str "∞" ↔
      player.stats.deaths = 0 ∧ player.stats.kills + player.stats.assists ≠ 0 := by
  obtain ⟨hs, -⟩ := getPlayerData_ok h
  rw [hs]
  simp only [statsOf, kdaOf, killsAssists]
  have hz := jsAdd_ofNat_eq_zero_iff player.stats.kills player.stats.assists
  split_ifs with hc
  · simp only [true_iff]
    exact ⟨hc.2, fun e => hc.1 (hz.2 e)⟩
  · simp only [false_iff, reduceCtorEq]
    rintro ⟨hd, hk⟩
    exact hc ⟨fun e => hk (hz.1 e), hd⟩

/-- C1 at kills = 5, assists = 3, deaths = 0: the call returns a record and its `stats.kda`
is `∞`. -/
theorem C1_kda_infinite_witness :
    ∃ r, getPlayerData sampleContext (sampleMatch [samplePlayer 5 0 3]) (samplePlayer 5 0 3)
        false TeamStats.empty = .ok r ∧ r.stats.kda = .str "∞" :=
  ⟨_, rfl, (C1_kda_infinite sampleContext (sampleMatch [samplePlayer 5 0 3])
    (samplePlayer 5 0 3) false TeamStats.empty _ rfl).2 ⟨rfl, by decide⟩⟩

/-! ## C2: the rounded KDA -/

/-- C2, as stated, fails at kills = 5066549580791809, assists = 0,
deaths = 4503599627370497 = 2 ^ 52 + 1.  The exact quotient is `9 / 8 - 1 / (8 * deaths)`, just
below `1.125`; the division returns the Number `1.125`, `toFixed(2)` prints the larger of the
two nearest numerals, and `stats.kda` is `1.13`.  The only numeral with two fraction digits
within `0.005` of the exact quotient is `1.12`. -/
theorem C2_kda_rounded_counterexample :
    ∃ r, getPlayerData sampleContext
        (sampleMatch [samplePlayer 5066549580791809 4503599627370497 0])
        (samplePlayer 5066549580791809 4503599627370497 0) false TeamStats.empty = .ok r ∧
      r.stats.kda ≠ .str "∞" ∧
      r.stats.kda = .num (ofDecimal 113 2) ∧
      ¬ ∃ n : ℕ, r.stats.kda = .num (ofDecimal n 2) ∧
        |(n : ℚ) / 100 - ((5066549580791809 : ℚ) + 0) / 4503599627370497| ≤ 1 / 200 := by
  refine ⟨_, rfl, by decide, by decide, ?_⟩
  rintro ⟨n, h1, h2⟩
  rw [abs_le] at h2
  obtain ⟨l, u⟩ := h2
  have hn : n = 112 := by
    have l' : (111 : ℚ) < n := by
      have : ((5066549580791809 : ℚ) + 0) / 4503599627370497 > 1124 / 1000 := by norm_num
      linarith
    have u' : (n : ℚ) < 113 := by
      have : ((5066549580791809 : ℚ) + 0) / 4503599627370497 < 1125 / 1000 := by norm_num
      linarith
    have l'' : 111 < n := by exact_mod_cast l'
    have u'' : n < 113 := by exact_mod_cast u'
    omega
  subst hn
  revert h1
  decide

/-- C2, amended: for counts with `200 * (kills + assists) < 2 ^ 53` and `deaths < 2 ^ 53`,
whenever `getPlayerData` returns a record whose `stats.kda` is not the `∞` sentinel,
`stats.kda` is a Number: `0` when `deaths = 0`, and otherwise the Number written `n / 100`
for an integer `n` with `n / 100` within `0.005` of the exact quotient
`(kills + assists) / deaths`. -/
theorem C2_kda_rounded (self : MatchTransformer) (m : Match) (player : Participant)
    (detailed : Bool) (teamStats : TeamStats) (r : PlayerView)
    (h : getPlayerData self m player detailed teamStats = .ok r)
    (hka : 200 * (player.stats.kills + player.stats.assists) < 2 ^ 53)
    (hd : player.stats.deaths < 2 ^ 53)
    (hne : r.stats.kda ≠ .str "∞") :
    (player.stats.deaths = 0 → r.stats.kda = .num (ofNat 0)) ∧
      (player.stats.deaths ≠ 0 → ∃ n : ℕ, r.stats.kda = .num (ofDecimal n 2) ∧
        |(n : ℚ) / 100 - ((player.stats.kills : ℚ) + player.stats.assists) / player.stats.deaths|
          ≤ 1 / 200) := by
  obtain ⟨hs, -⟩ := getPlayerData_ok h
  rw [hs] at hne ⊢
  simp only [statsOf, kdaOf] at hne ⊢
  by_cases hc : killsAssists player ≠ .fin 0 ∧ player.stats.deaths = 0
  · rw [if_pos hc] at hne
    exact absurd rfl hne
  rw [if_neg hc]
  constructor
  · intro h0
    rw [if_pos h0]
    decide
  · intro h0
    rw [if_neg h0, killsAssists_small player (by omega), ofNat_small _ hd,
      jsDiv_small _ _ (Nat.pos_of_ne_zero h0)]
    obtain ⟨n, hn, b1, b2⟩ := plusToFixed_fl 2 (player.stats.kills + player.stats.assists)
      player.stats.deaths (Nat.pos_of_ne_zero h0) hd (by norm_num; omega)
    refine ⟨n, by rw [hn], ?_⟩
    have := abs_sub_le_of_bounds n (10 ^ 2) _ _ (by norm_num) (Nat.pos_of_ne_zero h0) b1 b2
    norm_num at this
    exact this

/-- C2 at kills = 4, assists = 2, deaths = 3: the call returns a record whose `stats.kda` is
the Number `2`, and at kills = 0, assists = 0, deaths = 0 one whose `stats.kda` is `0`. -/
theorem C2_kda_rounded_witness :
    (∃ r, getPlayerData sampleContext (sampleMatch [samplePlayer 4 3 2]) (samplePlayer 4 3 2)
        false TeamStats.empty = .ok r ∧ r.stats.kda = .num (ofNat 2) ∧
      ∃ n : ℕ, r.stats.kda = .num (ofDecimal n 2) ∧
        |(n : ℚ) / 100 - (((4 : ℕ) : ℚ) + ((2 : ℕ) : ℚ)) / ((3 : ℕ) : ℚ)| ≤ 1 / 200) ∧
    ∃ r, getPlayerData sampleContext (sampleMatch [samplePlayer 0 0 0]) (samplePlayer 0 0 0)
        false TeamStats.empty = .ok r ∧ r.stats.kda = .num (ofNat 0) :=
  ⟨⟨_, rfl, by decide,
    (C2_kda_rounded sampleContext (sampleMatch [samplePlayer 4 3 2]) (samplePlayer 4 3 2)
      false TeamStats.empty _ rfl (by decide) (by decide) (by decide)).2 (by decide)⟩,
   ⟨_, rfl,
    (C2_kda_rounded sampleContext (sampleMatch [samplePlayer 0 0 0]) (samplePlayer 0 0 0)
      false TeamStats.empty _ rfl (by decide) (by decide) (by decide)).1 rfl⟩⟩

/-! ## C3: kill participation from the participants -/

/-- C3, as stated, fails for a player with kills = 310000000000021 and assists = 0 beside a
team mate with 3690000000000250 kills: the team total is `T = 4000000000000271`.  The exact
value `(kills + assists) * 100 / T` is `7.75 - 1 / (4 * T)`, just below `7.75`; the division
returns the Number `7.75`, `toFixed(1)` prints the larger of the two nearest numerals, and
`stats.kp` is `7.8`.  The only numeral with one fraction digit within `0.05` of the exact value
is `7.7`. -/
theorem C3_kp_counterexample :
    ∃ r, getPlayerData sampleContext
        (sampleMatch [samplePlayer 310000000000021 0 0,
          { samplePlayer 3690000000000250 0 0 with participantId := 2 }])
        (samplePlayer 310000000000021 0 0) false TeamStats.empty = .ok r ∧
      teamKills
        (sampleMatch [samplePlayer 310000000000021 0 0,
          { samplePlayer 3690000000000250 0 0 with participantId := 2 }])
        (samplePlayer 310000000000021 0 0) = 4000000000000271 ∧
      r.stats.kp = .num (ofDecimal 78 1) ∧
      ¬ ∃ n : ℕ, r.stats.kp = .num (ofDecimal n 1) ∧
        |(n : ℚ) / 10 - ((310000000000021 : ℚ) + 0) * 100 / 4000000000000271| ≤ 1 / 20 := by
  refine ⟨_, rfl, by decide, by decide, ?_⟩
  rintro ⟨n, h1, h2⟩
  rw [abs_le] at h2
  obtain ⟨l, u⟩ := h2
  have hn : n = 77 := by
    have l' : (76 : ℚ) < n := by
      have : ((310000000000021 : ℚ) + 0) * 100 / 4000000000000271 > 77 / 10 := by norm_num
      linarith
    have u' : (n : ℚ) < 78 := by
      have : ((310000000000021 : ℚ) + 0) * 100 / 4000000000000271 < 775 / 100 := by norm_num
      linarith
    have l'' : 76 < n := by exact_mod_cast l'
    have u'' : n < 78 := by exact_mod_cast u'
    omega
  subst hn
  revert h1
  decide

/-- C3, amended: when `detailed` is false, `2000 * (kills + assists) < 2 ^ 53` and the team
total `T`, the sum of `stats.kills` over exactly the participants whose `teamId` is the
player's, is below `2 ^ 53`, whenever `getPlayerData` returns a record its `stats.kp` is the
Number `0` when `T = 0`, and otherwise the Number written `n / 10` for an integer `n` with
`n / 10` within `0.05` of the exact value `(kills + assists) * 100 / T`. -/
theorem C3_kp (self : MatchTransformer) (m : Match) (player : Participant)
    (teamStats : TeamStats) (r : PlayerView)
    (h : getPlayerData self m player false teamStats = .ok r)
    (hka : 2000 * (player.stats.kills + player.stats.assists) < 2 ^ 53)
    (hT : teamKills m player < 2 ^ 53) :
    (teamKills m player = 0 → r.stats.kp = .num (ofNat 0)) ∧
      (teamKills m player ≠ 0 → ∃ n : ℕ, r.stats.kp = .num (ofDecimal n 1) ∧
        |(n : ℚ) / 10 -
            ((player.stats.kills : ℚ) + player.stats.assists) * 100 / teamKills m player|
          ≤ 1 / 20) := by
  obtain ⟨hs, -⟩ := getPlayerData_ok h
  rw [hs]
  simp only [statsOf, kpOf, Bool.false_eq_true, if_false]
  rw [totalKills_small m player hT]
  have hP : 0 < 2 ^ 1074 := Nat.two_pow_pos _
  constructor
  · intro h0
    rw [h0, Nat.zero_mul, if_pos rfl]
  · intro h0
    have hz : JSNum.fin (teamKills m player * 2 ^ 1074) ≠ .fin 0 := by
      intro e
      injection e with e
      rcases Nat.mul_eq_zero.1 e with e | e
      · exact h0 e
      · omega
    rw [if_neg hz]
    obtain ⟨n, hn, hb⟩ := kp_quotient player _ (Nat.pos_of_ne_zero h0) hT hka
    exact ⟨n, by rw [hn], hb⟩

/-- C3 for a player with 4 kills and 2 assists: beside a team mate with 5 kills and an
opponent with 7 kills the team total is 9 and `stats.kp` is `66.7`; in a match without
participants of the player's team the total is 0 and `stats.kp` is `0`. -/
theorem C3_kp_witness :
    (∃ r, getPlayerData sampleContext
        (sampleMatch [samplePlayer 4 3 2, { samplePlayer 5 1 1 with participantId := 2 },
          { samplePlayer 7 1 1 with participantId := 6, teamId := 200 }])
        (samplePlayer 4 3 2) false TeamStats.empty = .ok r ∧
      r.stats.kp = .num (ofDecimal 667 1) ∧
      ∃ n : ℕ, r.stats.kp = .num (ofDecimal n 1) ∧
        |(n : ℚ) / 10 - (((4 : ℕ) : ℚ) + ((2 : ℕ) : ℚ)) * 100 / ((9 : ℕ) : ℚ)| ≤ 1 / 20) ∧
    ∃ r, getPlayerData sampleContext
        (sampleMatch [{ samplePlayer 7 1 1 with participantId := 6, teamId := 200 }])
        (samplePlayer 4 3 2) false TeamStats.empty = .ok r ∧ r.stats.kp = .num (ofNat 0) :=
  ⟨⟨_, rfl, by decide,
    (C3_kp sampleContext
      (sampleMatch [samplePlayer 4 3 2, { samplePlayer 5 1 1 with participantId := 2 },
        { samplePlayer 7 1 1 with participantId := 6, teamId := 200 }])
      (samplePlayer 4 3 2) TeamStats.empty _ rfl (by decide) (by decide)).2 (by decide)⟩,
   ⟨_, rfl,
    (C3_kp sampleContext
      (sampleMatch [{ samplePlayer 7 1 1 with participantId := 6, teamId := 200 }])
      (samplePlayer 4 3 2) TeamStats.empty _ rfl (by decide) (by decide)).1 (by decide)⟩⟩

/-! ## C4: kill participation from the team statistics -/

/-- C4, as stated, fails for a player with kills = 310000000000021 and assists = 0 and
`teamStats.kills = 4000000000000271`.  The exact value `(kills + assists) * 100 / T` is
`7.75 - 1 / (4 * T)`, just below `7.75`; the division returns the Number `7.75`, `toFixed(1)`
prints the larger of the two nearest numerals, and `stats.kp` is `7.8%`.  The only numeral
with one fraction digit within `0.05` of the exact value is `7.7`. -/
theorem C4_kp_detailed_counterexample :
    ∃ r, getPlayerData sampleContext (sampleMatch [samplePlayer 310000000000021 0 0])
        (samplePlayer 310000000000021 0 0) true
        ⟨some 4000000000000271, some 50000, some 40000, some 10000, some 70000⟩ = .ok r ∧
      r.stats.kp = .str "7.8%" ∧
      ¬ ∃ n : ℕ, r.stats.kp = .str (numberToString (ofDecimal n 1) ++ "%") ∧
        |(n : ℚ) / 10 - ((310000000000021 : ℚ) + 0) * 100 / 4000000000000271| ≤ 1 / 20 := by
  refine ⟨_, rfl, by decide, ?_⟩
  rintro ⟨n, h1, h2⟩
  rw [abs_le] at h2
  obtain ⟨l, u⟩ := h2
  have hn : n = 77 := by
    have l' : (76 : ℚ) < n := by
      have : ((310000000000021 : ℚ) + 0) * 100 / 4000000000000271 > 77 / 10 := by norm_num
      linarith
    have u' : (n : ℚ) < 78 := by
      have : ((310000000000021 : ℚ) + 0) * 100 / 4000000000000271 < 775 / 100 := by norm_num
      linarith
    have l'' : 76 < n := by exact_mod_cast l'
    have u'' : n < 78 := by exact_mod_cast u'
    omega
  subst hn
  revert h1
  decide

/-- C4, amended: when `detailed` is true, `teamStats.kills` is the Number `t < 2 ^ 53` and
`2000 * (kills + assists) < 2 ^ 53`, whenever `getPlayerData` returns a record its `stats.kp`
is the string `0%` when `t = 0`, and otherwise the text of the Number written `n / 10`
followed by `%`, for an integer `n` with `n / 10` within `0.05` of the exact value
`(kills + assists) * 100 / t`; it is never `NaN%`, and it is the same for every match, so
`match.participants` is ignored. -/
theorem C4_kp_detailed (self : MatchTransformer) (m : Match) (player : Participant)
    (teamStats : TeamStats) (r : PlayerView) (t : ℕ)
    (h : getPlayerData self m player true teamStats = .ok r)
    (hk : teamStats.kills = some t)
    (hka : 2000 * (player.stats.kills + player.stats.assists) < 2 ^ 53)
    (ht : t < 2 ^ 53) :
    (t = 0 → r.stats.kp = .str "0%") ∧
      (t ≠ 0 → ∃ n : ℕ, r.stats.kp = .str (numberToString (ofDecimal n 1) ++ "%") ∧
        |(n : ℚ) / 10 - ((player.stats.kills : ℚ) + player.stats.assists) * 100 / t| ≤ 1 / 20) ∧
      r.stats.kp ≠ .str "NaN%" ∧
      ∀ (m' : Match) (r' : PlayerView),
        getPlayerData self m' player true teamStats = .ok r' → r'.stats.kp = r.stats.kp := by
  obtain ⟨hs, -⟩ := getPlayerData_ok h
  have hkp : ∀ m', kpOf m' player true teamStats = kpOf m player true teamStats := by
    intro m'
    simp only [kpOf, if_true]
  have hval : (t = 0 → r.stats.kp = .str "0%") ∧
      (t ≠ 0 → ∃ n : ℕ, r.stats.kp = .str (numberToString (ofDecimal n 1) ++ "%") ∧
        |(n : ℚ) / 10 - ((player.stats.kills : ℚ) + player.stats.assists) * 100 / t|
          ≤ 1 / 20) := by
    rw [hs]
    simp only [statsOf, kpOf, if_true, hk, toNumber, fixed1]
    constructor
    · intro h0
      rw [h0, if_pos rfl]
    · intro h0
      have hz : (some t : Option ℕ) ≠ some 0 := by
        intro e
        injection e with e
        exact h0 e
      rw [if_neg hz, ofNat_small t ht]
      obtain ⟨n, hn, hb⟩ := kp_quotient player t (Nat.pos_of_ne_zero h0) ht hka
      exact ⟨n, by rw [hn], hb⟩
  refine ⟨hval.1, hval.2, ?_, ?_⟩
  · rcases Nat.eq_zero_or_pos t with h0 | h0
    · rw [hval.1 h0]
      decide
    · obtain ⟨n, hn, -⟩ := hval.2 h0.ne'
      rw [hn]
      intro e
      injection e with e
      exact numberToString_percent_ne _ (fl_ne_nan _ _) e
  · intro m' r' h'
    obtain ⟨hs', -⟩ := getPlayerData_ok h'
    rw [hs, hs']
    simp only [statsOf]
    exact hkp m'

/-- C4 for a player with 4 kills and 2 assists: with `teamStats.kills = 9` the call returns a
record whose `stats.kp` is `66.7%`, and with `teamStats.kills = 0` one whose `stats.kp` is
`0%`. -/
theorem C4_kp_detailed_witness :
    (∃ r, getPlayerData sampleContext (sampleMatch [samplePlayer 4 3 2]) (samplePlayer 4 3 2)
        true ⟨some 9, some 50000, some 40000, some 10000, some 70000⟩ = .ok r ∧
      r.stats.kp = .str "66.7%" ∧ r.stats.kp ≠ .str "NaN%") ∧
    ∃ r, getPlayerData sampleContext (sampleMatch [samplePlayer 4 3 2]) (samplePlayer 4 3 2)
        true ⟨some 0, some 50000, some 40000, some 10000, some 70000⟩ = .ok r ∧
      r.stats.kp = .str "0%" :=
  ⟨⟨_, rfl, by decide,
    (C4_kp_detailed sampleContext (sampleMatch [samplePlayer 4 3 2]) (samplePlayer 4 3 2)
      ⟨some 9, some 50000, some 40000, some 10000, some 70000⟩ _ 9 rfl rfl (by decide)
      (by decide)).2.2.1⟩,
   ⟨_, rfl,
    (C4_kp_detailed sampleContext (sampleMatch [samplePlayer 4 3 2]) (samplePlayer 4 3 2)
      ⟨some 0, some 50000, some 40000, some 10000, some 70000⟩ _ 0 rfl rfl (by decide)
      (by decide)).1 rfl⟩⟩

/-! ## C5: role resolution -/

/-- C5: for every timeline, `getRoleName` returns `SUPPORT` when the lane is `BOTTOM` and the
role string contains `SUPPORT` as a substring, and the raw lane in every other case; lane
`BOTTOM` with role `DUO_SUPPORT` gives `SUPPORT` and lane `JUNGLE` with any role gives
`JUNGLE`. -/
theorem C5_getRoleName (timeline : Timeline) :
    (getRoleName timeline =
      if timeline.lane = "BOTTOM" ∧ "SUPPORT".data <:+: timeline.role.data then "SUPPORT"
      else timeline.lane) ∧
    getRoleName ⟨"BOTTOM", "DUO_SUPPORT"⟩ = "SUPPORT" ∧
    getRoleName ⟨"JUNGLE", timeline.role⟩ = "JUNGLE" := by
  refine ⟨?_, by decide, ?_⟩
  · unfold getRoleName includes
    simp only [includesChars_iff]
  · unfold getRoleName
    rw [if_neg]
    rintro ⟨h, -⟩
    have h' : "JUNGLE" = "BOTTOM" := h
    exact absurd h' (by decide)

/-! ## C6: the item slots -/

/-- C6: whenever `getPlayerData` returns a record, its `items` array has exactly 6 entries,
and entry `i` is `null` exactly when `player.stats.item<i>` is `0`, for each `i` from 0 to
5. -/
theorem C6_items (self : MatchTransformer) (m : Match) (player : Participant) (detailed : Bool)
    (teamStats : TeamStats) (r : PlayerView)
    (h : getPlayerData self m player detailed teamStats = .ok r) :
    r.items.length = 6 ∧
      ∃ e0 e1 e2 e3 e4 e5, r.items = [e0, e1, e2, e3, e4, e5] ∧
        (e0 = none ↔ player.stats.item0 = 0) ∧ (e1 = none ↔ player.stats.item1 = 0) ∧
        (e2 = none ↔ player.stats.item2 = 0) ∧ (e3 = none ↔ player.stats.item3 = 0) ∧
        (e4 = none ↔ player.stats.item4 = 0) ∧ (e5 = none ↔ player.stats.item5 = 0) := by
  obtain ⟨-, -, -, hi, -⟩ := getPlayerData_ok h
  unfold itemIds at hi
  obtain ⟨e0, r0, q0, s0, hi⟩ := itemSlots_cons hi
  obtain ⟨e1, r1, q1, s1, hi⟩ := itemSlots_cons hi
  obtain ⟨e2, r2, q2, s2, hi⟩ := itemSlots_cons hi
  obtain ⟨e3, r3, q3, s3, hi⟩ := itemSlots_cons hi
  obtain ⟨e4, r4, q4, s4, hi⟩ := itemSlots_cons hi
  obtain ⟨e5, r5, q5, s5, hi⟩ := itemSlots_cons hi
  have q6 := itemSlots_nil hi
  subst q6; subst q5; subst q4; subst q3; subst q2; subst q1
  rw [q0]
  exact ⟨rfl, e0, e1, e2, e3, e4, e5, rfl, itemSlot_none_iff s0, itemSlot_none_iff s1,
    itemSlot_none_iff s2, itemSlot_none_iff s3, itemSlot_none_iff s4, itemSlot_none_iff s5⟩

/-- C6 for the sample player, whose slots 0 and 3 hold item 1001 and whose other slots are
empty: the call returns a record with 6 entries, `null` at the indices 1, 2, 4 and 5 only. -/
theorem C6_items_witness :
    ∃ r, getPlayerData sampleContext (sampleMatch [samplePlayer 4 3 2]) (samplePlayer 4 3 2)
        false TeamStats.empty = .ok r ∧ r.items.length = 6 ∧
      r.items.map Option.isNone = [false, true, true, false, true, true] :=
  ⟨_, rfl,
    (C6_items sampleContext (sampleMatch [samplePlayer 4 3 2]) (samplePlayer 4 3 2) false
      TeamStats.empty _ rfl).1, by decide⟩

/-! ## C7: icon addresses -/

/-- C7 at an item whose `iconPath` holds `/assets/` twice,
`/lol-game-data/assets/ASSETS/Items/assets/1001.png`: `split('/assets/')[1]` is the piece
between the first and the second occurrence, so the address ends in `assets/items` and not in
the lower-cased rest of the path after the first occurrence,
`assets/items/assets/1001.png`. -/
theorem C7_icon_url_second_occurrence :
    ∃ r, getPlayerData
        { sampleContext with
          items := [⟨1001, "/lol-game-data/assets/ASSETS/Items/assets/1001.png", "Boots", "",
            300⟩] }
        (sampleMatch [samplePlayer 4 3 2]) (samplePlayer 4 3 2) false TeamStats.empty = .ok r ∧
      r.items.head? = some (some
        { image := cdragonBase ++ "assets/items", name := "Boots", description := "",
          price := 300 }) ∧
      split "/lol-game-data/assets/ASSETS/Items/assets/1001.png" "/assets/" =
        ["/lol-game-data", "ASSETS/Items", "1001.png"] ∧
      cdragonBase ++ "assets/items" ≠
        cdragonBase ++ toLowerCase "ASSETS/Items/assets/1001.png" :=
  ⟨_, rfl, by decide, by decide, by decide⟩

/-! ## C8: the request path -/

/-- C8 at the names `a/b` and `a?b#c`: `encodeURI` copies the reserved characters `/`, `?`
and `#`, so the request for `a/b` has the path `summoner/v4/summoners/by-name/a/b` with five
`/`, one more than the template; a space and a letter outside ASCII are escaped. -/
theorem C8_summonerName_reserved_kept {L R : Type} (self : SummonerEnpoint L R) :
    self.summonerName (utf16 "a/b") =
        .ok ⟨"summoner/v4/summoners/by-name/a/b", self.limiter, self.region⟩ ∧
      "summoner/v4/summoners/by-name/a/b".data.count '/' = 5 ∧
      "summoner/v4/summoners/by-name/".data.count '/' = 4 ∧
      encodeURI (utf16 "a?b#c") = .ok "a?b#c" ∧
      encodeURI (utf16 "Hide on bush é") = .ok "Hide%20on%20bush%20%C3%A9" :=
  ⟨rfl, by decide, by decide, rfl, rfl⟩

/-! ## C9: validation of the name -/

/-- C9, as stated, fails at the empty name and at an ill-formed one: for the empty string
the method constructs the request for the path `summoner/v4/summoners/by-name/` and executes
it, and for the lone surrogate `0xD800` it fails with the `URIError` of `encodeURI`, not with
`InvalidParameterError`. -/
theorem C9_summonerName_validation_counterexample :
    (⟨(), ()⟩ : SummonerEnpoint Unit Unit).summonerName [] =
        .ok ⟨"summoner/v4/summoners/by-name/", (), ()⟩ ∧
      (⟨(), ()⟩ : SummonerEnpoint Unit Unit).summonerName [] ≠ .error .invalidParameterError ∧
      (⟨(), ()⟩ : SummonerEnpoint Unit Unit).summonerName [0xD800] = .error .uriError ∧
      (⟨(), ()⟩ : SummonerEnpoint Unit Unit).summonerName [0xD800] ≠
        .error .invalidParameterError := by
  refine ⟨rfl, ?_, rfl, ?_⟩ <;> intro h <;> cases h

/-- C9, amended: `summonerName` validates nothing and never fails with
`InvalidParameterError`.  For the empty name it constructs and executes the request for the
path `summoner/v4/summoners/by-name/`; for every well-formed name it constructs and executes
the request for that path followed by `encodeURI(name)`, with the limiter and the region of
the endpoint; for a name with an unpaired surrogate it fails with `URIError` before a request
is constructed. -/
theorem C9_summonerName_no_validation {L R : Type} (self : SummonerEnpoint L R)
    (name : List ℕ) :
    self.summonerName name ≠ .error .invalidParameterError ∧
      self.summonerName [] =
        .ok ⟨"summoner/v4/summoners/by-name/", self.limiter, self.region⟩ ∧
      ((wellFormedUTF16 name = true ∧ ∃ encoded, encodeURI name = .ok encoded ∧
          self.summonerName name =
            .ok ⟨"summoner/v4/summoners/by-name/" ++ encoded, self.limiter, self.region⟩) ∨
        (wellFormedUTF16 name = false ∧ self.summonerName name = .error .uriError)) := by
  obtain ⟨hiff, herr⟩ := encodeUnits_ok_iff name.length name rfl
  have key : (wellFormedUTF16 name = true ∧ ∃ encoded, encodeURI name = .ok encoded ∧
        self.summonerName name =
          .ok ⟨"summoner/v4/summoners/by-name/" ++ encoded, self.limiter, self.region⟩) ∨
      (wellFormedUTF16 name = false ∧ self.summonerName name = .error .uriError) := by
    cases hr : encodeUnits name with
    | ok out =>
      left
      refine ⟨hiff.1 ⟨out, hr⟩, String.mk out, ?_, ?_⟩
      · simp only [encodeURI, hr]
      · simp only [SummonerEnpoint.summonerName, encodeURI, hr]
    | error e =>
      right
      have he := herr e hr
      subst he
      refine ⟨?_, ?_⟩
      · cases hw : wellFormedUTF16 name with
        | false => rfl
        | true =>
          obtain ⟨out, ho⟩ := hiff.2 hw
          rw [hr] at ho
          cases ho
      · simp only [SummonerEnpoint.summonerName, encodeURI, hr]
  refine ⟨?_, rfl, key⟩
  rcases key with ⟨-, enc, -, h⟩ | ⟨-, h⟩ <;> rw [h] <;> intro hc <;> cases hc

/-! ## C10: the role order -/

/-- C10: for two player views whose roles are among `TOP`, `JUNGLE`, `MIDDLE`, `BOTTOM`,
`SUPPORT`, `sortTeamByRole(a, b)` is negative exactly when `a.role` comes before `b.role` in
that order, zero exactly when the roles are equal, and positive exactly when `a.role` comes
after `b.role`; so every arrangement of a team of such views that is ordered by the comparator
lists the roles in that order. -/
theorem C10_sortTeamByRole (a b : PlayerView) (team : List PlayerView)
    (ha : a.role ∈ ["TOP", "JUNGLE", "MIDDLE", "BOTTOM", "SUPPORT"])
    (hb : b.role ∈ ["TOP", "JUNGLE", "MIDDLE", "BOTTOM", "SUPPORT"])
    (hteam : ∀ v ∈ team, v.role ∈ ["TOP", "JUNGLE", "MIDDLE", "BOTTOM", "SUPPORT"]) :
    (sortTeamByRole a b < 0 ↔ roleRank a.role < roleRank b.role) ∧
      (sortTeamByRole a b = 0 ↔ a.role = b.role) ∧
      (0 < sortTeamByRole a b ↔ roleRank b.role < roleRank a.role) ∧
      ∀ sorted : List PlayerView, sorted.Perm team →
        sorted.Pairwise (fun x y => sortTeamByRole x y ≤ 0) →
        (sorted.map fun v => roleRank v.role).Pairwise (· ≤ ·) := by
  have hab := sortTeamByRole_eq a b ha hb
  refine ⟨by omega, ⟨fun h => roleRank_inj _ _ ha hb (by omega), fun h => by rw [h] at hab; omega⟩,
    by omega, ?_⟩
  intro sorted hperm hsorted
  rw [List.pairwise_map]
  refine hsorted.imp_of_mem ?_
  intro x y hx hy hxy
  have := sortTeamByRole_eq x y (hteam x (hperm.mem_iff.1 hx)) (hteam y (hperm.mem_iff.1 hy))
  omega

/-- C10 for the views of a `TOP` and a `SUPPORT` player: the comparator is negative on
(`TOP`, `SUPPORT`) and the team `SUPPORT`, `TOP` is listed as `TOP`, `SUPPORT` by the
arrangement ordered by the comparator. -/
theorem C10_sortTeamByRole_witness :
    sortTeamByRole (sampleView "TOP") (sampleView "SUPPORT") < 0 ∧
      ([sampleView "TOP", sampleView "SUPPORT"].map fun v => roleRank v.role).Pairwise
        (· ≤ ·) :=
  ⟨(C10_sortTeamByRole (sampleView "TOP") (sampleView "SUPPORT")
      [sampleView "SUPPORT", sampleView "TOP"] (by decide) (by decide) (by decide)).1.2
      (by decide),
   (C10_sortTeamByRole (sampleView "TOP") (sampleView "SUPPORT")
      [sampleView "SUPPORT", sampleView "TOP"] (by decide) (by decide) (by decide)).2.2.2
      [sampleView "TOP", sampleView "SUPPORT"] (List.Perm.swap _ _ _) (by decide)⟩

/-! ## C11: the champion projection -/

/-- C11: whenever `getPlayerData` returns a record, its `champion` is the projection
`{ id, name, tags }` of the first champion of the context, in entry order, whose numeric key
is `player.championId`: the entries before it have other keys.  The projection has these three
fields only, so two contexts whose champions agree in key, id, name and tags give the same
`champion`, whatever the other fields of the champions hold. -/
theorem C11_champion_projection (self self' : MatchTransformer) (m : Match)
    (player : Participant) (detailed : Bool) (teamStats : TeamStats) (r r' : PlayerView)
    (h : getPlayerData self m player detailed teamStats = .ok r)
    (h' : getPlayerData self' m player detailed teamStats = .ok r')
    (hsame : self'.champions.map (fun e => (e.2.key, e.2.id, e.2.name, e.2.tags)) =
      self.champions.map (fun e => (e.2.key, e.2.id, e.2.name, e.2.tags))) :
    (∃ before entry after, self.champions = before ++ entry :: after ∧
        strictEq entry.2.key (ofNat player.championId) = true ∧
        (∀ e ∈ before, strictEq e.2.key (ofNat player.championId) = false) ∧
        r.champion = { id := entry.2.id, name := entry.2.name, tags := entry.2.tags }) ∧
      r'.champion = r.champion := by
  obtain ⟨-, entry, -, hen, -, hch⟩ := getPlayerData_lookups h
  obtain ⟨-, entry', -, hen', -, hch'⟩ := getPlayerData_lookups h'
  constructor
  · obtain ⟨hp, before, after, hl, hb⟩ := List.find?_eq_some.1 hen
    refine ⟨before, entry, after, hl, hp, ?_, hch⟩
    intro e he
    have := hb e he
    simpa using this
  · rw [hch, hch']
    have key : ∀ (l l' : List (String × Champion)),
        l'.map (fun e => (e.2.key, e.2.id, e.2.name, e.2.tags)) =
          l.map (fun e => (e.2.key, e.2.id, e.2.name, e.2.tags)) →
        ∀ e e', l.find? (fun entry => strictEq entry.2.key (ofNat player.championId)) = some e →
          l'.find? (fun entry => strictEq entry.2.key (ofNat player.championId)) = some e' →
          (e'.2.id, e'.2.name, e'.2.tags) = (e.2.id, e.2.name, e.2.tags) := by
      intro l
      induction l with
      | nil => intro l' _ e e' he; simp at he
      | cons x xs ih =>
        intro l' hm e e' he he'
        match l', hm with
        | [], hm => simp at hm
        | y :: ys, hm =>
          simp only [List.map_cons, List.cons.injEq, Prod.mk.injEq] at hm
          obtain ⟨⟨hk, hi, hn, ht⟩, hrest⟩ := hm
          simp only [List.find?_cons] at he he'
          rw [hk] at he'
          cases hx : strictEq x.2.key (ofNat player.championId) with
          | true =>
            rw [hx] at he he'
            cases he; cases he'
            simp [hi, hn, ht]
          | false =>
            rw [hx] at he he'
            exact ih ys hrest e e' he he'
    have := key _ _ hsame entry entry' hen hen'
    simp only [Prod.mk.injEq] at this
    obtain ⟨a, b, c⟩ := this
    rw [a, b, c]

/-- C11 for the sample player, who plays champion 103: the call returns a record whose
`champion` is the projection of Ahri, the second entry of the context, and a context whose
champions have other titles and blurbs gives the same `champion`. -/
theorem C11_champion_projection_witness :
    ∃ r r', getPlayerData sampleContext (sampleMatch [samplePlayer 4 3 2]) (samplePlayer 4 3 2)
        false TeamStats.empty = .ok r ∧
      getPlayerData
        { sampleContext with
          champions :=
            [("Aatrox", ⟨ofNat 266, "Aatrox", "Aatrox", ["Fighter", "Tank"], "", "a blurb"⟩),
             ("Ahri", ⟨ofNat 103, "Ahri", "Ahri", ["Mage", "Assassin"], "a title", "a blurb"⟩)] }
        (sampleMatch [samplePlayer 4 3 2]) (samplePlayer 4 3 2) false TeamStats.empty = .ok r' ∧
      r.champion = { id := "Ahri", name := "Ahri", tags := ["Mage", "Assassin"] } ∧
      (∃ before entry after, sampleContext.champions = before ++ entry :: after ∧
        strictEq entry.2.key (ofNat (samplePlayer 4 3 2).championId) = true ∧
        (∀ e ∈ before, strictEq e.2.key (ofNat (samplePlayer 4 3 2).championId) = false) ∧
        r.champion = { id := entry.2.id, name := entry.2.name, tags := entry.2.tags }) ∧
      r'.champion = r.champion :=
  ⟨_, _, rfl, rfl, by decide,
    C11_champion_projection sampleContext
      { sampleContext with
        champions :=
          [("Aatrox", ⟨ofNat 266, "Aatrox", "Aatrox", ["Fighter", "Tank"], "", "a blurb"⟩),
           ("Ahri", ⟨ofNat 103, "Ahri", "Ahri", ["Mage", "Assassin"], "a title", "a blurb"⟩)] }
      (sampleMatch [samplePlayer 4 3 2]) (samplePlayer 4 3 2) false TeamStats.empty _ _
      rfl rfl rfl⟩

/-! ## C12: the shares of the team statistics -/

/-- C12: whenever `getPlayerData` returns a record: for `detailed = false` its `percentStats`
is `undefined` and the call returns the same for every `teamStats`; for `detailed = true` its
`percentStats` is a record of the six fields `minions`, `vision`, `gold`, `dmgChamp`, `dmgObj`
and `dmgTaken`, each with the value of its formula. -/
theorem C12_percentStats (self : MatchTransformer) (m : Match) (player : Participant)
    (detailed : Bool) (teamStats : TeamStats) (r : PlayerView)
    (h : getPlayerData self m player detailed teamStats = .ok r) :
    (detailed = false →
        r.percentStats = none ∧
          ∀ teamStats', getPlayerData self m player false teamStats' = .ok r) ∧
      (detailed = true →
        r.percentStats = some
          { minions := plusToFixed 2
              (jsDiv r.stats.minions (jsDiv (ofNat m.gameDuration) (ofNat 60)))
            vision := plusToFixed 2
              (jsDiv (ofNat r.stats.vision) (jsDiv (ofNat m.gameDuration) (ofNat 60)))
            gold := fixed1 (jsDiv (jsMul (ofNat player.stats.goldEarned) (ofNat 100))
              (toNumber teamStats.gold)) "%"
            dmgChamp := fixed1 (jsDiv (jsMul (ofNat player.stats.totalDamageDealtToChampions)
              (ofNat 100)) (toNumber teamStats.dmgChamp)) "%"
            dmgObj := fixed1 (jsDiv (jsMul (ofNat player.stats.damageDealtToObjectives)
              (ofNat 100)) (toNumber teamStats.dmgObj)) "%"
            dmgTaken := fixed1 (jsDiv (jsMul (ofNat player.stats.totalDamageTaken)
              (ofNat 100)) (toNumber teamStats.dmgTaken)) "%" }) := by
  obtain ⟨hs, hps, -⟩ := getPlayerData_ok h
  constructor
  · intro hd
    subst hd
    refine ⟨by rw [hps]; rfl, ?_⟩
    intro teamStats'
    rw [← h]
    simp only [getPlayerData, statsOf, kpOf, percentStatsOf, Bool.false_eq_true, if_false]
  · intro hd
    subst hd
    rw [hps, hs]
    rfl

/-- C12 for the sample player: without `detailed` the record has no `percentStats`, with
`detailed` and team statistics it has one. -/
theorem C12_percentStats_witness :
    (∃ r, getPlayerData sampleContext (sampleMatch [samplePlayer 4 3 2]) (samplePlayer 4 3 2)
        false TeamStats.empty = .ok r ∧ r.percentStats = none) ∧
    ∃ r, getPlayerData sampleContext (sampleMatch [samplePlayer 4 3 2]) (samplePlayer 4 3 2)
        true ⟨some 9, some 50000, some 40000, some 10000, some 70000⟩ = .ok r ∧
      (r.percentStats.map fun ps => (ps.gold, ps.dmgChamp, ps.dmgObj, ps.dmgTaken)) =
        some ("24.7%", "38.6%", "0%", "17.1%") :=
  ⟨⟨_, rfl,
    ((C12_percentStats sampleContext (sampleMatch [samplePlayer 4 3 2]) (samplePlayer 4 3 2)
      false TeamStats.empty _ rfl).1 rfl).1⟩,
   ⟨_, rfl, by
    rw [(C12_percentStats sampleContext (sampleMatch [samplePlayer 4 3 2]) (samplePlayer 4 3 2)
      true ⟨some 9, some 50000, some 40000, some 10000, some 70000⟩ _ rfl).2 rfl]
    decide⟩⟩

/-! ## C13: determinism -/

/-- C13: a call of `getPlayerData` on a heap that holds the context, the match, the player and
`teamStats` gives its caller what the function `getPlayerData` of these four and `detailed`
gives, an exception or a record.  So two calls with the same match, player, `detailed`,
`teamStats` and contexts with the same champions, items, perks and perk styles give the same,
on any two heaps and at any references.  The call creates objects and writes to the objects
it created only: every object that was on the heap is as it was, among them the context, the
match and the player, and a second call after the first gives the same record. -/
theorem C13_deterministic (h k : Heap) (this mref pref tref this' mref' pref' tref' : Ref)
    (detailed : Bool) (self self' : MatchTransformer) (m : Match) (player : Participant)
    (teamStats : TeamStats)
    (hthis : h.get? this = some (.transformer self))
    (hm : h.get? mref = some (.matchData m))
    (hp : h.get? pref = some (.participant player))
    (ht : h.get? tref = some (.teamStats teamStats))
    (kthis : k.get? this' = some (.transformer self'))
    (km : k.get? mref' = some (.matchData m))
    (kp : k.get? pref' = some (.participant player))
    (kt : k.get? tref' = some (.teamStats teamStats))
    (hc : self'.champions = self.champions) (hi : self'.items = self.items)
    (hpk : self'.perks = self.perks) (hs : self'.perkstyles = self.perkstyles) :
    outcomeOf (getPlayerDataBody this mref pref detailed tref h) =
        (getPlayerData self m player detailed teamStats).map some ∧
      outcomeOf (getPlayerDataBody this' mref' pref' detailed tref' k) =
        outcomeOf (getPlayerDataBody this mref pref detailed tref h) ∧
      (∀ r o, h.get? r = some o →
        (getPlayerDataBody this mref pref detailed tref h).2.get? r = some o) ∧
      (getPlayerDataBody this mref pref detailed tref h).2.get? this =
        some (.transformer self) ∧
      (getPlayerDataBody this mref pref detailed tref h).2.get? mref = some (.matchData m) ∧
      (getPlayerDataBody this mref pref detailed tref h).2.get? pref =
        some (.participant player) ∧
      outcomeOf (getPlayerDataBody this mref pref detailed tref
          (getPlayerDataBody this mref pref detailed tref h).2) =
        outcomeOf (getPlayerDataBody this mref pref detailed tref h) := by
  obtain ⟨⟨ex, hex⟩, hout⟩ :=
    getPlayerDataBody_run h this mref pref tref detailed self m player teamStats hthis hm hp ht
  obtain ⟨-, kout⟩ :=
    getPlayerDataBody_run k this' mref' pref' tref' detailed self' m player teamStats
      kthis km kp kt
  have hkeep : ∀ r o, h.get? r = some o →
      (getPlayerDataBody this mref pref detailed tref h).2.get? r = some o := by
    intro r o hr
    rw [hex]
    exact get?_append_of_get? hr ex
  obtain ⟨-, hout2⟩ :=
    getPlayerDataBody_run (getPlayerDataBody this mref pref detailed tref h).2 this mref pref
      tref detailed self m player teamStats (hkeep _ _ hthis) (hkeep _ _ hm) (hkeep _ _ hp)
      (hkeep _ _ ht)
  refine ⟨hout, ?_, hkeep, hkeep _ _ hthis, hkeep _ _ hm, hkeep _ _ hp, ?_⟩
  · rw [kout, hout, getPlayerData_congr self self' m player detailed teamStats hc hi hpk hs]
  · rw [hout2, hout]

/-- C13 on the sample heap and on a second heap that holds the same match, player and
`teamStats` at other references, beside another object, and a context of another version: both
calls return the record of the sample player, and the first leaves the four objects of the
sample heap as they were. -/
theorem C13_deterministic_witness :
    outcomeOf (getPlayerDataBody 0 1 2 false 3 sampleHeap) =
        (getPlayerData sampleContext (sampleMatch [samplePlayer 4 3 2]) (samplePlayer 4 3 2)
          false TeamStats.empty).map some ∧
      outcomeOf (getPlayerDataBody 4 2 1 false 0
          [.teamStats TeamStats.empty, .participant (samplePlayer 4 3 2),
           .matchData (sampleMatch [samplePlayer 4 3 2]), .array [],
           .transformer { sampleContext with version := "10.9.1" }]) =
        outcomeOf (getPlayerDataBody 0 1 2 false 3 sampleHeap) ∧
      (getPlayerDataBody 0 1 2 false 3 sampleHeap).2.take 4 = sampleHeap ∧
      (getPlayerDataBody 0 1 2 false 3 sampleHeap).2.length = 6 ∧
      outcomeOf (getPlayerDataBody 0 1 2 false 3 (getPlayerDataBody 0 1 2 false 3 sampleHeap).2) =
        outcomeOf (getPlayerDataBody 0 1 2 false 3 sampleHeap) :=
  ⟨(C13_deterministic sampleHeap
      [.teamStats TeamStats.empty, .participant (samplePlayer 4 3 2),
       .matchData (sampleMatch [samplePlayer 4 3 2]), .array [],
       .transformer { sampleContext with version := "10.9.1" }]
      0 1 2 3 4 2 1 0 false sampleContext { sampleContext with version := "10.9.1" }
      (sampleMatch [samplePlayer 4 3 2]) (samplePlayer 4 3 2) TeamStats.empty
      rfl rfl rfl rfl rfl rfl rfl rfl rfl rfl rfl rfl).1,
   (C13_deterministic sampleHeap
      [.teamStats TeamStats.empty, .participant (samplePlayer 4 3 2),
       .matchData (sampleMatch [samplePlayer 4 3 2]), .array [],
       .transformer { sampleContext with version := "10.9.1" }]
      0 1 2 3 4 2 1 0 false sampleContext { sampleContext with version := "10.9.1" }
      (sampleMatch [samplePlayer 4 3 2]) (samplePlayer 4 3 2) TeamStats.empty
      rfl rfl rfl rfl rfl rfl rfl rfl rfl rfl rfl rfl).2.1,
   by decide, by decide,
   (C13_deterministic sampleHeap
      [.teamStats TeamStats.empty, .participant (samplePlayer 4 3 2),
       .matchData (sampleMatch [samplePlayer 4 3 2]), .array [],
       .transformer { sampleContext with version := "10.9.1" }]
      0 1 2 3 4 2 1 0 false sampleContext { sampleContext with version := "10.9.1" }
      (sampleMatch [samplePlayer 4 3 2]) (samplePlayer 4 3 2) TeamStats.empty
      rfl rfl rfl rfl rfl rfl rfl rfl rfl rfl rfl rfl).2.2.2.2.2.2⟩

/-! ## C14: the rate limiter -/

/-- C14: a request that `summonerName` constructs carries the limiter the endpoint was
constructed with, and for a limiter as the specification describes it, started with an empty
window and an empty queue, the requests admitted in any one time window are never more than
the configured budget, whatever requests are submitted and whenever the windows end. -/
theorem C14_rate_limiter {L R : Type} (self : SummonerEnpoint L R) (name : List ℕ)
    (req : JaxRequest L R) (h : self.summonerName name = .ok req) (budget : ℕ)
    (events : List (LimiterEvent (JaxRequest L R))) :
    req.limiter = self.limiter ∧
      ∀ w ∈ RateLimiter.windows ⟨budget, 0, []⟩ [] events, w.length ≤ budget := by
  constructor
  · unfold SummonerEnpoint.summonerName at h
    split at h
    · injection h with h
      rw [← h]
    · exact absurd h (by simp)
  · exact windows_le_budget events ⟨budget, 0, []⟩ [] rfl (Nat.zero_le _)

/-- C14 for the endpoint of limiter `riot` and region `euw1`, and a budget of two: the request
for `Faker` carries the limiter `riot`; when it is submitted three times, the window ends, and
it is submitted once more, the windows admit two requests each. -/
theorem C14_rate_limiter_witness :
    ∃ req : JaxRequest String String,
      SummonerEnpoint.summonerName ⟨"riot", "euw1"⟩ (utf16 "Faker") = .ok req ∧
      req.path = "summoner/v4/summoners/by-name/Faker" ∧
      (RateLimiter.windows ⟨2, 0, []⟩ []
        [LimiterEvent.submit req, .submit req, .submit req, .rollover, .submit req]).map
          List.length = [2, 2] ∧
      req.limiter = "riot" ∧
      ∀ w ∈ RateLimiter.windows ⟨2, 0, []⟩ []
        [LimiterEvent.submit req, .submit req, .submit req, .rollover, .submit req],
        w.length ≤ 2 :=
  ⟨_, rfl, by decide, by decide,
    C14_rate_limiter ⟨"riot", "euw1"⟩ (utf16 "Faker") _ rfl 2
      [LimiterEvent.submit _, .submit _, .submit _, .rollover, .submit _]⟩

/-! ## C15: the runes -/

/-- C15 at a perk whose `iconPath` holds `/assets/` twice,
`/lol-game-data/assets/v1/perk-images/assets/Precision/PressTheAttack.png`: the call returns a
record with two rune addresses, but `split('/assets/')[1]` is the piece between the first and
the second occurrence, so `primaryRune` ends in `v1/perk-images` and is not the icon address
of the perk, which ends in the lower-cased rest of the path after the first occurrence,
`v1/perk-images/assets/precision/presstheattack.png`.  A perk style with such a path gives
a `secondaryRune` cut short in the same way. -/
theorem C15_runes_second_occurrence :
    (∃ r, getPlayerData
        { sampleContext with
          perks :=
            [⟨8005, "/lol-game-data/assets/v1/perk-images/assets/Precision/PressTheAttack.png"⟩] }
        (sampleMatch [samplePlayer 4 3 2]) (samplePlayer 4 3 2) false TeamStats.empty = .ok r ∧
      r.primaryRune = some (cdragonBase ++ "v1/perk-images") ∧
      r.secondaryRune = some (cdragonBase ++ "v1/perk-images/styles/7200_domination.png")) ∧
    (∃ r, getPlayerData
        { sampleContext with
          perkstyles :=
            [⟨8100, "/lol-game-data/assets/v1/perk-images/assets/Styles/7200_Domination.png"⟩] }
        (sampleMatch [samplePlayer 4 3 2]) (samplePlayer 4 3 2) false TeamStats.empty = .ok r ∧
      r.secondaryRune = some (cdragonBase ++ "v1/perk-images")) ∧
    split "/lol-game-data/assets/v1/perk-images/assets/Precision/PressTheAttack.png" "/assets/" =
      ["/lol-game-data", "v1/perk-images", "Precision/PressTheAttack.png"] ∧
    toLowerCase "v1/perk-images/assets/Precision/PressTheAttack.png" =
      "v1/perk-images/assets/precision/presstheattack.png" ∧
    cdragonBase ++ "v1/perk-images" ≠
      cdragonBase ++ toLowerCase "v1/perk-images/assets/Precision/PressTheAttack.png" :=
  ⟨⟨_, rfl, by decide, by decide⟩, ⟨_, rfl, by decide⟩, by decide, by decide, by decide⟩

/-! ## C16: the stats in thousands -/

/-- C16 (as stated, refuted): with `goldEarned = 36028797018964152` the call returns a record
whose `stats.gold` is `36028797018964.1k`, while the only numeral with one decimal place
within 0.05 of `36028797018964.152` is `36028797018964.2`. -/
theorem C16_thousands_counterexample :
    ∃ r, getPlayerData sampleContext
        (sampleMatch [{ samplePlayer 4 3 2 with
          stats := { (samplePlayer 4 3 2).stats with goldEarned := 36028797018964152 } }])
        { samplePlayer 4 3 2 with
          stats := { (samplePlayer 4 3 2).stats with goldEarned := 36028797018964152 } }
        false TeamStats.empty = .ok r ∧
      r.stats.gold = "36028797018964.1k" ∧
      ¬ ∃ n : ℕ, r.stats.gold = decimalTenths n ++ "k" ∧
        |(n : ℚ) / 10 - (36028797018964152 : ℚ) / 1000| ≤ 1 / 20 := by
  refine ⟨_, rfl, by decide, ?_⟩
  rintro ⟨n, hn, hb⟩
  rw [abs_le] at hb
  obtain ⟨hb1, hb2⟩ := hb
  have h1 : (360287970189641 : ℚ) < n := by linarith
  have h2 : (n : ℚ) < 360287970189643 := by linarith
  have h1' : 360287970189641 < n := by exact_mod_cast h1
  have h2' : n < 360287970189643 := by exact_mod_cast h2
  have hn' : n = 360287970189642 := by omega
  subst hn'
  revert hn
  decide

/-- C16 (amended): for a record that `getPlayerData` returns, each of `stats.gold`,
`stats.dmgChamp`, `stats.dmgObj` and `stats.dmgTaken` whose source value is below `2 ^ 53` is
the decimal text, without a trailing `.0`, of `n / 10` followed by `k`, for an integer `n`
with `n / 10` within 0.05 of the value divided by 1000. -/
theorem C16_thousands (self : MatchTransformer) (m : Match) (player : Participant)
    (detailed : Bool) (teamStats : TeamStats) (r : PlayerView)
    (h : getPlayerData self m player detailed teamStats = .ok r) :
    (player.stats.goldEarned < 2 ^ 53 →
      ∃ n : ℕ, r.stats.gold = decimalTenths n ++ "k" ∧
        |(n : ℚ) / 10 - (player.stats.goldEarned : ℚ) / 1000| ≤ 1 / 20) ∧
    (player.stats.totalDamageDealtToChampions < 2 ^ 53 →
      ∃ n : ℕ, r.stats.dmgChamp = decimalTenths n ++ "k" ∧
        |(n : ℚ) / 10 - (player.stats.totalDamageDealtToChampions : ℚ) / 1000| ≤ 1 / 20) ∧
    (player.stats.damageDealtToObjectives < 2 ^ 53 →
      ∃ n : ℕ, r.stats.dmgObj = decimalTenths n ++ "k" ∧
        |(n : ℚ) / 10 - (player.stats.damageDealtToObjectives : ℚ) / 1000| ≤ 1 / 20) ∧
    (player.stats.totalDamageTaken < 2 ^ 53 →
      ∃ n : ℕ, r.stats.dmgTaken = decimalTenths n ++ "k" ∧
        |(n : ℚ) / 10 - (player.stats.totalDamageTaken : ℚ) / 1000| ≤ 1 / 20) := by
  obtain ⟨hs, -⟩ := getPlayerData_ok h
  rw [hs]
  simp only [statsOf]
  exact ⟨fixed1_thousands _, fixed1_thousands _, fixed1_thousands _, fixed1_thousands _⟩

/-- C16 for the sample player, with `goldEarned = 12345`, `damageDealtToObjectives = 0` and
`totalDamageTaken = 12000`: the call returns a record with `gold = 12.3k`, `dmgObj = 0k` and
`dmgTaken = 12k`, and each of the four stats is within 0.05 of its value divided by 1000. -/
theorem C16_thousands_witness :
    ∃ r, getPlayerData sampleContext (sampleMatch [samplePlayer 4 3 2]) (samplePlayer 4 3 2)
        false TeamStats.empty = .ok r ∧
      r.stats.gold = "12.3k" ∧ r.stats.dmgChamp = "15.4k" ∧ r.stats.dmgObj = "0k" ∧
      r.stats.dmgTaken = "12k" ∧
      (∃ n : ℕ, r.stats.gold = decimalTenths n ++ "k" ∧
        |(n : ℚ) / 10 - ((samplePlayer 4 3 2).stats.goldEarned : ℚ) / 1000| ≤ 1 / 20) ∧
      (∃ n : ℕ, r.stats.dmgChamp = decimalTenths n ++ "k" ∧
        |(n : ℚ) / 10 - ((samplePlayer 4 3 2).stats.totalDamageDealtToChampions : ℚ) / 1000|
          ≤ 1 / 20) ∧
      (∃ n : ℕ, r.stats.dmgObj = decimalTenths n ++ "k" ∧
        |(n : ℚ) / 10 - ((samplePlayer 4 3 2).stats.damageDealtToObjectives : ℚ) / 1000|
          ≤ 1 / 20) ∧
      ∃ n : ℕ, r.stats.dmgTaken = decimalTenths n ++ "k" ∧
        |(n : ℚ) / 10 - ((samplePlayer 4 3 2).stats.totalDamageTaken : ℚ) / 1000| ≤ 1 / 20 :=
  ⟨_, rfl, by decide, by decide, by decide, by decide,
    (C16_thousands sampleContext (sampleMatch [samplePlayer 4 3 2]) (samplePlayer 4 3 2)
      false TeamStats.empty _ rfl).1 (by decide),
    (C16_thousands sampleContext (sampleMatch [samplePlayer 4 3 2]) (samplePlayer 4 3 2)
      false TeamStats.empty _ rfl).2.1 (by decide),
    (C16_thousands sampleContext (sampleMatch [samplePlayer 4 3 2]) (samplePlayer 4 3 2)
      false TeamStats.empty _ rfl).2.2.1 (by decide),
    (C16_thousands sampleContext (sampleMatch [samplePlayer 4 3 2]) (samplePlayer 4 3 2)
      false TeamStats.empty _ rfl).2.2.2 (by decide)⟩

/-! ## C17: the comparator on all roles -/

/-- C17: for all player views, with roles among the five or not,
`sortTeamByRole(a, b) = -sortTeamByRole(b, a)`, and `a ≤ b` and `b ≤ c` imply `a ≤ c`; a view
whose role is none of `TOP`, `JUNGLE`, `MIDDLE`, `BOTTOM`, `SUPPORT` compares strictly before
every view with a known role and equal to every other view with an unknown role. -/
theorem C17_comparator (a b c unknown unknown' known : PlayerView)
    (hu : unknown.role ∉ ["TOP", "JUNGLE", "MIDDLE", "BOTTOM", "SUPPORT"])
    (hu' : unknown'.role ∉ ["TOP", "JUNGLE", "MIDDLE", "BOTTOM", "SUPPORT"])
    (hk : known.role ∈ ["TOP", "JUNGLE", "MIDDLE", "BOTTOM", "SUPPORT"]) :
    sortTeamByRole a b = - sortTeamByRole b a ∧
      (sortTeamByRole a b ≤ 0 → sortTeamByRole b c ≤ 0 → sortTeamByRole a c ≤ 0) ∧
      sortTeamByRole unknown known < 0 ∧
      sortTeamByRole unknown unknown' = 0 := by
  have e1 := indexOfFrom_not_mem unknown.role sortingArr 0 hu
  have e2 := indexOfFrom_not_mem unknown'.role sortingArr 0 hu'
  have e3 := indexOfFrom_nonneg known.role sortingArr 0 hk
  unfold sortTeamByRole
  refine ⟨by omega, by omega, by omega, by omega⟩

/-- C17 for a view with the role `NONE`: it compares before the `TOP` view and equal to a
view with the role `MID`. -/
theorem C17_comparator_witness :
    sortTeamByRole (sampleView "NONE") (sampleView "TOP") < 0 ∧
      sortTeamByRole (sampleView "NONE") (sampleView "MID") = 0 ∧
      sortTeamByRole (sampleView "SUPPORT") (sampleView "NONE") =
        - sortTeamByRole (sampleView "NONE") (sampleView "SUPPORT") :=
  ⟨(C17_comparator (sampleView "SUPPORT") (sampleView "NONE") (sampleView "TOP")
      (sampleView "NONE") (sampleView "MID") (sampleView "TOP")
      (by decide) (by decide) (by decide)).2.2.1,
   (C17_comparator (sampleView "SUPPORT") (sampleView "NONE") (sampleView "TOP")
      (sampleView "NONE") (sampleView "MID") (sampleView "TOP")
      (by decide) (by decide) (by decide)).2.2.2,
   (C17_comparator (sampleView "SUPPORT") (sampleView "NONE") (sampleView "TOP")
      (sampleView "NONE") (sampleView "MID") (sampleView "TOP")
      (by decide) (by decide) (by decide)).1⟩

/-! ## C18: no partial record -/

/-- C18: `getPlayerData` fails instead of returning a record with an entry missing when one of
the six item slots holds a non-zero id that no item of the context has, or the id of an item
whose `iconPath` does not contain `/assets/`, or when no champion of the context has the key
`player.championId`, or when no participant identity has the `participantId` of the player:
the call throws a `TypeError`. -/
theorem C18_no_partial_record (self : MatchTransformer) (m : Match) (player : Participant)
    (detailed : Bool) (teamStats : TeamStats)
    (h : (∃ id ∈ itemIds player.stats, id ≠ 0 ∧ ∀ item ∈ self.items, item.id ≠ id) ∨
      (∃ id ∈ itemIds player.stats, id ≠ 0 ∧ ∃ item,
        self.items.find? (fun i => decide (i.id = id)) = some item ∧
          ¬ "/assets/".data <:+: item.iconPath.data) ∨
      (∀ entry ∈ self.champions, strictEq entry.2.key (ofNat player.championId) = false) ∨
      (∀ p ∈ m.participantIdentities, p.participantId ≠ player.participantId)) :
    getPlayerData self m player detailed teamStats = .error .typeError := by
  have hitems : (∃ id ∈ itemIds player.stats, itemSlot self id = .error .typeError) →
      getPlayerData self m player detailed teamStats = .error .typeError := by
    intro hbad
    have hs := itemSlots_error self _ hbad (fun i _ e he => itemSlot_error_type self i e he)
    unfold getPlayerData
    split
    · rfl
    · split
      · rfl
      · split
        · rename_i e he
          rw [runesOf_error_type self player e he]
        · rw [hs]
  rcases h with ⟨id, hid, h0, hno⟩ | ⟨id, hid, h0, item, hfind, hpath⟩ | hch | hpi
  · apply hitems
    refine ⟨id, hid, ?_⟩
    have hf : self.items.find? (fun i => decide (i.id = id)) = none := by
      rw [List.find?_eq_none]
      intro x hx
      simpa using hno x hx
    simp only [itemSlot, h0, if_false, hf]
  · apply hitems
    refine ⟨id, hid, ?_⟩
    simp only [itemSlot, h0, if_false, hfind, iconUrl_no_separator _ hpath]
  · have hf : self.champions.find?
        (fun entry => strictEq entry.2.key (ofNat player.championId)) = none := by
      rw [List.find?_eq_none]
      intro x hx
      simpa using hch x hx
    unfold getPlayerData
    split
    · rfl
    · rw [hf]
  · have hf : m.participantIdentities.find?
        (fun p => decide (p.participantId = player.participantId)) = none := by
      rw [List.find?_eq_none]
      intro x hx
      simpa using hpi x hx
    unfold getPlayerData
    rw [hf]

/-- C18 for the sample player with item 3006, which the sample context does not have, in
slot 1: the call throws. -/
theorem C18_no_partial_record_witness :
    getPlayerData sampleContext (sampleMatch [samplePlayer 4 3 2])
        { samplePlayer 4 3 2 with stats := { (samplePlayer 4 3 2).stats with item1 := 3006 } }
        false TeamStats.empty = .error .typeError :=
  C18_no_partial_record sampleContext (sampleMatch [samplePlayer 4 3 2])
    { samplePlayer 4 3 2 with stats := { (samplePlayer 4 3 2).stats with item1 := 3006 } }
    false TeamStats.empty (Or.inl ⟨3006, by decide, by decide, by decide⟩)

/-! ## C19: the default team statistics -/

/-- C19: when the call returns a record for some `detailed` and `teamStats`, the call with
`detailed = true` and the default `teamStats = {}` returns a record too: its `stats.kp` is
`NaN%` and the `gold`, `dmgChamp`, `dmgObj` and `dmgTaken` of its `percentStats` are `NaN%`.
The guard on `kp` compares `teamStats.kills` with `0`: for an absent `teamStats.kills` the
call returns `NaN%`, for `teamStats.kills = 0` it returns `0%`. -/
theorem C19_missing_teamStats (self : MatchTransformer) (m : Match) (player : Participant)
    (detailed : Bool) (teamStats : TeamStats) (r' : PlayerView)
    (h : getPlayerData self m player detailed teamStats = .ok r') :
    (∃ r, getPlayerData self m player true TeamStats.empty = .ok r ∧
        r.stats.kp = .str "NaN%" ∧
        ∃ ps, r.percentStats = some ps ∧ ps.gold = "NaN%" ∧ ps.dmgChamp = "NaN%" ∧
          ps.dmgObj = "NaN%" ∧ ps.dmgTaken = "NaN%") ∧
      (∀ ts : TeamStats, ts.kills = none →
        ∃ r, getPlayerData self m player true ts = .ok r ∧ r.stats.kp = .str "NaN%") ∧
      (∀ ts : TeamStats, ts.kills = some 0 →
        ∃ r, getPlayerData self m player true ts = .ok r ∧ r.stats.kp = .str "0%") := by
  have hnan : ∀ x, fixed1 (jsDiv x .nan) "%" = "NaN%" := by
    intro x
    cases x <;> rfl
  have hret : ∀ d ts, ∃ r, getPlayerData self m player d ts = .ok r ∧
      r.stats = statsOf m player d ts ∧ r.percentStats = percentStatsOf m player d ts := by
    intro d ts
    unfold getPlayerData at h ⊢
    split at h
    · cases h
    · split at h
      · cases h
      · split at h
        · cases h
        · split at h
          · cases h
          · exact ⟨_, rfl, rfl, rfl⟩
  refine ⟨?_, ?_, ?_⟩
  · obtain ⟨r, hr, hs, hp⟩ := hret true TeamStats.empty
    refine ⟨r, hr, ?_, ?_⟩
    · rw [hs]
      simp only [statsOf, kpOf, if_true, TeamStats.empty, toNumber, reduceCtorEq, if_false, hnan]
    · rw [hp]
      simp only [percentStatsOf, if_true]
      refine ⟨_, rfl, ?_, ?_, ?_, ?_⟩ <;> simp only [TeamStats.empty, toNumber, hnan]
  · intro ts hk
    obtain ⟨r, hr, hs, -⟩ := hret true ts
    refine ⟨r, hr, ?_⟩
    rw [hs]
    simp only [statsOf, kpOf, if_true, hk, toNumber, reduceCtorEq, if_false, hnan]
  · intro ts hk
    obtain ⟨r, hr, hs, -⟩ := hret true ts
    refine ⟨r, hr, ?_⟩
    rw [hs]
    simp only [statsOf, kpOf, if_true, hk]

/-- C19 for the sample player: the call without `teamStats` returns a record with `NaN%` in
`stats.kp` and in the four shares of `percentStats`. -/
theorem C19_missing_teamStats_witness :
    ∃ r, getPlayerData sampleContext (sampleMatch [samplePlayer 4 3 2]) (samplePlayer 4 3 2)
        true TeamStats.empty = .ok r ∧ r.stats.kp = .str "NaN%" ∧
      (r.percentStats.map fun ps => (ps.gold, ps.dmgChamp, ps.dmgObj, ps.dmgTaken)) =
        some ("NaN%", "NaN%", "NaN%", "NaN%") := by
  obtain ⟨r, hr, hkp, ps, hps, h1, h2, h3, h4⟩ :=
    (C19_missing_teamStats sampleContext (sampleMatch [samplePlayer 4 3 2])
      (samplePlayer 4 3 2) false TeamStats.empty _ rfl).1
  exact ⟨r, hr, hkp, by rw [hps]; simp [h1, h2, h3, h4]⟩

end LeagueStats
